import Mathlib

/-!
# Interactive kubectl command builder (pkg/execute/kubectl_cmd_builder.go)

A shallow embedding of the command builder of botkube and of the parts of
`pkg/api/message.go` it renders into, followed by the properties proved about it.

Conventions of the embedding.

* A Go `string` is a sequence of bytes.  It is embedded as the Lean `String` that has
  one character per byte, so that `String.length` is Go's `len`, a prefix of the
  character list is Go's prefix slice `s[:n]`, `++` is Go's concatenation and `=` is
  Go's `==`.  ASCII text, which covers every constant of the program, is embedded as
  itself; text with multi-byte characters is embedded as the bytes of its UTF-8
  encoding, one Lean character per byte, and `characterCount` gives the number of its
  characters.  Every length and every limit stated below is in bytes unless it is said
  to be in characters.
* `fmt.Sprintf` with `%s` verbs only is written as the concatenation it computes.
* A Go pointer that may be `nil` is an `Option`; a Go `(value, error)` result is an
  `Except String`, the string being the error text.
* The collaborators reached through interfaces (policy gate, execution gateway,
  namespace inventory, bindings merger) are fields of an environment record; every call
  made to the execution gateway, the namespace inventory or the policy gate is recorded,
  in program order, in a call log that the embedded functions return next to their
  result.
-/

set_option autoImplicit false

namespace Botkube

/-! ## Constants -/

def verbsDropdownCommand : String := "kc-cmd-builder --verbs"
def resourceTypesDropdownCommand : String := "kc-cmd-builder --resource-type"
def resourceNamesDropdownCommand : String := "kc-cmd-builder --resource-name"
def resourceNamespaceDropdownCommand : String := "kc-cmd-builder --namespace"
def filterPlaintextInputCommand : String := "kc-cmd-builder --filter-query"
def kubectlCommandName : String := "kubectl"
def dropdownItemsLimit : Nat := 100
def noKubectlCommandsInChannel : String :=
  "No `kubectl` commands are enabled in this channel. To learn how to enable them, visit https://docs.botkube.io/configuration/executor."
def kubectlMissingCommandMsg : String := "Please specify the kubectl command"

/-- The key set of the Go map `knownCmdPrefix`. -/
def knownCmdPrefix : List String :=
  [verbsDropdownCommand, resourceTypesDropdownCommand, resourceNamesDropdownCommand,
   resourceNamespaceDropdownCommand, filterPlaintextInputCommand]

def errRequiredVerbDropdown : String := "verbs dropdown select cannot be empty"

/-! ## Command-prefix recognition -/

/-- `KubectlCmdBuilder.GetCommandPrefix`: the command prefix, only if it is known. -/
def GetCommandPrefix (args : List String) : String :=
  match args with
  | [] => ""
  | [a0] => if a0 = kubectlCommandName then a0 else ""
  | a0 :: a1 :: _ =>
    let gotCmd := a0 ++ " " ++ a1
    if gotCmd ∈ knownCmdPrefix then gotCmd else ""

/-- `KubectlCmdBuilder.CanHandle`. -/
def CanHandle (args : List String) : Bool :=
  GetCommandPrefix args != ""

/-- The reference definition of prefix recognition, following the specification: it is
phrased over the number of tokens and the tokens at index 0 and 1, with the five known
prefixes spelled out. -/
def prefixReference (args : List String) : String :=
  if args.length = 0 then ""
  else if args.length = 1 then
    (if args.getD 0 "" = "kubectl" then args.getD 0 "" else "")
  else
    let joined := args.getD 0 "" ++ " " ++ args.getD 1 ""
    if joined = "kc-cmd-builder --verbs" ∨ joined = "kc-cmd-builder --resource-type" ∨
        joined = "kc-cmd-builder --resource-name" ∨ joined = "kc-cmd-builder --namespace" ∨
        joined = "kc-cmd-builder --filter-query" then joined
    else ""

/-! ## Message model (pkg/api/message.go) -/

/-- `api.ButtonStyle`, a Go string type. -/
abbrev ButtonStyle := String
def ButtonStyleDefault : ButtonStyle := ""
def ButtonStylePrimary : ButtonStyle := "primary"
def ButtonStyleDanger : ButtonStyle := "danger"

/-- `api.SelectType`, a Go string type. -/
abbrev SelectType := String
def StaticSelect : SelectType := "static"
def ExternalSelect : SelectType := "external"

/-- `api.MessageType`, a Go string type. -/
abbrev MessageType := String
def DefaultMessage : MessageType := ""

/-- `api.DispatchedInputAction`, a Go string type. -/
abbrev DispatchedInputAction := String
def NoDispatchInputAction : DispatchedInputAction := ""
def DispatchInputActionOnEnter : DispatchedInputAction := "on_enter_pressed"
def DispatchInputActionOnCharacter : DispatchedInputAction := "on_character_entered"

/-- `api.OptionItem`: an option of a dropdown, a display label and a value. -/
structure OptionItem where
  Name : String := ""
  Value : String := ""
  deriving DecidableEq, Repr

/-- `api.OptionGroup`. -/
structure OptionGroup where
  Name : String := ""
  Options : List OptionItem := []
  deriving DecidableEq, Repr

/-- `api.Select`; the Go field `Type` is named `type` here, `InitialOption` is a pointer. -/
structure Select where
  type : SelectType := ""
  Name : String := ""
  Command : String := ""
  OptionGroups : List OptionGroup := []
  InitialOption : Option OptionItem := none
  deriving DecidableEq, Repr

/-- `api.Body`. -/
structure Body where
  CodeBlock : String := ""
  Plaintext : String := ""
  deriving DecidableEq, Repr

/-- `api.Base`. -/
structure Base where
  Header : String := ""
  Description : String := ""
  Body : Body := {}
  deriving DecidableEq, Repr

/-- `api.Button`. -/
structure Button where
  Description : String := ""
  Name : String := ""
  Command : String := ""
  URL : String := ""
  Style : ButtonStyle := ""
  deriving DecidableEq, Repr

/-- `api.MultiSelect`. -/
structure MultiSelect where
  Name : String := ""
  Description : Body := {}
  Command : String := ""
  Options : List OptionItem := []
  InitialOptions : List OptionItem := []
  deriving DecidableEq, Repr

/-- `api.Selects`: the dropdowns of one block, with the identifier of the block. -/
structure Selects where
  ID : String := ""
  Items : List Select := []
  deriving DecidableEq, Repr

/-- `api.LabelInput`. -/
structure LabelInput where
  Command : String := ""
  Text : String := ""
  Placeholder : String := ""
  DispatchedAction : DispatchedInputAction := ""
  deriving DecidableEq, Repr

/-- `api.TextField`. -/
structure TextField where
  Text : String := ""
  deriving DecidableEq, Repr

/-- `api.ContextItem`. -/
structure ContextItem where
  Text : String := ""
  deriving DecidableEq, Repr

/-- `api.Section`; the embedded `Base` is the field `Base`. -/
structure Section where
  Base : Base := {}
  Buttons : List Button := []
  MultiSelect : MultiSelect := {}
  Selects : Selects := {}
  PlaintextInputs : List LabelInput := []
  TextFields : List TextField := []
  Context : List ContextItem := []
  deriving DecidableEq, Repr

/-- `api.Message`. -/
structure Message where
  type : MessageType := ""
  BaseBody : Body := {}
  Sections : List Section := []
  PlaintextInputs : List LabelInput := []
  OnlyVisibleForYou : Bool := false
  ReplaceOriginal : Bool := false
  deriving DecidableEq, Repr

/-- Modelled from the spec: `api.MessageBotNamePlaceholder`, a constant of package `api`
declared outside `message.go`; it is the text that stands for the name of the bot in a
command and is replaced by the chat integration. -/
def MessageBotNamePlaceholder : String := "\x7b\x7bBotName\x7d\x7d"

/-- `ButtonBuilder.ForCommandWithoutDesc`, with the optional style given. -/
def ForCommandWithoutDesc (name cmd : String) (style : ButtonStyle) : Button :=
  let cmd := MessageBotNamePlaceholder ++ " " ++ cmd
  { Name := name, Command := cmd, Style := style }

/-- Modelled from the spec: `interactive.CoreMessage`, declared outside `src`; the code
sets its `Description` and its embedded `api.Message`. -/
structure CoreMessage where
  Description : String := ""
  Message : Message := {}
  deriving DecidableEq, Repr

/-! ## View helpers

The functions that build the dropdowns and the message are declared in a file of package
`execute` that is outside `src`; they are modelled from the specification. -/

/-- Modelled from the spec: `dropdownItem`, "a (display-label, value) pair"; the code
reads its fields `Name` and `Value`. -/
structure dropdownItem where
  Name : String := ""
  Value : String := ""
  deriving DecidableEq, Repr

/-- Modelled from the spec: `newDropdownItem`, the pair of a display label and a value. -/
def newDropdownItem (key value : String) : dropdownItem :=
  { Name := key, Value := value }

/-- Modelled from the spec: the common construction of a dropdown.  The dropdown
"cannot be constructed" when the list of items is empty; otherwise every item is an option
(label and value), and the current item is pre-selected "if still valid", that is when it
is one of the items. -/
def selectDropdown (name cmd : String) (items : List dropdownItem)
    (initialItem : dropdownItem) : Option Select :=
  if items.isEmpty then none
  else
    some
      { type := StaticSelect
        Name := name
        Command := MessageBotNamePlaceholder ++ " " ++ cmd
        OptionGroups :=
          [{ Name := name, Options := items.map fun i => { Name := i.Name, Value := i.Value } }]
        InitialOption :=
          if initialItem ∈ items then
            some { Name := initialItem.Name, Value := initialItem.Value }
          else none }

/-- Modelled from the spec: a list of names as dropdown items, each name being both the
label and the value. -/
def createDropdownItems (names : List String) : List dropdownItem :=
  names.map fun n => newDropdownItem n n

/-- Modelled from the spec: `VerbSelect`, the verb dropdown built "from the permitted verb
list, with the current verb pre-selected if still valid"; absent when the list is empty. -/
def VerbSelect (verbs : List String) (initialItem : String) : Option Select :=
  selectDropdown "Select command" verbsDropdownCommand (createDropdownItems verbs)
    (newDropdownItem initialItem initialItem)

/-- Modelled from the spec: `ResourceTypeSelect`, the resource-type dropdown. -/
def ResourceTypeSelect (resources : List String) (initialItem : String) : Option Select :=
  selectDropdown "Select resource" resourceTypesDropdownCommand (createDropdownItems resources)
    (newDropdownItem initialItem initialItem)

/-- Modelled from the spec: `ResourceNamesSelect`, the resource-name dropdown. -/
def ResourceNamesSelect (names : List String) (initialItem : String) : Option Select :=
  selectDropdown "Select resource name" resourceNamesDropdownCommand (createDropdownItems names)
    (newDropdownItem initialItem initialItem)

/-- Modelled from the spec: `ResourceNamespaceSelect`, the namespace dropdown, built from
(label, value) items. -/
def ResourceNamespaceSelect (names : List dropdownItem) (initialNamespace : dropdownItem) :
    Option Select :=
  selectDropdown "Select namespace" resourceNamespaceDropdownCommand names initialNamespace

/-- Modelled from the spec: `EmptyResourceNameDropdown`, the explicitly-empty dropdown, "a
dropdown with no options, distinguishable from dropdown omitted". -/
def EmptyResourceNameDropdown : Option Select :=
  some { type := ExternalSelect, Name := "No resources found" }

/-- Modelled from the spec: `interactive.RunCommandName`, the label of the run button. -/
def RunCommandName : String := "Run command"

/-- Modelled from the spec: `FilterSection`, the filter input; its command is the
filter-input command. -/
def FilterSection : LabelInput :=
  { Command := MessageBotNamePlaceholder ++ " " ++ filterPlaintextInputCommand
    Text := "Filter output"
    Placeholder := "(Optional) Type to filter command output by."
    DispatchedAction := DispatchInputActionOnCharacter }

/-- Modelled from the spec: `PreviewSection`, the command preview: a section that shows
the command as a code block together with the filter input, and a section with the button
that runs the command. -/
def PreviewSection (cmd : String) (input : LabelInput) : List Section :=
  [ { Base := { Body := { CodeBlock := cmd } }, PlaintextInputs := [input] },
    { Buttons := [ForCommandWithoutDesc RunCommandName cmd ButtonStylePrimary] } ]

/-- Modelled from the spec: `InternalErrorSection`, the "internal-error placeholder
section" rendered instead of a preview. -/
def InternalErrorSection : Section :=
  { Base :=
      { Body :=
          { Plaintext :=
              "Sorry, an internal error occurred while rendering command preview. See the logs for more details." } } }

/-- Modelled from the spec: `KubectlCmdBuilderOptions`, what a render consists of, "a set
of dropdowns + optional preview sections". -/
structure KubectlCmdBuilderOptions where
  selects : List Select := []
  sections : List Section := []
  deriving DecidableEq, Repr

/-- `KubectlCmdBuilderOption`, a functional option. -/
abbrev KubectlCmdBuilderOption := KubectlCmdBuilderOptions → KubectlCmdBuilderOptions

/-- Modelled from the spec: `WithAdditionalSelects` adds the given dropdowns, in order; an
omitted dropdown (`nil`) adds nothing. -/
def WithAdditionalSelects (xs : List (Option Select)) : KubectlCmdBuilderOption :=
  fun options => { options with selects := options.selects ++ xs.filterMap id }

/-- Modelled from the spec: `WithAdditionalSections` adds the given sections, in order. -/
def WithAdditionalSections (xs : List Section) : KubectlCmdBuilderOption :=
  fun options => { options with sections := options.sections ++ xs }

/-- Modelled from the spec: `KubectlCmdBuilderMessage`.  The message has one section that
holds the dropdowns of the session block, the verb dropdown first, followed by the
additional sections; it replaces the original message in place and is visible to the user
only. -/
def KubectlCmdBuilderMessage (dropdownsBlockID : String) (verbs : Select)
    (opts : List KubectlCmdBuilderOption) : CoreMessage :=
  let defaultOpt : KubectlCmdBuilderOptions := { selects := [verbs] }
  let defaultOpt := opts.foldl (fun o opt => opt o) defaultOpt
  { Message :=
      { ReplaceOriginal := true
        OnlyVisibleForYou := true
        Sections :=
          { Selects := { ID := dropdownsBlockID, Items := defaultOpt.selects } } ::
            defaultOpt.sections } }

/-! ## Collaborators -/

/-- `kubectl.Resource`, declared outside `src`: the metadata of a resource type; the code
reads these three fields. -/
structure Resource where
  Name : String := ""
  Namespaced : Bool := false
  SlashSeparatedInCommand : Bool := false
  deriving DecidableEq, Repr

/-- `CommandContext`, declared outside `src`: the context of the caller; the command
builder passes it on to the execution gateway unread. -/
structure CommandContext where
  User : String := ""
  deriving DecidableEq, Repr

/-- `CommandGuard`, the policy gate. -/
structure CommandGuard where
  GetAllowedResourcesForVerb : String → List String → Except String (List Resource)
  GetResourceDetails : String → String → Except String Resource
  FilterSupportedVerbs : List String → List String

/-- The interface `kcExecutor`, the execution gateway. -/
structure kcExecutor where
  Execute : List String → String → Bool → CommandContext → Except String String

/-- The interface `NamespaceLister`, the namespace inventory: `List` takes the limit of the
list options and gives the names of the items of the namespace list. -/
structure NamespaceLister where
  List : Nat → Except String (List String)

/-- `config.Namespaces`, declared outside `src`: an allow-list of namespaces, used through
its method `IsAllowed`. -/
structure Namespaces where
  IsAllowed : String → Except String Bool

/-- `kubectl.EnabledKubectl`, declared outside `src`: the merged kubectl configuration.
The two Go maps used as sets are given by their keys, and the map from resource type to
allow-list by its lookup function (a missing key gives the zero allow-list). -/
structure EnabledKubectl where
  AllowedKubectlResource : List String
  AllowedKubectlVerb : List String
  DefaultNamespace : String
  AllowedNamespacesPerResource : String → Namespaces

/-- The interface `kcMerger`. -/
structure kcMerger where
  MergeAllEnabled : List String → EnabledKubectl

/-- `KubectlCmdBuilder`.  The logger is left out.  `quote` is the `%q` verb of
`fmt.Sprintf` (Go's `strconv.Quote`), a function of the standard library that is taken as a
parameter. -/
structure KubectlCmdBuilder where
  kcExecutor : kcExecutor
  merger : kcMerger
  namespaceLister : NamespaceLister
  commandGuard : CommandGuard
  quote : String → String

/-- A call made to a collaborator across the boundary of the engine. -/
inductive Call where
  | GetAllowedResourcesForVerb (verb : String) (resources : List String)
  | GetResourceDetails (verb resourceType : String)
  | Execute (bindings : List String) (command : String) (isAuthChannel : Bool)
  | ListNamespaces (limit : Nat)
  deriving DecidableEq, Repr

/-- Whether the call goes to the execution gateway. -/
def Call.isExecute : Call → Bool
  | .Execute _ _ _ => true
  | _ => false

/-- Whether the call goes to the namespace inventory. -/
def Call.isListNamespaces : Call → Bool
  | .ListNamespaces _ => true
  | _ => false

/-! ## The command builder -/

/-- The struct `stateDetails`; the Go field `namespace` is named `namespace_`. -/
structure stateDetails where
  dropdownsBlockID : String := ""
  verb : String := ""
  namespace_ : String := ""
  resourceType : String := ""
  resourceName : String := ""
  filter : String := ""
  deriving DecidableEq, Repr

/-- `splitByNewLines`. -/
def splitByNewLines (c : Char) : Bool :=
  c == '\n' || c == '\r'

/-- Go's `strings.FieldsFunc`: the maximal runs of characters that do not satisfy `f`. -/
def FieldsFunc (s : String) (f : Char → Bool) : List String :=
  ((s.data.splitOnP f).filter fun field => !field.isEmpty).map String.mk

/-- `getNonEmptyLines`. -/
def getNonEmptyLines (input : String) : List String :=
  let lines := FieldsFunc input splitByNewLines
  lines.filter fun x => x ≠ ""

/-- `overflowSentence`: the loop rewrites every element of 76 bytes or more in place. -/
def overflowSentence (input : List String) : List String :=
  input.map fun s => if s.length < 76 then s else String.mk (s.data.take 72) ++ "..."

/-- `KubectlCmdBuilder.contains`. -/
def contains (matchingTypes : Option Select) (resourceType : String) : Bool :=
  match matchingTypes with
  | none => false
  | some sel =>
    match sel.InitialOption with
    | some opt => opt.Value == resourceType
    | none => false

/-- `KubectlCmdBuilder.appendNamespaceSuffixIfDefault`. -/
def appendNamespaceSuffixIfDefault (item : dropdownItem) : dropdownItem :=
  if item.Name = "default" then { item with Name := item.Name ++ " (namespace)" } else item

/-- `KubectlCmdBuilder.buildCommandPreview`, with the calls it makes. -/
def buildCommandPreview (e : KubectlCmdBuilder) (state : stateDetails) :
    List Section × List Call :=
  let calls := [Call.GetResourceDetails state.verb state.resourceType]
  match e.commandGuard.GetResourceDetails state.verb state.resourceType with
  | .error _ => ([InternalErrorSection], calls)
  | .ok resourceDetails =>
    if resourceDetails.SlashSeparatedInCommand && state.resourceName == "" then
      ([], calls)
    else
      let cmd := kubectlCommandName ++ " " ++ state.verb ++ " " ++ state.resourceType
      let resourceNameSeparator :=
        if resourceDetails.SlashSeparatedInCommand then "/" else " "
      let cmd :=
        if state.resourceName ≠ "" then cmd ++ resourceNameSeparator ++ state.resourceName
        else cmd
      let cmd :=
        if resourceDetails.Namespaced && state.namespace_ != "" then
          cmd ++ " -n " ++ state.namespace_
        else cmd
      let cmd :=
        if state.filter ≠ "" then cmd ++ " --filter=" ++ e.quote state.filter else cmd
      (PreviewSection cmd FilterSection, calls)

/-- `KubectlCmdBuilder.tryToGetResourceNamesSelect`, with the calls it makes. -/
def tryToGetResourceNamesSelect (e : KubectlCmdBuilder) (bindings : List String)
    (state : stateDetails) (cmdCtx : CommandContext) : Option Select × List Call :=
  if state.resourceType = "" then (EmptyResourceNameDropdown, [])
  else
    let cmd :=
      kubectlCommandName ++ " get " ++ state.resourceType ++
        " --ignore-not-found=true -o go-template='\x7b\x7brange .items\x7d\x7d\x7b\x7b.metadata.name\x7d\x7d\x7b\x7b\"\\n\"\x7d\x7d\x7b\x7bend\x7d\x7d'"
    let cmd := if state.namespace_ ≠ "" then cmd ++ " -n " ++ state.namespace_ else cmd
    let calls := [Call.Execute bindings cmd true]
    match e.kcExecutor.Execute bindings cmd true cmdCtx with
    | .error _ => (EmptyResourceNameDropdown, calls)
    | .ok out =>
      let lines := getNonEmptyLines out
      if lines.length = 0 then (EmptyResourceNameDropdown, calls)
      else (ResourceNamesSelect (overflowSentence lines) state.resourceName, calls)

/-- `KubectlCmdBuilder.tryToGetNamespaceSelect`, with the calls it makes. -/
def tryToGetNamespaceSelect (e : KubectlCmdBuilder) (bindings : List String)
    (details : stateDetails) : Option Select × List Call :=
  let calls := [Call.GetResourceDetails details.verb details.resourceType]
  match e.commandGuard.GetResourceDetails details.verb details.resourceType with
  | .error _ => (none, calls)
  | .ok resourceDetails =>
    if !resourceDetails.Namespaced then (none, calls)
    else
      let calls := calls ++ [Call.ListNamespaces dropdownItemsLimit]
      match e.namespaceLister.List dropdownItemsLimit with
      | .error _ => (none, calls)
      | .ok allClusterNamespaces =>
        let kc := e.merger.MergeAllEnabled bindings
        let allowedNS := kc.AllowedNamespacesPerResource details.resourceType
        let initialNamespace :=
          appendNamespaceSuffixIfDefault (newDropdownItem details.namespace_ details.namespace_)
        let finalNS :=
          allClusterNamespaces.filterMap fun itemName =>
            match allowedNS.IsAllowed itemName with
            | .error _ => none
            | .ok false => none
            | .ok true =>
              let kv := newDropdownItem itemName itemName
              some (if initialNamespace.Value = kv.Value then appendNamespaceSuffixIfDefault kv
                    else kv)
        (ResourceNamespaceSelect finalNS initialNamespace, calls)

/-- `KubectlCmdBuilder.getAllowedResourcesSelectList`, with the calls it makes. -/
def getAllowedResourcesSelectList (e : KubectlCmdBuilder) (verb : String)
    (resources : List String) (resourceType : String) :
    Except String (Option Select) × List Call :=
  let calls := [Call.GetAllowedResourcesForVerb verb resources]
  match e.commandGuard.GetAllowedResourcesForVerb verb resources with
  | .error err => (.error err, calls)
  | .ok allowedResources =>
    if allowedResources.length = 0 then (.ok none, calls)
    else
      let allowedResourcesList := allowedResources.map fun item => item.Name
      (.ok (ResourceTypeSelect allowedResourcesList resourceType), calls)

/-- `KubectlCmdBuilder.renderMessage`, with the calls it makes, in order. -/
def renderMessage (e : KubectlCmdBuilder) (stateDetails : stateDetails)
    (bindings allVerbs allTypes : List String) (cmdCtx : CommandContext) :
    Except String CoreMessage × List Call :=
  match VerbSelect allVerbs stateDetails.verb with
  | none => (.error errRequiredVerbDropdown, [])
  | some allVerbsSelect =>
    -- 1. Refresh resource type list
    let types :=
      getAllowedResourcesSelectList e stateDetails.verb allTypes stateDetails.resourceType
    match types.1 with
    | .error err => (.error err, types.2)
    | .ok matchingTypes =>
      -- 2. The verb has no resource types
      if matchingTypes.isNone then
        let stateDetails :=
          { stateDetails with resourceType := "", resourceName := "", namespace_ := "" }
        let preview := buildCommandPreview e stateDetails
        (.ok (KubectlCmdBuilderMessage stateDetails.dropdownsBlockID allVerbsSelect
            [WithAdditionalSections preview.1]),
          types.2 ++ preview.2)
      -- 3. The resource type is not on the list anymore
      else if !contains matchingTypes stateDetails.resourceType then
        (.ok (KubectlCmdBuilderMessage stateDetails.dropdownsBlockID allVerbsSelect
            [WithAdditionalSelects [matchingTypes]]),
          types.2)
      else
        let resNames := tryToGetResourceNamesSelect e bindings stateDetails cmdCtx
        let nsNames := tryToGetNamespaceSelect e bindings stateDetails
        -- 4. If a given resource name is not on the list anymore, clear it.
        let stateDetails :=
          if !contains resNames.1 stateDetails.resourceName then
            { stateDetails with resourceName := "" }
          else stateDetails
        -- 5. If a given namespace is not on the list anymore, clear it.
        let stateDetails :=
          if !contains nsNames.1 stateDetails.namespace_ then
            { stateDetails with namespace_ := "" }
          else stateDetails
        -- 6. Render all dropdowns and full command preview.
        let preview := buildCommandPreview e stateDetails
        (.ok (KubectlCmdBuilderMessage stateDetails.dropdownsBlockID allVerbsSelect
            [WithAdditionalSelects [matchingTypes, resNames.1, nsNames.1],
             WithAdditionalSections preview.1]),
          types.2 ++ resNames.2 ++ nsNames.2 ++ preview.2)

/-! ## Observations on a rendered message -/

/-- The dropdowns of the message: the items of every block of dropdowns, in order. -/
def CoreMessage.dropdowns (msg : CoreMessage) : List Select :=
  msg.Message.Sections.flatMap fun sec => sec.Selects.Items

/-- Whether the message shows a command: some section has a code block. -/
def CoreMessage.hasCommandPreview (msg : CoreMessage) : Bool :=
  msg.Message.Sections.any fun sec => sec.Base.Body.CodeBlock != ""

/-- Whether the message has the filter input. -/
def CoreMessage.hasFilterInput (msg : CoreMessage) : Bool :=
  msg.Message.Sections.any fun sec => sec.PlaintextInputs.contains FilterSection

/-- The options of a dropdown, as (label, value) pairs, over all its groups. -/
def Select.options (sel : Select) : List OptionItem :=
  sel.OptionGroups.flatMap fun g => g.Options

/-! ## Named fragments of the render and of the specification -/

/-- The state of step 2 of the render: the three fields that depend on a resource type are
cleared. -/
def clearedState (s : stateDetails) : stateDetails :=
  { s with resourceType := "", resourceName := "", namespace_ := "" }

/-- The state of step 6 of the render: the resource name and the namespace are kept only
when the dropdown fetched for them has them pre-selected. -/
def finalState (s : stateDetails) (resNames nsNames : Option Select) : stateDetails :=
  let s1 := if !contains resNames s.resourceName then { s with resourceName := "" } else s
  if !contains nsNames s1.namespace_ then { s1 with namespace_ := "" } else s1

/-- The command line of the command preview as the specification assembles it: the
binary, the verb and the resource type, then the name joined by its separator when there is
a name, then the namespace flag, then the filter flag. -/
def previewCommandReference (quote : String → String) (d : Resource) (s : stateDetails) :
    String :=
  "kubectl " ++ s.verb ++ " " ++ s.resourceType ++
    (if s.resourceName = "" then ""
      else (if d.SlashSeparatedInCommand = true then "/" else " ") ++ s.resourceName) ++
    (if d.Namespaced = true ∧ s.namespace_ ≠ "" then " -n " ++ s.namespace_ else "") ++
    (if s.filter = "" then "" else " --filter=" ++ quote s.filter)

/-- Whether an allow-list check answered "allowed" without an error. -/
def allowedWithoutError (r : Except String Bool) : Bool :=
  match r with
  | .ok true => true
  | _ => false

/-- The option that the namespace dropdown offers for the namespace `n` when `selected` is
the namespace of the snapshot. -/
def namespaceOption (selected n : String) : OptionItem :=
  { Name := if n = "default" ∧ selected = "default" then "default (namespace)" else n
    Value := n }

/-- The listing command of the resource-name discovery for a state, as
`tryToGetResourceNamesSelect` assembles it. -/
def resourceNamesCommand (state : stateDetails) : String :=
  let cmd :=
    kubectlCommandName ++ " get " ++ state.resourceType ++
      " --ignore-not-found=true -o go-template='\x7b\x7brange .items\x7d\x7d\x7b\x7b.metadata.name\x7d\x7d\x7b\x7b\"\\n\"\x7d\x7d\x7b\x7bend\x7d\x7d'"
  if state.namespace_ ≠ "" then cmd ++ " -n " ++ state.namespace_ else cmd

/-- The explicitly-empty resource-name dropdown, as a dropdown. -/
def emptyResourceNames : Select :=
  { type := ExternalSelect, Name := "No resources found" }

/-! ## Concrete collaborators and snapshots -/

/-- A quoting function for the concrete commands below: the text between double quotes,
which is what `%q` gives for text that has nothing to escape. -/
def sampleQuote (s : String) : String := "\"" ++ s ++ "\""

/-- A policy gate for the concrete cases: `api-resources` takes no resource type; `get`,
`describe` and `logs` are supported on the configured types among `pods` (namespaced,
joined with a slash for `logs`) and `nodes` (cluster-wide); every other verb is
rejected. -/
def sampleGuard : CommandGuard :=
  let details (verb resourceType : String) : Except String Resource :=
    if verb = "api-resources" then .ok {}
    else if verb = "get" ∨ verb = "describe" ∨ verb = "logs" then
      if resourceType = "pods" then
        .ok { Name := "pods", Namespaced := true, SlashSeparatedInCommand := verb = "logs" }
      else if resourceType = "nodes" then .ok { Name := "nodes" }
      else .error "resource not found"
    else .error "verb not supported"
  { GetResourceDetails := details
    GetAllowedResourcesForVerb := fun verb resources =>
      if verb = "api-resources" then .ok []
      else if verb = "get" ∨ verb = "describe" ∨ verb = "logs" then
        .ok (resources.filterMap fun r => (details verb r).toOption)
      else .error "verb not supported"
    FilterSupportedVerbs := fun verbs => verbs }

/-- A bindings merger for the concrete cases: every namespace is allowed. -/
def sampleMerger : kcMerger :=
  { MergeAllEnabled := fun _ =>
      { AllowedKubectlResource := ["pods", "nodes"]
        AllowedKubectlVerb := ["get", "logs", "api-resources"]
        DefaultNamespace := "default"
        AllowedNamespacesPerResource := fun _ => { IsAllowed := fun _ => .ok true } } }

/-- A namespace inventory for the concrete cases. -/
def sampleLister : NamespaceLister :=
  { List := fun _ => .ok ["default", "kube-system"] }

/-- An execution gateway that fails. -/
def failingExecutor : kcExecutor :=
  { Execute := fun _ _ _ _ => .error "cluster unreachable" }

/-- An execution gateway that answers every command with the given output. -/
def executorReturning (out : String) : kcExecutor :=
  { Execute := fun _ _ _ _ => .ok out }

/-- The command builder of the concrete cases, over a given execution gateway. -/
def sampleBuilder (executor : kcExecutor) : KubectlCmdBuilder :=
  { kcExecutor := executor
    merger := sampleMerger
    namespaceLister := sampleLister
    commandGuard := sampleGuard
    quote := sampleQuote }

/-- A snapshot taken after the verb was changed to `api-resources`: the resource type, the
resource name and the namespace of the previous command are still selected. -/
def staleState : stateDetails :=
  { dropdownsBlockID := "block-1", verb := "api-resources", resourceType := "pods",
    resourceName := "web-0", namespace_ := "prod", filter := "Running" }

/-- A snapshot in which the verb is `get` and no resource type is selected yet. -/
def verbOnlyState : stateDetails :=
  { dropdownsBlockID := "block-1", verb := "get", namespace_ := "default" }

/-- A snapshot of `logs` on the pod `pod-1`. -/
def logsState : stateDetails :=
  { dropdownsBlockID := "block-1", verb := "logs", resourceType := "pods",
    resourceName := "pod-1", namespace_ := "default", filter := "error" }

/-- The details of `pods` for the verb `logs`. -/
def podsForLogs : Resource :=
  { Name := "pods", Namespaced := true, SlashSeparatedInCommand := true }

/-- The details of `pods` for the verb `get`. -/
def podsForGet : Resource :=
  { Name := "pods", Namespaced := true }

/-- A snapshot of `get` on the pod `web-0` of the namespace `prod`, without filter. -/
def getPodState : stateDetails :=
  { dropdownsBlockID := "block-1", verb := "get", resourceType := "pods",
    resourceName := "web-0", namespace_ := "prod" }

/-- A resource name of 80 bytes. -/
def longName : String :=
  "0123456789012345678901234567890123456789012345678901234567890123456789-123456789"

/-- The first 72 bytes of `longName`, followed by three dots. -/
def longNameLabel : String :=
  "0123456789012345678901234567890123456789012345678901234567890123456789-1..."

/-- A snapshot of `get pods` in the namespace `kube-system`, before a name is selected. -/
def getPodsState : stateDetails :=
  { dropdownsBlockID := "block-1", verb := "get", resourceType := "pods",
    namespace_ := "kube-system" }

/-- The namespace dropdown of the concrete cases when `kube-system` is selected. -/
def kubeSystemSelected : Select :=
  { type := StaticSelect
    Name := "Select namespace"
    Command := MessageBotNamePlaceholder ++ " " ++ resourceNamespaceDropdownCommand
    OptionGroups :=
      [{ Name := "Select namespace"
         Options := [{ Name := "default", Value := "default" },
                     { Name := "kube-system", Value := "kube-system" }] }]
    InitialOption := some { Name := "kube-system", Value := "kube-system" } }

/-- A snapshot whose verb, `exec`, is rejected by the policy gate of the concrete cases. -/
def execState : stateDetails :=
  { dropdownsBlockID := "block-1", verb := "exec" }

/-! ## State extraction and the entry point `Do` -/

/-- Go's `asciiSpace` table: tab, line feed, vertical tab, form feed, carriage return,
space. -/
def asciiSpace : List Char :=
  ['\t', '\n', '\x0b', '\x0c', '\r', ' ']

/-- The white space of Unicode (`unicode.IsSpace`), each code point as the bytes of its
UTF-8 encoding: the six ASCII ones, U+0085, U+00A0, U+1680, U+2000 to U+200A, U+2028,
U+2029, U+202F, U+205F and U+3000. -/
def unicodeSpaces : List (List Char) :=
  asciiSpace.map (fun c => [c]) ++
    [['\xc2', '\x85'], ['\xc2', '\xa0'], ['\xe1', '\x9a', '\x80'],
     ['\xe2', '\x80', '\x80'], ['\xe2', '\x80', '\x81'], ['\xe2', '\x80', '\x82'],
     ['\xe2', '\x80', '\x83'], ['\xe2', '\x80', '\x84'], ['\xe2', '\x80', '\x85'],
     ['\xe2', '\x80', '\x86'], ['\xe2', '\x80', '\x87'], ['\xe2', '\x80', '\x88'],
     ['\xe2', '\x80', '\x89'], ['\xe2', '\x80', '\x8a'], ['\xe2', '\x80', '\xa8'],
     ['\xe2', '\x80', '\xa9'], ['\xe2', '\x80', '\xaf'], ['\xe2', '\x81', '\x9f'],
     ['\xe3', '\x80', '\x80']]

/-- The bytes that remain after one leading token is removed, if the bytes start with one
of the tokens. -/
def dropLeadingToken (tokens : List (List Char)) (bytes : List Char) : Option (List Char) :=
  (tokens.find? fun token => token.isPrefixOf bytes).map fun token => bytes.drop token.length

/-- The bytes without their leading tokens; the fuel bounds the number of tokens removed,
and the number of bytes is enough. -/
def trimLeadingTokens (tokens : List (List Char)) : Nat → List Char → List Char
  | 0, bytes => bytes
  | fuel + 1, bytes =>
    match dropLeadingToken tokens bytes with
    | some rest => trimLeadingTokens tokens fuel rest
    | none => bytes

/-- Go's `strings.TrimSpace`: the leading white space is removed, then the trailing one,
which is the leading white space of the reversed bytes. -/
def TrimSpace (s : String) : String :=
  let left := trimLeadingTokens unicodeSpaces s.data.length s.data
  let right :=
    trimLeadingTokens (unicodeSpaces.map List.reverse) left.length left.reverse
  String.mk right.reverse

/-- Go's `strings.Contains`: the bytes of `substr` occur in `s`. -/
def Contains (s substr : String) : Bool :=
  s.data.tails.any fun tail => substr.data.isPrefixOf tail

/-- `slack.OptionBlockObject`, a type of the Slack library; the code reads `Value`. -/
structure OptionBlockObject where
  Value : String := ""
  deriving DecidableEq, Repr

/-- `slack.BlockAction`, a type of the Slack library; the code reads the selected option
and the text value. -/
structure BlockAction where
  SelectedOption : OptionBlockObject := {}
  Value : String := ""
  deriving DecidableEq, Repr

/-- `slack.BlockActionStates`, a type of the Slack library.  The Go map `Values`, from
block identifier to a map from element identifier to action, is given by its entries in
the order in which a `range` loop visits them; that order is not fixed by Go. -/
structure BlockActionStates where
  Values : List (String × List (String × BlockAction)) := []
  deriving DecidableEq, Repr

/-- The `switch` of `extractStateDetails` on the trimmed identifier of one element. -/
def extractElement (details : stateDetails) (element : String × BlockAction) : stateDetails :=
  let id := TrimSpace element.1
  let act := element.2
  if id = verbsDropdownCommand then { details with verb := act.SelectedOption.Value }
  else if id = resourceTypesDropdownCommand then
    { details with resourceType := act.SelectedOption.Value }
  else if id = resourceNamesDropdownCommand then
    { details with resourceName := act.SelectedOption.Value }
  else if id = resourceNamespaceDropdownCommand then
    { details with namespace_ := act.SelectedOption.Value }
  else if id = filterPlaintextInputCommand then { details with filter := act.Value }
  else details

/-- The body of the outer loop of `extractStateDetails` for one block. -/
def extractBlock (details : stateDetails) (block : String × List (String × BlockAction)) :
    stateDetails :=
  let blockID := block.1
  let details :=
    if !Contains blockID filterPlaintextInputCommand then
      { details with dropdownsBlockID := blockID }
    else details
  block.2.foldl extractElement details

/-- `KubectlCmdBuilder.extractStateDetails`. -/
def extractStateDetails (state : Option BlockActionStates) : stateDetails :=
  match state with
  | none => {}
  | some st => st.Values.foldl extractBlock {}

/-- Modelled from the spec: `kubectlDefaultNamespace`, a constant of package `execute`
declared outside `src`; the namespace used when the configuration names none. -/
def kubectlDefaultNamespace : String := "default"

/-- Go's order of strings, byte by byte: whether the first sequence of bytes is less than
or equal to the second. -/
def bytesLessOrEqual : List Char → List Char → Bool
  | [], _ => true
  | _ :: _, [] => false
  | a :: as, b :: bs =>
    if a.toNat < b.toNat then true
    else if b.toNat < a.toNat then false
    else bytesLessOrEqual as bs

/-- Go's `sort.Strings`: the strings in increasing order. -/
def sortStrings (xs : List String) : List String :=
  xs.insertionSort fun a b => bytesLessOrEqual a.data b.data = true

/-- `KubectlCmdBuilder.getEnableKubectlDetails`; the keys of the two Go maps are collected
in the order of the `range` loop and then sorted. -/
def getEnableKubectlDetails (e : KubectlCmdBuilder) (bindings : List String) :
    List String × List String × String :=
  let enabledKubectls := e.merger.MergeAllEnabled bindings
  let resources := sortStrings enabledKubectls.AllowedKubectlResource
  let verbs := sortStrings enabledKubectls.AllowedKubectlVerb
  let DefaultNamespace :=
    if enabledKubectls.DefaultNamespace = "" then kubectlDefaultNamespace
    else enabledKubectls.DefaultNamespace
  (verbs, resources, DefaultNamespace)

/-- `KubectlCmdBuilder.message`. -/
def message (header msg : String) : Except String CoreMessage :=
  .ok { Description := header, Message := { BaseBody := { Plaintext := msg } } }

/-- `KubectlCmdBuilder.initialMessage`; `newID` is the outcome of `uuid.NewRandom`, the
text of the fresh identifier or an error. -/
def initialMessage (newID : Except String String) (allVerbs : List String) :
    Except String CoreMessage :=
  match newID with
  | .error err => .error err
  | .ok id =>
    match VerbSelect allVerbs "" with
    | none => .error errRequiredVerbDropdown
    | some allVerbsSelect =>
      let msg := KubectlCmdBuilderMessage id allVerbsSelect []
      .ok { msg with Message := { msg.Message with ReplaceOriginal := false } }

/-- Modelled from the spec: the error of `executorsRunner.SelectAndRun`, declared outside
`src`, for a command that is none of its keys. -/
def errUnsupportedCommand : String := "unsupported command"

/-- `KubectlCmdBuilder.Do`, with the calls it makes.  `platformInteractive` is the answer
of `platform.IsInteractive()`, `newID` the outcome of `uuid.NewRandom`.  The result is
`none` when the Go code panics, which it does on an empty `args` (index out of range).
The map of closures `cmds` and `SelectAndRun`, declared outside `src`, are the chain of
comparisons of `cmd` with the five keys. -/
def Do (e : KubectlCmdBuilder) (newID : Except String String) (args : List String)
    (platformInteractive : Bool) (bindings : List String) (state : Option BlockActionStates)
    (header : String) (cmdCtx : CommandContext) :
    Option (Except String CoreMessage × List Call) :=
  if !platformInteractive then some (message header kubectlMissingCommandMsg, [])
  else
    let enabled := getEnableKubectlDetails e bindings
    let allVerbs := enabled.1
    let allTypes := enabled.2.1
    let defaultNs := enabled.2.2
    if allVerbs.length = 0 then some (message header noKubectlCommandsInChannel, [])
    else
      let allVerbs := e.commandGuard.FilterSupportedVerbs allVerbs
      -- if only command name was specified, return initial command builder message
      if args.length = 1 then some (initialMessage newID allVerbs, [])
      else
        let stateDetails := extractStateDetails state
        let stateDetails :=
          if stateDetails.namespace_ = "" then { stateDetails with namespace_ := defaultNs }
          else stateDetails
        match args with
        | cmdName :: cmdVerb :: _ =>
          let cmd := cmdName ++ " " ++ cmdVerb
          if cmd = verbsDropdownCommand then
            some (renderMessage e stateDetails bindings allVerbs allTypes cmdCtx)
          else if cmd = resourceTypesDropdownCommand then
            -- the resource type was selected, so clear resource name from command preview.
            some (renderMessage e { stateDetails with resourceName := "" } bindings allVerbs
              allTypes cmdCtx)
          else if cmd = resourceNamesDropdownCommand then
            some (renderMessage e stateDetails bindings allVerbs allTypes cmdCtx)
          else if cmd = resourceNamespaceDropdownCommand then
            -- the namespace was changed, so clear resource name from command preview.
            some (renderMessage e { stateDetails with resourceName := "" } bindings allVerbs
              allTypes cmdCtx)
          else if cmd = filterPlaintextInputCommand then
            some (renderMessage e stateDetails bindings allVerbs allTypes cmdCtx)
          else some (.error errUnsupportedCommand, [])
        | _ => none

/-! ## Reference definition of state extraction, payloads and further concrete cases -/

/-- The elements of a payload, over all its blocks, in visiting order. -/
def BlockActionStates.elements (st : BlockActionStates) : List (String × BlockAction) :=
  st.Values.flatMap fun block => block.2

/-- The value read from the element of `elements` that is recognised as `command`, the
last visited one if there are several, and the empty string if there is none; `normalize`
is what is done to an identifier before it is compared with the command. -/
def recognisedValue (normalize : String → String) (elements : List (String × BlockAction))
    (command : String) (read : BlockAction → String) : String :=
  (((elements.filter fun el => normalize el.1 = command).getLast?).map fun el =>
    read el.2).getD ""

/-- The reference definition of state extraction, following the specification: a missing
payload gives the all-empty state; otherwise every field is read from the element
recognised by its identifier, and the session block identifier is the identifier of the
block that does not belong to the filter input (the last visited one if there are
several). -/
def extractReference (normalize : String → String) (state : Option BlockActionStates) :
    stateDetails :=
  match state with
  | none => {}
  | some st =>
    { dropdownsBlockID :=
        (((st.Values.map fun block => block.1).filter fun blockID =>
          !Contains blockID filterPlaintextInputCommand).getLast?).getD ""
      verb :=
        recognisedValue normalize st.elements verbsDropdownCommand
          fun act => act.SelectedOption.Value
      resourceType :=
        recognisedValue normalize st.elements resourceTypesDropdownCommand
          fun act => act.SelectedOption.Value
      resourceName :=
        recognisedValue normalize st.elements resourceNamesDropdownCommand
          fun act => act.SelectedOption.Value
      namespace_ :=
        recognisedValue normalize st.elements resourceNamespaceDropdownCommand
          fun act => act.SelectedOption.Value
      filter :=
        recognisedValue normalize st.elements filterPlaintextInputCommand
          fun act => act.Value }

/-- A payload whose verb dropdown has the identifier of its command after a space, the
place of the name of the bot. -/
def verbSelectedPayload : BlockActionStates :=
  { Values :=
      [("block-1", [(" kc-cmd-builder --verbs", { SelectedOption := { Value := "get" } })])] }

/-- A payload with two blocks of dropdowns, visited in one order. -/
def twoBlocksPayload : BlockActionStates :=
  { Values :=
      [("block-1", [("kc-cmd-builder --verbs", { SelectedOption := { Value := "get" } })]),
       ("block-2", [("kc-cmd-builder --resource-type",
          { SelectedOption := { Value := "pods" } })])] }

/-- The payload `twoBlocksPayload`, visited in the other order. -/
def twoBlocksPayloadReversed : BlockActionStates :=
  { Values :=
      [("block-2", [("kc-cmd-builder --resource-type",
          { SelectedOption := { Value := "pods" } })]),
       ("block-1", [("kc-cmd-builder --verbs", { SelectedOption := { Value := "get" } })])] }

/-- A payload of the command builder: the block of the dropdowns and the block of the
filter input. -/
def builderPayload : BlockActionStates :=
  { Values :=
      [("block-1",
          [(" kc-cmd-builder --verbs", { SelectedOption := { Value := "get" } }),
           (" kc-cmd-builder --resource-type", { SelectedOption := { Value := "pods" } }),
           (" kc-cmd-builder --namespace", { SelectedOption := { Value := "kube-system" } })]),
       ("kc-cmd-builder --filter-query-1",
          [(" kc-cmd-builder --filter-query", { Value := "Running" })])] }

/-- The payload `builderPayload`, with its blocks and its elements visited in another
order. -/
def builderPayloadReordered : BlockActionStates :=
  { Values :=
      [("kc-cmd-builder --filter-query-1",
          [(" kc-cmd-builder --filter-query", { Value := "Running" })]),
       ("block-1",
          [(" kc-cmd-builder --namespace", { SelectedOption := { Value := "kube-system" } }),
           (" kc-cmd-builder --verbs", { SelectedOption := { Value := "get" } }),
           (" kc-cmd-builder --resource-type", { SelectedOption := { Value := "pods" } })])] }

/-- The value of a field after the elements were visited, when it was `start` before. -/
def lastValueFrom (elements : List (String × BlockAction)) (command : String)
    (read : BlockAction → String) (start : String) : String :=
  (((elements.filter fun el => TrimSpace el.1 = command).getLast?).map fun el =>
    read el.2).getD start

/-- The session block identifier after the blocks were visited, when it was `start`
before. -/
def lastBlockFrom (blockIDs : List String) (start : String) : String :=
  ((blockIDs.filter fun blockID =>
    !Contains blockID filterPlaintextInputCommand).getLast?).getD start

/-- A snapshot of the command builder in which the pod `web-0` is selected. -/
def podSelectedPayload : BlockActionStates :=
  { Values :=
      [("block-1",
          [(" kc-cmd-builder --verbs", { SelectedOption := { Value := "get" } }),
           (" kc-cmd-builder --resource-type", { SelectedOption := { Value := "pods" } }),
           (" kc-cmd-builder --resource-name", { SelectedOption := { Value := "web-0" } }),
           (" kc-cmd-builder --namespace", { SelectedOption := { Value := "kube-system" } })])] }

/-- The state that `Do` renders from: the state extracted from the snapshot, with the
default namespace of the bindings when the snapshot has no namespace. -/
def snapshotState (e : KubectlCmdBuilder) (bindings : List String)
    (state : Option BlockActionStates) : stateDetails :=
  let stateDetails := extractStateDetails state
  if stateDetails.namespace_ = "" then
    { stateDetails with namespace_ := (getEnableKubectlDetails e bindings).2.2 }
  else stateDetails

/-- A command builder for a channel in which `exec` is the only verb enabled; the policy
gate does not support `exec` in the command builder and filters it out. -/
def execOnlyBuilder : KubectlCmdBuilder :=
  { kcExecutor := failingExecutor
    merger :=
      { MergeAllEnabled := fun _ =>
          { AllowedKubectlResource := ["pods"]
            AllowedKubectlVerb := ["exec"]
            DefaultNamespace := ""
            AllowedNamespacesPerResource := fun _ => { IsAllowed := fun _ => .ok true } } }
    namespaceLister := sampleLister
    commandGuard :=
      { GetAllowedResourcesForVerb := sampleGuard.GetAllowedResourcesForVerb
        GetResourceDetails := sampleGuard.GetResourceDetails
        FilterSupportedVerbs := fun verbs => verbs.filter fun verb => verb ≠ "exec" }
    quote := sampleQuote }

/-- The text of Go's `context.Canceled`, the error of a call whose context was cancelled. -/
def contextCanceled : String := "context canceled"

/-- A command builder whose caller has cancelled the context: the execution gateway and the
namespace inventory both fail with the cancellation. -/
def cancelledBuilder : KubectlCmdBuilder :=
  { kcExecutor := { Execute := fun _ _ _ _ => .error contextCanceled }
    merger := sampleMerger
    namespaceLister := { List := fun _ => .error contextCanceled }
    commandGuard := sampleGuard
    quote := sampleQuote }

/-- A command builder whose bindings allow the namespace `default` only. -/
def defaultOnlyBuilder : KubectlCmdBuilder :=
  { kcExecutor := executorReturning "web-0\n"
    merger :=
      { MergeAllEnabled := fun _ =>
          { AllowedKubectlResource := ["pods", "nodes"]
            AllowedKubectlVerb := ["get"]
            DefaultNamespace := "default"
            AllowedNamespacesPerResource := fun _ =>
              { IsAllowed := fun ns => .ok (ns == "default") } } }
    namespaceLister := sampleLister
    commandGuard := sampleGuard
    quote := sampleQuote }

/-- A snapshot of `get nodes`, a cluster-wide resource, with the namespace `default`. -/
def getNodesState : stateDetails :=
  { dropdownsBlockID := "block-1", verb := "get", resourceType := "nodes",
    namespace_ := "default" }

/-- A command builder whose namespace allow-list has a malformed pattern that makes the
check of `kube-system` fail, and that allows every other namespace. -/
def malformedAllowListBuilder : KubectlCmdBuilder :=
  { kcExecutor := executorReturning "web-0\n"
    merger :=
      { MergeAllEnabled := fun _ =>
          { AllowedKubectlResource := ["pods"]
            AllowedKubectlVerb := ["get"]
            DefaultNamespace := "default"
            AllowedNamespacesPerResource := fun _ =>
              { IsAllowed := fun ns =>
                  if ns = "kube-system" then .error "error parsing regexp" else .ok true } } }
    namespaceLister := { List := fun _ => .ok ["default", "kube-system", "prod"] }
    commandGuard := sampleGuard
    quote := sampleQuote }

/-- A snapshot of `get pods` in which the selected resource name is the full name of 80
bytes. -/
def longNameState : stateDetails :=
  { getPodsState with resourceName := longName }

/-- A snapshot of `get pods` in which the selected resource name is the truncated text
that the dropdown offers for the name of 80 bytes. -/
def longLabelState : stateDetails :=
  { getPodsState with resourceName := longNameLabel }

/-- A snapshot of `get pods` in which the resource name `baz` is selected. -/
def bazState : stateDetails :=
  { getPodsState with resourceName := "baz" }

/-! ## The source scheduler (internal/source/scheduler.go) -/

/-- Go's `strings.Join`. -/
def Join : List String → String → String
  | [], _ => ""
  | [a], _ => a
  | a :: b :: rest, sep => a ++ sep ++ Join (b :: rest) sep

/-- `config.Plugin`, declared outside `src`: whether the plugin is enabled and its
configuration, a value that `yaml.Marshal` serialises. -/
structure Plugin where
  Enabled : Bool := false
  Config : String := ""
  deriving DecidableEq, Repr

/-- `config.Config`, declared outside `src`, as far as the scheduler reads it:
`Sources name` is the map `cfg.Sources[name].Plugins`, given by its entries in the order in
which a `range` loop visits them, and empty for a name that is not configured. -/
structure SchedulerConfig where
  Sources : String → List (String × Plugin)

/-- `source.Config`, declared outside `src`: the raw YAML of one plugin configuration. -/
structure SourceConfig where
  RawYAML : String := ""
  deriving DecidableEq, Repr

/-- The interface `pluginDispatcher`. -/
structure pluginDispatcher where
  Dispatch : String → List SourceConfig → List String → Except String Unit

/-- A call to `Dispatch`. -/
structure DispatchCall where
  pluginName : String
  pluginConfigs : List SourceConfig
  sources : List String
  deriving DecidableEq, Repr

/-- `Scheduler`.  The logger is left out; `marshal` is `yaml.Marshal`, a function of a
library that is taken as a parameter; the Go set `startProcesses` is the list of its
keys. -/
structure Scheduler where
  cfg : SchedulerConfig
  dispatcher : pluginDispatcher
  marshal : String → Except String String
  startProcesses : List String

/-- `NewScheduler`. -/
def NewScheduler (cfg : SchedulerConfig) (dispatcher : pluginDispatcher)
    (marshal : String → Except String String) : Scheduler :=
  { cfg := cfg, dispatcher := dispatcher, marshal := marshal, startProcesses := [] }

/-- The statement `sourcePluginConfigs[pluginName] = append(sourcePluginConfigs[pluginName],
config)` on the map given by its entries. -/
def appendPluginConfig (configs : List (String × List SourceConfig)) (pluginName : String)
    (config : SourceConfig) : List (String × List SourceConfig) :=
  match configs with
  | [] => [(pluginName, [config])]
  | (name, cs) :: rest =>
    if name = pluginName then (name, cs ++ [config]) :: rest
    else (name, cs) :: appendPluginConfig rest pluginName config

/-- The inner loop of `schedule`, over the plugins of one source. -/
def collectPlugins (d : Scheduler) (sourceCfgGroupName : String) :
    List (String × Plugin) → List (String × List SourceConfig) →
      Except String (List (String × List SourceConfig))
  | [], configs => .ok configs
  | (pluginName, pluginCfg) :: rest, configs =>
    if !pluginCfg.Enabled then collectPlugins d sourceCfgGroupName rest configs
    else
      match d.marshal pluginCfg.Config with
      | .error err =>
        .error ("while marshaling config for " ++ pluginName ++ " from source " ++
          sourceCfgGroupName ++ " : " ++ err)
      | .ok rawYAML =>
        collectPlugins d sourceCfgGroupName rest
          (appendPluginConfig configs pluginName { RawYAML := rawYAML })

/-- The outer loop of `schedule`, over the bound sources. -/
def collectSources (d : Scheduler) :
    List String → List (String × List SourceConfig) →
      Except String (List (String × List SourceConfig))
  | [], configs => .ok configs
  | sourceCfgGroupName :: rest, configs =>
    match collectPlugins d sourceCfgGroupName (d.cfg.Sources sourceCfgGroupName) configs with
    | .error err => .error err
    | .ok configs => collectSources d rest configs

/-- The last loop of `schedule`: one `Dispatch` per entry of `sourcePluginConfigs`, up to
the first error; the entries are visited in the order in which they were created. -/
def dispatchAll (d : Scheduler) (bindSources : List String) :
    List (String × List SourceConfig) → Except String Unit × List DispatchCall
  | [] => (.ok (), [])
  | (pluginName, configs) :: rest =>
    let call : DispatchCall :=
      { pluginName := pluginName, pluginConfigs := configs, sources := bindSources }
    match d.dispatcher.Dispatch pluginName configs bindSources with
    | .error err => (.error ("while starting plugin source " ++ pluginName ++ ": " ++ err), [call])
    | .ok _ =>
      let later := dispatchAll d bindSources rest
      (later.1, call :: later.2)

/-- `Scheduler.schedule`: the error it returns, the scheduler after it, and the calls to
`Dispatch` it made. -/
def schedule (d : Scheduler) (bindSources : List String) :
    Except String Unit × Scheduler × List DispatchCall :=
  let key := Join bindSources ";"
  if key ∈ d.startProcesses then (.ok (), d, []) -- such configuration was already started
  else
    let d := { d with startProcesses := key :: d.startProcesses }
    match collectSources d bindSources [] with
    | .error err => (.error err, d, [])
    | .ok sourcePluginConfigs =>
      let dispatched := dispatchAll d bindSources sourcePluginConfigs
      (dispatched.1, d, dispatched.2)

/-- The scheduler after `schedule` was called with each list of the history, in order. -/
def scheduleAll (d : Scheduler) : List (List String) → Scheduler
  | [] => d
  | bindSources :: rest => scheduleAll (schedule d bindSources).2.1 rest

/-- A configuration of the scheduler with the sources `a`, `b` and `a;b`, each with the
plugin `botkube/kubernetes` enabled; `b` has a second plugin, which is disabled. -/
def sampleSchedulerConfig : SchedulerConfig :=
  { Sources := fun name =>
      if name = "a" then [("botkube/kubernetes", { Enabled := true, Config := "cfg-a" })]
      else if name = "b" then
        [("botkube/kubernetes", { Enabled := true, Config := "cfg-b" }),
         ("botkube/helm", { Enabled := false, Config := "cfg-h" })]
      else if name = "a;b" then
        [("botkube/kubernetes", { Enabled := true, Config := "cfg-ab" })]
      else [] }

/-- A scheduler for the concrete cases: marshaling and dispatching succeed. -/
def sampleScheduler : Scheduler :=
  NewScheduler sampleSchedulerConfig { Dispatch := fun _ _ _ => .ok () } fun config => .ok config

/-! ## Lengths in characters, offered names and further concrete cases -/

/-- Whether a byte is a continuation byte of UTF-8, `0x80` to `0xBF`. -/
def isContinuationByte (c : Char) : Bool :=
  128 ≤ c.toNat && c.toNat < 192

/-- The number of characters of a text that is held as its bytes: the bytes that are not
continuation bytes of UTF-8; on well-formed UTF-8 this is Go's
`utf8.RuneCountInString`. -/
def characterCount (s : String) : Nat :=
  (s.data.filter fun c => !isContinuationByte c).length

/-- A resource name of 40 characters, forty times the letter e with an acute accent
(U+00E9), which UTF-8 encodes in the two bytes `0xC3 0xA9`: 80 bytes. -/
def accentedName : String :=
  String.join (List.replicate 40 "\xc3\xa9")

/-- A resource name of 39 characters, the letter `a` followed by 38 times the letter e
with an acute accent: 77 bytes. -/
def splitAccentedName : String :=
  "a" ++ String.join (List.replicate 38 "\xc3\xa9")

/-- The names that the resource-name dropdown offers for a state, with lengths in bytes:
none when the state has no resource type or when the execution gateway answers the listing
command with an error; otherwise the non-empty lines of the output, in order, a line of at
most 75 bytes as it is and a longer line as its first 72 bytes followed by three dots. -/
def offeredResourceNames (e : KubectlCmdBuilder) (bindings : List String) (s : stateDetails)
    (ctx : CommandContext) : List String :=
  if s.resourceType = "" then []
  else
    match e.kcExecutor.Execute bindings (resourceNamesCommand s) true ctx with
    | .error _ => []
    | .ok out =>
      (getNonEmptyLines out).map fun name =>
        if name.length ≤ 75 then name else String.mk (name.data.take 72) ++ "..."

/-- The namespaces that the namespace dropdown offers for a state: none when the policy
gate has no details for the verb and the resource type, when the resource type is
cluster-wide, or when the inventory fails; otherwise the namespaces of the inventory, in
order, whose allow-list check answers "allowed" without an error. -/
def offeredNamespaces (e : KubectlCmdBuilder) (bindings : List String) (s : stateDetails) :
    List String :=
  match e.commandGuard.GetResourceDetails s.verb s.resourceType with
  | .error _ => []
  | .ok d =>
    if d.Namespaced = true then
      match e.namespaceLister.List dropdownItemsLimit with
      | .error _ => []
      | .ok namespaces =>
        namespaces.filter fun n =>
          allowedWithoutError
            (((e.merger.MergeAllEnabled bindings).AllowedNamespacesPerResource
              s.resourceType).IsAllowed n)
    else []

/-- The namespace of the preview: the namespace of the state when the namespace dropdown
offers it, and none otherwise. -/
def keptNamespace (e : KubectlCmdBuilder) (bindings : List String) (s : stateDetails) :
    String :=
  if s.namespace_ ∈ offeredNamespaces e bindings s then s.namespace_ else ""

/-- The resource name of the preview: the resource name of the state when the
resource-name dropdown offers it, and none otherwise. -/
def keptResourceName (e : KubectlCmdBuilder) (bindings : List String) (s : stateDetails)
    (ctx : CommandContext) : String :=
  if s.resourceName ∈ offeredResourceNames e bindings s ctx then s.resourceName else ""

/-- The command builder of the concrete cases when the execution gateway lists the names
`foo` and `bar`. -/
def fooBarBuilder : KubectlCmdBuilder :=
  sampleBuilder (executorReturning "foo\nbar\n")

/-- The command builder of the concrete cases when the execution gateway lists a name of
80 bytes and the name `web-0`. -/
def longNameBuilder : KubectlCmdBuilder :=
  sampleBuilder (executorReturning (longName ++ "\nweb-0\n"))

/-- A command builder for a channel in which no verb is enabled. -/
def noVerbsBuilder : KubectlCmdBuilder :=
  { kcExecutor := executorReturning "web-0\n"
    merger :=
      { MergeAllEnabled := fun _ =>
          { AllowedKubectlResource := ["pods"]
            AllowedKubectlVerb := []
            DefaultNamespace := "default"
            AllowedNamespacesPerResource := fun _ => { IsAllowed := fun _ => .ok true } } }
    namespaceLister := sampleLister
    commandGuard := sampleGuard
    quote := sampleQuote }

/-- The command builder of the concrete cases when the execution gateway lists the name
`web-0`. -/
def webBuilder : KubectlCmdBuilder :=
  sampleBuilder (executorReturning "web-0\n")

/-- The state that the specification hands to the render after an interaction: every field
is read from the element of the snapshot that is recognised by its trimmed identifier, and
a snapshot without namespace takes the default namespace of the bindings, which is
`default` when the configuration names none. -/
def snapshotReference (e : KubectlCmdBuilder) (bindings : List String)
    (state : Option BlockActionStates) : stateDetails :=
  { dropdownsBlockID := (extractReference TrimSpace state).dropdownsBlockID
    verb := (extractReference TrimSpace state).verb
    namespace_ :=
      if (extractReference TrimSpace state).namespace_ = "" then
        if (e.merger.MergeAllEnabled bindings).DefaultNamespace = "" then "default"
        else (e.merger.MergeAllEnabled bindings).DefaultNamespace
      else (extractReference TrimSpace state).namespace_
    resourceType := (extractReference TrimSpace state).resourceType
    resourceName := (extractReference TrimSpace state).resourceName
    filter := (extractReference TrimSpace state).filter }

/-! ## Properties -/

theorem mem_knownCmdPrefix_iff (p : String) :
    p ∈ knownCmdPrefix ↔
      (p = "kc-cmd-builder --verbs" ∨ p = "kc-cmd-builder --resource-type" ∨
        p = "kc-cmd-builder --resource-name" ∨ p = "kc-cmd-builder --namespace" ∨
        p = "kc-cmd-builder --filter-query") := by
  simp [knownCmdPrefix, verbsDropdownCommand, resourceTypesDropdownCommand,
    resourceNamesDropdownCommand, resourceNamespaceDropdownCommand,
    filterPlaintextInputCommand]

theorem GetCommandPrefix_eq_prefixReference (args : List String) :
    GetCommandPrefix args = prefixReference args := by
  match args with
  | [] => rfl
  | [a0] => simp [GetCommandPrefix, prefixReference, kubectlCommandName]
  | a0 :: a1 :: rest =>
    simp only [GetCommandPrefix, prefixReference, mem_knownCmdPrefix_iff]
    simp

/-- C1. `GetCommandPrefix` is the reference definition of the specification on every
token list, its value on two or more tokens does not depend on the tokens after the
second, and `CanHandle` holds exactly when the recognised prefix is not empty. -/
theorem C1_GetCommandPrefix_refines_reference :
    (∀ args : List String, GetCommandPrefix args = prefixReference args) ∧
    (∀ (a0 a1 : String) (rest : List String),
      GetCommandPrefix (a0 :: a1 :: rest) = GetCommandPrefix [a0, a1]) ∧
    (∀ args : List String, CanHandle args = true ↔ prefixReference args ≠ "") := by
  refine ⟨GetCommandPrefix_eq_prefixReference, fun _ _ _ => rfl, fun args => ?_⟩
  rw [← GetCommandPrefix_eq_prefixReference]
  simp [CanHandle]

/-! ### Dropdown construction and the branches of the render -/

theorem selectDropdown_eq_none_iff (name cmd : String) (items : List dropdownItem)
    (init : dropdownItem) : selectDropdown name cmd items init = none ↔ items = [] := by
  unfold selectDropdown
  cases items <;> simp

theorem createDropdownItems_eq_nil_iff (names : List String) :
    createDropdownItems names = [] ↔ names = [] := by
  simp [createDropdownItems]

theorem mem_createDropdownItems (names : List String) (n : String) :
    ({ Name := n, Value := n } : dropdownItem) ∈ createDropdownItems names ↔ n ∈ names := by
  simp [createDropdownItems, newDropdownItem]

theorem VerbSelect_eq_none_iff (verbs : List String) (v : String) :
    VerbSelect verbs v = none ↔ verbs = [] := by
  simp [VerbSelect, selectDropdown_eq_none_iff, createDropdownItems_eq_nil_iff]

theorem contains_selectDropdown (name cmd : String) (items : List dropdownItem)
    (init : dropdownItem) (v : String) :
    contains (selectDropdown name cmd items init) v = true ↔ init ∈ items ∧ init.Value = v := by
  unfold selectDropdown contains
  cases items with
  | nil => simp
  | cons a as =>
    by_cases h : init ∈ a :: as <;> simp [h]

theorem contains_ResourceTypeSelect (names : List String) (rt : String) :
    contains (ResourceTypeSelect names rt) rt = true ↔ rt ∈ names := by
  simp [ResourceTypeSelect, contains_selectDropdown, mem_createDropdownItems, newDropdownItem]

theorem contains_ResourceNamesSelect (names : List String) (n : String) :
    contains (ResourceNamesSelect names n) n = true ↔ n ∈ names := by
  simp [ResourceNamesSelect, contains_selectDropdown, mem_createDropdownItems, newDropdownItem]

theorem contains_EmptyResourceNameDropdown (n : String) :
    contains EmptyResourceNameDropdown n = false := by
  simp [contains, EmptyResourceNameDropdown]

theorem contains_none (n : String) : contains none n = false := rfl

theorem renderMessage_no_verbs (e : KubectlCmdBuilder) (s : stateDetails)
    (bindings allTypes : List String) (ctx : CommandContext) :
    renderMessage e s bindings [] allTypes ctx = (.error errRequiredVerbDropdown, []) := by
  simp [renderMessage, VerbSelect, selectDropdown, createDropdownItems]

theorem renderMessage_gate_error (e : KubectlCmdBuilder) (s : stateDetails)
    (bindings allVerbs allTypes : List String) (ctx : CommandContext) (vs : Select)
    (err : String) (hv : VerbSelect allVerbs s.verb = some vs)
    (hg : e.commandGuard.GetAllowedResourcesForVerb s.verb allTypes = .error err) :
    renderMessage e s bindings allVerbs allTypes ctx =
      (.error err, [Call.GetAllowedResourcesForVerb s.verb allTypes]) := by
  simp [renderMessage, hv, getAllowedResourcesSelectList, hg]

theorem renderMessage_no_types (e : KubectlCmdBuilder) (s : stateDetails)
    (bindings allVerbs allTypes : List String) (ctx : CommandContext) (vs : Select)
    (hv : VerbSelect allVerbs s.verb = some vs)
    (hg : e.commandGuard.GetAllowedResourcesForVerb s.verb allTypes = .ok []) :
    renderMessage e s bindings allVerbs allTypes ctx =
      (.ok (KubectlCmdBuilderMessage s.dropdownsBlockID vs
          [WithAdditionalSections (buildCommandPreview e (clearedState s)).1]),
        Call.GetAllowedResourcesForVerb s.verb allTypes ::
          (buildCommandPreview e (clearedState s)).2) := by
  simp [renderMessage, hv, getAllowedResourcesSelectList, hg, clearedState]

theorem renderMessage_type_not_listed (e : KubectlCmdBuilder) (s : stateDetails)
    (bindings allVerbs allTypes : List String) (ctx : CommandContext) (vs : Select)
    (allowed : List Resource)
    (hv : VerbSelect allVerbs s.verb = some vs)
    (hg : e.commandGuard.GetAllowedResourcesForVerb s.verb allTypes = .ok allowed)
    (hne : allowed ≠ [])
    (hnot : s.resourceType ∉ allowed.map fun r => r.Name) :
    renderMessage e s bindings allVerbs allTypes ctx =
      (.ok (KubectlCmdBuilderMessage s.dropdownsBlockID vs
          [WithAdditionalSelects
            [ResourceTypeSelect (allowed.map fun r => r.Name) s.resourceType]]),
        [Call.GetAllowedResourcesForVerb s.verb allTypes]) := by
  have hc : contains (ResourceTypeSelect (allowed.map fun r => r.Name) s.resourceType)
      s.resourceType = false := by
    rw [Bool.eq_false_iff]
    intro h
    exact hnot ((contains_ResourceTypeSelect _ _).1 h)
  have hsome : (ResourceTypeSelect (allowed.map fun r => r.Name) s.resourceType).isNone
      = false := by
    cases hr : ResourceTypeSelect (allowed.map fun r => r.Name) s.resourceType with
    | some x => rfl
    | none =>
      simp [ResourceTypeSelect, selectDropdown_eq_none_iff, createDropdownItems_eq_nil_iff]
        at hr
      exact absurd hr hne
  have hlen : allowed.length ≠ 0 := by
    simpa [List.length_eq_zero] using hne
  simp [renderMessage, hv, getAllowedResourcesSelectList, hg, hlen, hc, hsome]

theorem renderMessage_type_listed (e : KubectlCmdBuilder) (s : stateDetails)
    (bindings allVerbs allTypes : List String) (ctx : CommandContext) (vs : Select)
    (allowed : List Resource)
    (hv : VerbSelect allVerbs s.verb = some vs)
    (hg : e.commandGuard.GetAllowedResourcesForVerb s.verb allTypes = .ok allowed)
    (hin : s.resourceType ∈ allowed.map fun r => r.Name) :
    renderMessage e s bindings allVerbs allTypes ctx =
      (.ok (KubectlCmdBuilderMessage s.dropdownsBlockID vs
          [WithAdditionalSelects
            [ResourceTypeSelect (allowed.map fun r => r.Name) s.resourceType,
             (tryToGetResourceNamesSelect e bindings s ctx).1,
             (tryToGetNamespaceSelect e bindings s).1],
           WithAdditionalSections
            (buildCommandPreview e
              (finalState s (tryToGetResourceNamesSelect e bindings s ctx).1
                (tryToGetNamespaceSelect e bindings s).1)).1]),
        Call.GetAllowedResourcesForVerb s.verb allTypes ::
          ((tryToGetResourceNamesSelect e bindings s ctx).2 ++
            (tryToGetNamespaceSelect e bindings s).2 ++
            (buildCommandPreview e
              (finalState s (tryToGetResourceNamesSelect e bindings s ctx).1
                (tryToGetNamespaceSelect e bindings s).1)).2)) := by
  have hc : contains (ResourceTypeSelect (allowed.map fun r => r.Name) s.resourceType)
      s.resourceType = true := (contains_ResourceTypeSelect _ _).2 hin
  have hne : allowed ≠ [] := by
    rintro rfl
    simp at hin
  have hsome : (ResourceTypeSelect (allowed.map fun r => r.Name) s.resourceType).isNone
      = false := by
    cases hr : ResourceTypeSelect (allowed.map fun r => r.Name) s.resourceType with
    | some x => rfl
    | none =>
      simp [ResourceTypeSelect, selectDropdown_eq_none_iff, createDropdownItems_eq_nil_iff]
        at hr
      exact absurd hr hne
  have hlen : allowed.length ≠ 0 := by
    simpa [List.length_eq_zero] using hne
  cases h1 : contains (tryToGetResourceNamesSelect e bindings s ctx).1 s.resourceName <;>
    cases h2 : contains (tryToGetNamespaceSelect e bindings s).1 s.namespace_ <;>
    simp [renderMessage, hv, getAllowedResourcesSelectList, hg, hlen, hc, hsome, finalState,
      h1, h2]

theorem buildCommandPreview_calls (e : KubectlCmdBuilder) (s : stateDetails) :
    (buildCommandPreview e s).2 = [Call.GetResourceDetails s.verb s.resourceType] := by
  unfold buildCommandPreview
  cases e.commandGuard.GetResourceDetails s.verb s.resourceType with
  | error err => rfl
  | ok d =>
    by_cases h : (d.SlashSeparatedInCommand && s.resourceName == "") = true <;> simp [h]

theorem buildCommandPreview_error (e : KubectlCmdBuilder) (s : stateDetails) (err : String)
    (hd : e.commandGuard.GetResourceDetails s.verb s.resourceType = .error err) :
    (buildCommandPreview e s).1 = [InternalErrorSection] := by
  simp [buildCommandPreview, hd]

theorem buildCommandPreview_incomplete (e : KubectlCmdBuilder) (s : stateDetails)
    (d : Resource) (hd : e.commandGuard.GetResourceDetails s.verb s.resourceType = .ok d)
    (hslash : d.SlashSeparatedInCommand = true) (hname : s.resourceName = "") :
    (buildCommandPreview e s).1 = [] := by
  simp [buildCommandPreview, hd, hslash, hname]

theorem buildCommandPreview_command (e : KubectlCmdBuilder) (s : stateDetails)
    (d : Resource) (hd : e.commandGuard.GetResourceDetails s.verb s.resourceType = .ok d)
    (hcomplete : ¬ (d.SlashSeparatedInCommand = true ∧ s.resourceName = "")) :
    (buildCommandPreview e s).1 =
      PreviewSection (previewCommandReference e.quote d s) FilterSection := by
  have hguard : (d.SlashSeparatedInCommand && s.resourceName == "") = false := by
    rw [Bool.eq_false_iff]
    intro h
    simp at h
    exact hcomplete h
  simp only [buildCommandPreview, hd, hguard, previewCommandReference, kubectlCommandName]
  by_cases hn : s.resourceName = "" <;> by_cases hf : s.filter = "" <;>
    by_cases hns : s.namespace_ = "" <;> cases hN : d.Namespaced <;>
    cases hS : d.SlashSeparatedInCommand <;>
    simp [hn, hf, hns, hN, hS, String.append_assoc]

theorem kubectl_append_ne_empty (x : String) : "kubectl " ++ x ≠ "" := by
  intro h
  have hlen := congrArg String.length h
  rw [String.length_append] at hlen
  have h8 : "kubectl ".length = 8 := by decide
  have h0 : "".length = 0 := by decide
  omega

/-- C2 (as stated, refuted). With no resource type configured, the gate allows zero
resource types for `get` and has no details for the empty resource type: the render
succeeds with the verb dropdown alone, but what it shows in place of the preview is the
internal-error section, with no command and no filter input. -/
theorem C2_counterexample_no_preview_when_details_fail :
    (sampleBuilder failingExecutor).commandGuard.GetAllowedResourcesForVerb "get" [] = .ok [] ∧
    ((renderMessage (sampleBuilder failingExecutor)
        { verb := "get", resourceType := "pods", resourceName := "web-0", namespace_ := "prod" }
        [] ["get"] [] {}).1.toOption.map fun msg =>
          (msg.dropdowns.map fun sel => sel.Name, msg.Message.Sections.drop 1,
            msg.hasCommandPreview, msg.hasFilterInput)) =
      some (["Select command"], [InternalErrorSection], false, false) := by
  exact ⟨rfl, by decide⟩

theorem buildCommandPreview_cases (e : KubectlCmdBuilder) (s : stateDetails) :
    (buildCommandPreview e s).1 = [InternalErrorSection] ∨ (buildCommandPreview e s).1 = [] ∨
      ∃ cmd, (buildCommandPreview e s).1 = PreviewSection cmd FilterSection := by
  cases hd : e.commandGuard.GetResourceDetails s.verb s.resourceType with
  | error err => exact Or.inl (buildCommandPreview_error e s err hd)
  | ok d =>
    by_cases hc : d.SlashSeparatedInCommand = true ∧ s.resourceName = ""
    · exact Or.inr (Or.inl (buildCommandPreview_incomplete e s d hd hc.1 hc.2))
    · exact Or.inr (Or.inr ⟨_, buildCommandPreview_command e s d hd hc⟩)

theorem buildCommandPreview_no_dropdowns (e : KubectlCmdBuilder) (s : stateDetails) :
    ((buildCommandPreview e s).1.flatMap fun sec => sec.Selects.Items) = [] := by
  rcases buildCommandPreview_cases e s with h | h | ⟨cmd, h⟩ <;>
    simp [h, InternalErrorSection, PreviewSection]

/-- C2 (amended). For every state and every non-empty verb list, when the policy gate
allows zero resource types for the verb, the render succeeds; its message has the verb
dropdown as its only dropdown, followed by the preview computed from the state with
resource type, resource name and namespace cleared.  That preview is the command preview
with the filter input when the gate has details for the verb with an empty resource type
and they do not ask for a slash-joined name; it is empty when they ask for a slash-joined
name, and it is the internal-error section when the lookup of the details fails. -/
theorem C2_render_without_resource_types (e : KubectlCmdBuilder) (s : stateDetails)
    (bindings allVerbs allTypes : List String) (ctx : CommandContext)
    (hverbs : allVerbs ≠ [])
    (hzero : e.commandGuard.GetAllowedResourcesForVerb s.verb allTypes = .ok []) :
    ∃ (verbSel : Select) (msg : CoreMessage),
      VerbSelect allVerbs s.verb = some verbSel ∧
      (renderMessage e s bindings allVerbs allTypes ctx).1 = .ok msg ∧
      msg.Message.Sections =
        { Selects := { ID := s.dropdownsBlockID, Items := [verbSel] } } ::
          (buildCommandPreview e (clearedState s)).1 ∧
      msg.dropdowns = [verbSel] ∧
      (∀ d, e.commandGuard.GetResourceDetails s.verb "" = .ok d →
        d.SlashSeparatedInCommand = false →
          (buildCommandPreview e (clearedState s)).1 =
              PreviewSection
                ("kubectl " ++ s.verb ++ " " ++
                  (if s.filter = "" then "" else " --filter=" ++ e.quote s.filter))
                FilterSection ∧
            msg.hasCommandPreview = true ∧ msg.hasFilterInput = true) ∧
      (∀ d, e.commandGuard.GetResourceDetails s.verb "" = .ok d →
        d.SlashSeparatedInCommand = true → (buildCommandPreview e (clearedState s)).1 = []) ∧
      (∀ err, e.commandGuard.GetResourceDetails s.verb "" = .error err →
        (buildCommandPreview e (clearedState s)).1 = [InternalErrorSection]) := by
  obtain ⟨verbSel, hv⟩ : ∃ verbSel, VerbSelect allVerbs s.verb = some verbSel := by
    cases h : VerbSelect allVerbs s.verb with
    | some x => exact ⟨x, rfl⟩
    | none => exact absurd ((VerbSelect_eq_none_iff _ _).1 h) hverbs
  have hr := renderMessage_no_types e s bindings allVerbs allTypes ctx verbSel hv hzero
  have hsec : (KubectlCmdBuilderMessage s.dropdownsBlockID verbSel
      [WithAdditionalSections (buildCommandPreview e (clearedState s)).1]).Message.Sections =
        { Selects := { ID := s.dropdownsBlockID, Items := [verbSel] } } ::
          (buildCommandPreview e (clearedState s)).1 := by
    simp [KubectlCmdBuilderMessage, WithAdditionalSections]
  refine ⟨verbSel, _, hv, by rw [hr], hsec, ?_, ?_, ?_, ?_⟩
  · simp [CoreMessage.dropdowns, hsec, buildCommandPreview_no_dropdowns]
  · intro d hd hslash
    have hc : ¬ (d.SlashSeparatedInCommand = true ∧ (clearedState s).resourceName = "") := by
      simp [hslash]
    have hp := buildCommandPreview_command e (clearedState s) d hd hc
    have hcmd : previewCommandReference e.quote d (clearedState s) =
        "kubectl " ++ s.verb ++ " " ++
          (if s.filter = "" then "" else " --filter=" ++ e.quote s.filter) := by
      by_cases hf : s.filter = "" <;>
        simp [previewCommandReference, clearedState, hf, String.append_assoc]
    rw [hcmd] at hp
    refine ⟨hp, ?_, ?_⟩
    · rw [CoreMessage.hasCommandPreview, hsec, hp]
      simp [PreviewSection, kubectl_append_ne_empty, String.append_assoc]
    · rw [CoreMessage.hasFilterInput, hsec, hp]
      simp [PreviewSection]
  · intro d hd hslash
    exact buildCommandPreview_incomplete e (clearedState s) d hd hslash rfl
  · intro err hd
    exact buildCommandPreview_error e (clearedState s) err hd

/-- C2, at a concrete input: the snapshot taken after the verb was changed to `api-resources`. -/
theorem C2_render_without_resource_types_witness :
    ["api-resources", "get"] ≠ [] ∧
    (sampleBuilder failingExecutor).commandGuard.GetAllowedResourcesForVerb staleState.verb
        ["pods"] = .ok [] ∧
    ∃ (verbSel : Select) (msg : CoreMessage),
      VerbSelect ["api-resources", "get"] staleState.verb = some verbSel ∧
      (renderMessage (sampleBuilder failingExecutor) staleState [] ["api-resources", "get"]
        ["pods"] {}).1 = .ok msg ∧
      msg.Message.Sections =
        { Selects := { ID := staleState.dropdownsBlockID, Items := [verbSel] } } ::
          (buildCommandPreview (sampleBuilder failingExecutor) (clearedState staleState)).1 ∧
      msg.dropdowns = [verbSel] ∧
      (∀ d, (sampleBuilder failingExecutor).commandGuard.GetResourceDetails staleState.verb ""
          = .ok d →
        d.SlashSeparatedInCommand = false →
          (buildCommandPreview (sampleBuilder failingExecutor) (clearedState staleState)).1 =
              PreviewSection
                ("kubectl " ++ staleState.verb ++ " " ++
                  (if staleState.filter = "" then ""
                    else " --filter=" ++ (sampleBuilder failingExecutor).quote staleState.filter))
                FilterSection ∧
            msg.hasCommandPreview = true ∧ msg.hasFilterInput = true) ∧
      (∀ d, (sampleBuilder failingExecutor).commandGuard.GetResourceDetails staleState.verb ""
          = .ok d →
        d.SlashSeparatedInCommand = true →
          (buildCommandPreview (sampleBuilder failingExecutor) (clearedState staleState)).1 = []) ∧
      (∀ err, (sampleBuilder failingExecutor).commandGuard.GetResourceDetails staleState.verb ""
          = .error err →
        (buildCommandPreview (sampleBuilder failingExecutor) (clearedState staleState)).1 =
          [InternalErrorSection]) :=
  ⟨by decide, rfl,
    C2_render_without_resource_types (sampleBuilder failingExecutor) staleState []
      ["api-resources", "get"] ["pods"] {} (by decide) rfl⟩

/-- C3. For every state and every non-empty verb list, when the policy gate allows at least
one resource type for the verb and the resource type of the state is not one of them, the
render succeeds and its message consists of one block with exactly the verb dropdown and
the resource-type dropdown: there is no other dropdown and no further section, hence no
command preview and no filter input; the only call made is the lookup of the allowed
resource types, so neither the execution gateway nor the namespace inventory is called. -/
theorem C3_render_with_unlisted_resource_type (e : KubectlCmdBuilder) (s : stateDetails)
    (bindings allVerbs allTypes : List String) (ctx : CommandContext) (allowed : List Resource)
    (hverbs : allVerbs ≠ [])
    (hgate : e.commandGuard.GetAllowedResourcesForVerb s.verb allTypes = .ok allowed)
    (hsome : allowed ≠ [])
    (hnot : s.resourceType ∉ allowed.map fun r => r.Name) :
    ∃ (verbSel typeSel : Select) (msg : CoreMessage),
      VerbSelect allVerbs s.verb = some verbSel ∧
      ResourceTypeSelect (allowed.map fun r => r.Name) s.resourceType = some typeSel ∧
      (renderMessage e s bindings allVerbs allTypes ctx).1 = .ok msg ∧
      msg.Message.Sections =
        [{ Selects := { ID := s.dropdownsBlockID, Items := [verbSel, typeSel] } }] ∧
      msg.dropdowns = [verbSel, typeSel] ∧
      msg.hasCommandPreview = false ∧ msg.hasFilterInput = false ∧
      (renderMessage e s bindings allVerbs allTypes ctx).2 =
        [Call.GetAllowedResourcesForVerb s.verb allTypes] ∧
      (∀ c ∈ (renderMessage e s bindings allVerbs allTypes ctx).2,
        c.isExecute = false ∧ c.isListNamespaces = false) := by
  obtain ⟨verbSel, hv⟩ : ∃ verbSel, VerbSelect allVerbs s.verb = some verbSel := by
    cases h : VerbSelect allVerbs s.verb with
    | some x => exact ⟨x, rfl⟩
    | none => exact absurd ((VerbSelect_eq_none_iff _ _).1 h) hverbs
  obtain ⟨typeSel, ht⟩ :
      ∃ typeSel, ResourceTypeSelect (allowed.map fun r => r.Name) s.resourceType =
        some typeSel := by
    cases h : ResourceTypeSelect (allowed.map fun r => r.Name) s.resourceType with
    | some x => exact ⟨x, rfl⟩
    | none =>
      simp [ResourceTypeSelect, selectDropdown_eq_none_iff, createDropdownItems_eq_nil_iff]
        at h
      exact absurd h hsome
  have hr := renderMessage_type_not_listed e s bindings allVerbs allTypes ctx verbSel allowed
    hv hgate hsome hnot
  rw [ht] at hr
  have hsec : (KubectlCmdBuilderMessage s.dropdownsBlockID verbSel
      [WithAdditionalSelects [some typeSel]]).Message.Sections =
        [{ Selects := { ID := s.dropdownsBlockID, Items := [verbSel, typeSel] } }] := by
    simp [KubectlCmdBuilderMessage, WithAdditionalSelects]
  refine ⟨verbSel, typeSel, _, hv, ht, by rw [hr], hsec, ?_, ?_, ?_, by rw [hr], ?_⟩
  · simp [CoreMessage.dropdowns, hsec]
  · simp [CoreMessage.hasCommandPreview, hsec]
  · simp [CoreMessage.hasFilterInput, hsec]
  · rw [hr]
    intro c hc
    simp at hc
    subst hc
    exact ⟨rfl, rfl⟩

/-- C3, at a concrete input: the verb `get` is selected and no resource type yet. -/
theorem C3_render_with_unlisted_resource_type_witness :
    ["get", "logs"] ≠ [] ∧
    (sampleBuilder failingExecutor).commandGuard.GetAllowedResourcesForVerb verbOnlyState.verb
        ["pods", "nodes"] =
      .ok [{ Name := "pods", Namespaced := true }, { Name := "nodes" }] ∧
    ([{ Name := "pods", Namespaced := true }, { Name := "nodes" }] : List Resource) ≠ [] ∧
    (verbOnlyState.resourceType ∉
      ([{ Name := "pods", Namespaced := true }, { Name := "nodes" }] : List Resource).map
        fun r => r.Name) ∧
    ∃ (verbSel typeSel : Select) (msg : CoreMessage),
      VerbSelect ["get", "logs"] verbOnlyState.verb = some verbSel ∧
      ResourceTypeSelect
          (([{ Name := "pods", Namespaced := true }, { Name := "nodes" }] : List Resource).map
            fun r => r.Name) verbOnlyState.resourceType = some typeSel ∧
      (renderMessage (sampleBuilder failingExecutor) verbOnlyState ["b"] ["get", "logs"]
        ["pods", "nodes"] {}).1 = .ok msg ∧
      msg.Message.Sections =
        [{ Selects := { ID := verbOnlyState.dropdownsBlockID, Items := [verbSel, typeSel] } }] ∧
      msg.dropdowns = [verbSel, typeSel] ∧
      msg.hasCommandPreview = false ∧ msg.hasFilterInput = false ∧
      (renderMessage (sampleBuilder failingExecutor) verbOnlyState ["b"] ["get", "logs"]
        ["pods", "nodes"] {}).2 =
        [Call.GetAllowedResourcesForVerb verbOnlyState.verb ["pods", "nodes"]] ∧
      (∀ c ∈ (renderMessage (sampleBuilder failingExecutor) verbOnlyState ["b"] ["get", "logs"]
          ["pods", "nodes"] {}).2,
        c.isExecute = false ∧ c.isListNamespaces = false) :=
  ⟨by decide, rfl, by decide, by decide,
    C3_render_with_unlisted_resource_type (sampleBuilder failingExecutor) verbOnlyState ["b"]
      ["get", "logs"] ["pods", "nodes"] {} _ (by decide) rfl (by decide) (by decide)⟩

/-- C4. For every state for which the gate has details of the (verb, resource type) pair,
the command preview has no sections exactly when the details ask for a slash-joined name
and no resource name is selected; and when they ask for a slash-joined name and a name is
selected, the command shown starts with the binary, the verb and the resource type joined
to the name with a slash (and not with a space), followed by the namespace and filter
flags. -/
theorem C4_preview_slash_joined_name (e : KubectlCmdBuilder) (s : stateDetails) (d : Resource)
    (hd : e.commandGuard.GetResourceDetails s.verb s.resourceType = .ok d) :
    ((buildCommandPreview e s).1 = [] ↔
      (d.SlashSeparatedInCommand = true ∧ s.resourceName = "")) ∧
    (d.SlashSeparatedInCommand = true → s.resourceName ≠ "" →
      (buildCommandPreview e s).1 =
        PreviewSection
          ("kubectl " ++ s.verb ++ " " ++ s.resourceType ++ "/" ++ s.resourceName ++
            (if d.Namespaced = true ∧ s.namespace_ ≠ "" then " -n " ++ s.namespace_ else "") ++
            (if s.filter = "" then "" else " --filter=" ++ e.quote s.filter))
          FilterSection) := by
  constructor
  · constructor
    · intro hnil
      by_contra hc
      rw [buildCommandPreview_command e s d hd hc] at hnil
      simp [PreviewSection] at hnil
    · intro h
      exact buildCommandPreview_incomplete e s d hd h.1 h.2
  · intro hslash hname
    have hc : ¬ (d.SlashSeparatedInCommand = true ∧ s.resourceName = "") := fun h => hname h.2
    rw [buildCommandPreview_command e s d hd hc]
    simp [previewCommandReference, hslash, hname, String.append_assoc]

/-- C4, at a concrete input: `logs` on the pod `pod-1`. -/
theorem C4_preview_slash_joined_name_witness :
    (sampleBuilder failingExecutor).commandGuard.GetResourceDetails logsState.verb
        logsState.resourceType = .ok podsForLogs ∧
    ((buildCommandPreview (sampleBuilder failingExecutor) logsState).1 = [] ↔
      (podsForLogs.SlashSeparatedInCommand = true ∧ logsState.resourceName = "")) ∧
    (podsForLogs.SlashSeparatedInCommand = true → logsState.resourceName ≠ "" →
      (buildCommandPreview (sampleBuilder failingExecutor) logsState).1 =
        PreviewSection
          ("kubectl " ++ logsState.verb ++ " " ++ logsState.resourceType ++ "/" ++
            logsState.resourceName ++
            (if podsForLogs.Namespaced = true ∧ logsState.namespace_ ≠ "" then
              " -n " ++ logsState.namespace_
              else "") ++
            (if logsState.filter = "" then ""
              else " --filter=" ++ (sampleBuilder failingExecutor).quote logsState.filter))
          FilterSection) :=
  ⟨rfl, C4_preview_slash_joined_name (sampleBuilder failingExecutor) logsState podsForLogs rfl⟩

/-- C5. For every state for which the command preview produces a command (the gate has
details of the pair, and a slash-joined name is not missing), the command is the binary,
the verb and the resource type separated by spaces, followed by the separator and the
resource name only when a name is selected, followed by the namespace flag exactly when the
resource is namespace-scoped and a namespace is selected, followed by the filter flag with
the quoted filter text exactly when the filter is not empty, in that order and with nothing
else; when the namespace flag and the filter flag are both unset the command ends with the
resource type or the name. -/
theorem C5_preview_command_assembly (e : KubectlCmdBuilder) (s : stateDetails) (d : Resource)
    (hd : e.commandGuard.GetResourceDetails s.verb s.resourceType = .ok d)
    (hcomplete : ¬ (d.SlashSeparatedInCommand = true ∧ s.resourceName = "")) :
    (buildCommandPreview e s).1 =
        PreviewSection
          ("kubectl " ++ s.verb ++ " " ++ s.resourceType ++
            (if s.resourceName = "" then ""
              else (if d.SlashSeparatedInCommand = true then "/" else " ") ++ s.resourceName) ++
            (if d.Namespaced = true ∧ s.namespace_ ≠ "" then " -n " ++ s.namespace_ else "") ++
            (if s.filter = "" then "" else " --filter=" ++ e.quote s.filter))
          FilterSection ∧
    ((d.Namespaced = false ∨ s.namespace_ = "") → s.filter = "" →
      (buildCommandPreview e s).1 =
        PreviewSection
          ("kubectl " ++ s.verb ++ " " ++ s.resourceType ++
            (if s.resourceName = "" then ""
              else (if d.SlashSeparatedInCommand = true then "/" else " ") ++ s.resourceName))
          FilterSection) := by
  have hcmd := buildCommandPreview_command e s d hd hcomplete
  refine ⟨hcmd, ?_⟩
  intro hns hf
  have hflag : ¬ (d.Namespaced = true ∧ s.namespace_ ≠ "") := by
    rintro ⟨h1, h2⟩
    rcases hns with h | h
    · rw [h] at h1
      exact Bool.noConfusion h1
    · exact h2 h
  rw [hcmd]
  simp [previewCommandReference, hflag, hf]

/-- C5, at a concrete input: `get` on the pod `web-0` of the namespace `prod`. -/
theorem C5_preview_command_assembly_witness :
    (sampleBuilder failingExecutor).commandGuard.GetResourceDetails getPodState.verb
        getPodState.resourceType = .ok podsForGet ∧
    ¬ (podsForGet.SlashSeparatedInCommand = true ∧ getPodState.resourceName = "") ∧
    (buildCommandPreview (sampleBuilder failingExecutor) getPodState).1 =
        PreviewSection
          ("kubectl " ++ getPodState.verb ++ " " ++ getPodState.resourceType ++
            (if getPodState.resourceName = "" then ""
              else (if podsForGet.SlashSeparatedInCommand = true then "/" else " ") ++
                getPodState.resourceName) ++
            (if podsForGet.Namespaced = true ∧ getPodState.namespace_ ≠ "" then
              " -n " ++ getPodState.namespace_
              else "") ++
            (if getPodState.filter = "" then ""
              else " --filter=" ++ (sampleBuilder failingExecutor).quote getPodState.filter))
          FilterSection ∧
    ((podsForGet.Namespaced = false ∨ getPodState.namespace_ = "") → getPodState.filter = "" →
      (buildCommandPreview (sampleBuilder failingExecutor) getPodState).1 =
        PreviewSection
          ("kubectl " ++ getPodState.verb ++ " " ++ getPodState.resourceType ++
            (if getPodState.resourceName = "" then ""
              else (if podsForGet.SlashSeparatedInCommand = true then "/" else " ") ++
                getPodState.resourceName))
          FilterSection) :=
  ⟨rfl, by decide,
    C5_preview_command_assembly (sampleBuilder failingExecutor) getPodState podsForGet rfl
      (by decide)⟩

theorem overflowSentence_length (names : List String) :
    (overflowSentence names).length = names.length := by
  simp [overflowSentence]

theorem truncated_length (name : String) (h : 75 < name.length) :
    (String.mk (name.data.take 72) ++ "...").length = 75 := by
  rw [String.length_append]
  have h3 : "...".length = 3 := by decide
  have h72 : (String.mk (name.data.take 72)).length = 72 := by
    show (name.data.take 72).length = 72
    rw [List.length_take]
    have : name.data.length = name.length := rfl
    omega
  omega

theorem overflowSentence_getElem? (names : List String) (i : Nat) :
    (overflowSentence names)[i]? =
      names[i]?.map fun s => if s.length < 76 then s else String.mk (s.data.take 72) ++ "..." := by
  simp [overflowSentence]

theorem overflowSentence_le (names : List String) :
    ∀ label ∈ overflowSentence names, label.length ≤ 75 := by
  intro label hl
  simp only [overflowSentence, List.mem_map] at hl
  obtain ⟨name, _, rfl⟩ := hl
  by_cases h : name.length < 76
  · simp only [h, if_true]
    omega
  · simp only [h, if_false]
    rw [truncated_length name (by omega)]

theorem selectDropdown_options (name cmd : String) (items : List dropdownItem)
    (init : dropdownItem) (sel : Select) (h : selectDropdown name cmd items init = some sel) :
    sel.options = items.map fun i => { Name := i.Name, Value := i.Value } := by
  unfold selectDropdown at h
  cases items with
  | nil => simp at h
  | cons a as =>
    simp at h
    subst h
    simp [Select.options]

theorem ResourceNamesSelect_options (names : List String) (init : String) (sel : Select)
    (h : ResourceNamesSelect names init = some sel) :
    sel.options = names.map fun n => { Name := n, Value := n } := by
  rw [selectDropdown_options _ _ _ _ sel h]
  simp [createDropdownItems, newDropdownItem]

theorem tryToGetResourceNamesSelect_cases (e : KubectlCmdBuilder) (bindings : List String)
    (s : stateDetails) (ctx : CommandContext) :
    (tryToGetResourceNamesSelect e bindings s ctx).1 = EmptyResourceNameDropdown ∨
      ∃ out, (tryToGetResourceNamesSelect e bindings s ctx).1 =
        ResourceNamesSelect (overflowSentence (getNonEmptyLines out)) s.resourceName := by
  unfold tryToGetResourceNamesSelect
  by_cases ht : s.resourceType = ""
  · simp [ht]
  · simp only [ht, if_false]
    split
    · exact Or.inl rfl
    · rename_i out _
      by_cases hl : (getNonEmptyLines out).length = 0
      · simp [hl]
      · simp only [hl, if_false]
        exact Or.inr ⟨out, rfl⟩

theorem tryToGetResourceNamesSelect_values (e : KubectlCmdBuilder) (bindings : List String)
    (s : stateDetails) (ctx : CommandContext) (sel : Select)
    (h : (tryToGetResourceNamesSelect e bindings s ctx).1 = some sel) :
    ∀ opt ∈ sel.options, opt.Value.length ≤ 75 ∧ opt.Name = opt.Value := by
  rcases tryToGetResourceNamesSelect_cases e bindings s ctx with he | ⟨out, ho⟩
  · rw [he] at h
    simp [EmptyResourceNameDropdown] at h
    subst h
    simp [Select.options]
  · rw [ho] at h
    rw [ResourceNamesSelect_options _ _ sel h]
    intro opt hopt
    simp only [List.mem_map] at hopt
    obtain ⟨n, hn, rfl⟩ := hopt
    exact ⟨overflowSentence_le _ n hn, rfl⟩

theorem tryToGetResourceNamesSelect_success (e : KubectlCmdBuilder) (bindings : List String)
    (s : stateDetails) (ctx : CommandContext) (out : String)
    (htype : s.resourceType ≠ "")
    (hout : e.kcExecutor.Execute bindings (resourceNamesCommand s) true ctx = .ok out)
    (hlines : getNonEmptyLines out ≠ []) :
    (tryToGetResourceNamesSelect e bindings s ctx).1 =
      ResourceNamesSelect (overflowSentence (getNonEmptyLines out)) s.resourceName := by
  unfold tryToGetResourceNamesSelect
  simp only [htype, if_false]
  have hcmd : (if s.namespace_ ≠ "" then
      kubectlCommandName ++ " get " ++ s.resourceType ++
        " --ignore-not-found=true -o go-template='\x7b\x7brange .items\x7d\x7d\x7b\x7b.metadata.name\x7d\x7d\x7b\x7b\"\\n\"\x7d\x7d\x7b\x7bend\x7d\x7d'" ++
        " -n " ++ s.namespace_
      else
        kubectlCommandName ++ " get " ++ s.resourceType ++
          " --ignore-not-found=true -o go-template='\x7b\x7brange .items\x7d\x7d\x7b\x7b.metadata.name\x7d\x7d\x7b\x7b\"\\n\"\x7d\x7d\x7b\x7bend\x7d\x7d'") =
      resourceNamesCommand s := rfl
  rw [hcmd, hout]
  have hlen : (getNonEmptyLines out).length ≠ 0 := by
    simpa [List.length_eq_zero] using hlines
  simp [hlen]

/-- C6 (as stated, refuted). When the execution gateway lists one pod whose name has 80
bytes, the only option of the resource-name dropdown has the truncated text, 72 bytes and
three dots, both as its label and as its value, and that value is not the name of the pod;
once that option is selected the command preview shows the truncated text as the name. -/
theorem C6_counterexample_long_name_value_is_truncated :
    longName.length = 80 ∧
    ((tryToGetResourceNamesSelect (sampleBuilder (executorReturning (longName ++ "\n"))) []
        getPodsState {}).1.map fun sel => sel.options) =
      some [{ Name := longNameLabel, Value := longNameLabel }] ∧
    longNameLabel ≠ longName ∧
    ((renderMessage (sampleBuilder (executorReturning (longName ++ "\n")))
        { getPodsState with resourceName := longNameLabel } [] ["get"] ["pods"] {}).1.toOption.map
        fun msg => msg.Message.Sections.map fun sec => sec.Base.Body.CodeBlock) =
      some ["", "kubectl get pods " ++ longNameLabel ++ " -n kube-system", ""] :=
  ⟨by decide, by decide, by decide, by decide⟩

theorem namespace_items_eq (allowedNS : Namespaces) (selected : String)
    (namespaces : List String) :
    (namespaces.filterMap fun itemName =>
        match allowedNS.IsAllowed itemName with
        | .error _ => none
        | .ok false => none
        | .ok true =>
          some (if (appendNamespaceSuffixIfDefault (newDropdownItem selected selected)).Value =
                (newDropdownItem itemName itemName).Value then
              appendNamespaceSuffixIfDefault (newDropdownItem itemName itemName)
            else newDropdownItem itemName itemName)).map
        (fun i => ({ Name := i.Name, Value := i.Value } : OptionItem)) =
      (namespaces.filter fun n => allowedWithoutError (allowedNS.IsAllowed n)).map
        (namespaceOption selected) := by
  have hval : ∀ x : String,
      (appendNamespaceSuffixIfDefault (newDropdownItem x x)).Value = x := by
    intro x
    unfold appendNamespaceSuffixIfDefault newDropdownItem
    split <;> rfl
  induction namespaces with
  | nil => rfl
  | cons n rest ih =>
    rw [List.filterMap_cons, List.filter_cons]
    cases hn : allowedNS.IsAllowed n with
    | error err => simpa [allowedWithoutError, hn] using ih
    | ok b =>
      cases b with
      | false => simpa [allowedWithoutError, hn] using ih
      | true =>
        simp only [allowedWithoutError, hn, if_true, List.map_cons, ih]
        congr 1
        rw [hval]
        by_cases hsel : selected = n
        · subst hsel
          by_cases hdef : selected = "default"
          · simp [namespaceOption, appendNamespaceSuffixIfDefault, newDropdownItem, hdef]
          · simp [namespaceOption, appendNamespaceSuffixIfDefault, newDropdownItem, hdef]
        · have hne : ¬ (n = "default" ∧ selected = "default") := by
            rintro ⟨h1, h2⟩
            exact hsel (h2.trans h1.symm)
          simp [namespaceOption, newDropdownItem, hsel, hne]

theorem tryToGetNamespaceSelect_options (e : KubectlCmdBuilder) (bindings : List String)
    (s : stateDetails) (d : Resource) (namespaces : List String) (sel : Select)
    (hd : e.commandGuard.GetResourceDetails s.verb s.resourceType = .ok d)
    (hscoped : d.Namespaced = true)
    (hlist : e.namespaceLister.List dropdownItemsLimit = .ok namespaces)
    (hsel : (tryToGetNamespaceSelect e bindings s).1 = some sel) :
    sel.options =
      (namespaces.filter fun n =>
        allowedWithoutError
          (((e.merger.MergeAllEnabled bindings).AllowedNamespacesPerResource
            s.resourceType).IsAllowed n)).map (namespaceOption s.namespace_) := by
  simp only [tryToGetNamespaceSelect, hd, hscoped, hlist, Bool.not_true, Bool.false_eq_true,
    if_false, ResourceNamespaceSelect] at hsel
  rw [selectDropdown_options _ _ _ _ sel hsel]
  exact namespace_items_eq _ _ _

/-- C8 (as stated, refuted). With `kube-system` selected, the discovered namespace `default`
is offered with the plain label `default`; with `default` selected it is offered with the
label `default (namespace)`. -/
theorem C8_counterexample_default_candidate_undecorated :
    ((tryToGetNamespaceSelect (sampleBuilder failingExecutor) [] getPodsState).1.map
        fun sel => sel.options) =
      some [{ Name := "default", Value := "default" },
            { Name := "kube-system", Value := "kube-system" }] ∧
    ((tryToGetNamespaceSelect (sampleBuilder failingExecutor) []
        { getPodsState with namespace_ := "default" }).1.map fun sel => sel.options) =
      some [{ Name := "default (namespace)", Value := "default" },
            { Name := "kube-system", Value := "kube-system" }] := by
  exact ⟨by decide, by decide⟩

/-- C8 (amended). When the (verb, resource type) pair is namespace-scoped and the inventory
lists the namespaces, the namespace dropdown has one option per allowed namespace, in the
order of the inventory, whose value is the name of the namespace; the option of the
namespace `default` has the label `default (namespace)` when `default` is the namespace
selected in the snapshot and the label `default` otherwise, and every other option has the
name of its namespace as its label. -/
theorem C8_namespace_option_labels (e : KubectlCmdBuilder) (bindings : List String)
    (s : stateDetails) (d : Resource) (namespaces : List String) (sel : Select)
    (hd : e.commandGuard.GetResourceDetails s.verb s.resourceType = .ok d)
    (hscoped : d.Namespaced = true)
    (hlist : e.namespaceLister.List dropdownItemsLimit = .ok namespaces)
    (hsel : (tryToGetNamespaceSelect e bindings s).1 = some sel) :
    sel.options.map (fun opt => opt.Value) =
      (namespaces.filter fun n =>
        allowedWithoutError
          (((e.merger.MergeAllEnabled bindings).AllowedNamespacesPerResource
            s.resourceType).IsAllowed n)) ∧
    (∀ opt ∈ sel.options, opt.Value = "default" →
      (s.namespace_ = "default" → opt.Name = "default (namespace)") ∧
      (s.namespace_ ≠ "default" → opt.Name = "default")) ∧
    (∀ opt ∈ sel.options, opt.Value ≠ "default" → opt.Name = opt.Value) := by
  have hopts := tryToGetNamespaceSelect_options e bindings s d namespaces sel hd hscoped hlist
    hsel
  rw [hopts]
  refine ⟨?_, ?_, ?_⟩
  · rw [List.map_map]
    have hid : ((fun opt : OptionItem => opt.Value) ∘ namespaceOption s.namespace_) = id := by
      funext n
      rfl
    rw [hid, List.map_id]
  · intro opt hopt hvalue
    simp only [List.mem_map] at hopt
    obtain ⟨n, _, rfl⟩ := hopt
    have hn : n = "default" := hvalue
    subst hn
    constructor
    · intro hsel'
      simp [namespaceOption, hsel']
    · intro hsel'
      simp [namespaceOption, hsel']
  · intro opt hopt hvalue
    simp only [List.mem_map] at hopt
    obtain ⟨n, _, rfl⟩ := hopt
    have hn : n ≠ "default" := hvalue
    simp [namespaceOption, hn]

/-- C8, at a concrete input: `kube-system` is selected and `default` is a candidate. -/
theorem C8_namespace_option_labels_witness :
    (sampleBuilder failingExecutor).commandGuard.GetResourceDetails getPodsState.verb
        getPodsState.resourceType = .ok podsForGet ∧
    podsForGet.Namespaced = true ∧
    (sampleBuilder failingExecutor).namespaceLister.List dropdownItemsLimit =
      .ok ["default", "kube-system"] ∧
    (tryToGetNamespaceSelect (sampleBuilder failingExecutor) [] getPodsState).1 =
      some kubeSystemSelected ∧
    kubeSystemSelected.options.map (fun opt => opt.Value) =
      (["default", "kube-system"].filter fun n =>
        allowedWithoutError
          ((((sampleBuilder failingExecutor).merger.MergeAllEnabled []).AllowedNamespacesPerResource
            getPodsState.resourceType).IsAllowed n)) ∧
    (∀ opt ∈ kubeSystemSelected.options, opt.Value = "default" →
      (getPodsState.namespace_ = "default" → opt.Name = "default (namespace)") ∧
      (getPodsState.namespace_ ≠ "default" → opt.Name = "default")) ∧
    (∀ opt ∈ kubeSystemSelected.options, opt.Value ≠ "default" → opt.Name = opt.Value) :=
  ⟨rfl, rfl, rfl, by decide,
    C8_namespace_option_labels (sampleBuilder failingExecutor) [] getPodsState podsForGet
      ["default", "kube-system"] kubeSystemSelected rfl rfl rfl (by decide)⟩

theorem VerbSelect_some (allVerbs : List String) (v : String) (h : allVerbs ≠ []) :
    ∃ verbSel, VerbSelect allVerbs v = some verbSel := by
  cases hv : VerbSelect allVerbs v with
  | some x => exact ⟨x, rfl⟩
  | none => exact absurd ((VerbSelect_eq_none_iff _ _).1 hv) h

theorem ResourceTypeSelect_some (names : List String) (v : String) (h : names ≠ []) :
    ∃ typeSel, ResourceTypeSelect names v = some typeSel := by
  cases hv : ResourceTypeSelect names v with
  | some x => exact ⟨x, rfl⟩
  | none =>
    simp [ResourceTypeSelect, selectDropdown_eq_none_iff, createDropdownItems_eq_nil_iff] at hv
    exact absurd hv h

theorem tryToGetResourceNamesSelect_failure (e : KubectlCmdBuilder) (bindings : List String)
    (s : stateDetails) (ctx : CommandContext)
    (hfail :
      (∃ err, e.kcExecutor.Execute bindings (resourceNamesCommand s) true ctx = .error err) ∨
      (∃ out, e.kcExecutor.Execute bindings (resourceNamesCommand s) true ctx = .ok out ∧
        getNonEmptyLines out = [])) :
    (tryToGetResourceNamesSelect e bindings s ctx).1 = some emptyResourceNames := by
  unfold tryToGetResourceNamesSelect
  by_cases ht : s.resourceType = ""
  · simp [ht, EmptyResourceNameDropdown, emptyResourceNames]
  · simp only [ht, if_false]
    have hcmd : (if s.namespace_ ≠ "" then
        kubectlCommandName ++ " get " ++ s.resourceType ++
          " --ignore-not-found=true -o go-template='\x7b\x7brange .items\x7d\x7d\x7b\x7b.metadata.name\x7d\x7d\x7b\x7b\"\\n\"\x7d\x7d\x7b\x7bend\x7d\x7d'" ++
          " -n " ++ s.namespace_
        else
          kubectlCommandName ++ " get " ++ s.resourceType ++
            " --ignore-not-found=true -o go-template='\x7b\x7brange .items\x7d\x7d\x7b\x7b.metadata.name\x7d\x7d\x7b\x7b\"\\n\"\x7d\x7d\x7b\x7bend\x7d\x7d'") =
        resourceNamesCommand s := rfl
    rw [hcmd]
    rcases hfail with ⟨err, herr⟩ | ⟨out, hout, hlines⟩
    · rw [herr]
      rfl
    · rw [hout]
      simp [hlines, EmptyResourceNameDropdown, emptyResourceNames]

theorem renderMessage_ok (e : KubectlCmdBuilder) (s : stateDetails)
    (bindings allVerbs allTypes : List String) (ctx : CommandContext) (allowed : List Resource)
    (hverbs : allVerbs ≠ [])
    (hgate : e.commandGuard.GetAllowedResourcesForVerb s.verb allTypes = .ok allowed) :
    ∃ msg, (renderMessage e s bindings allVerbs allTypes ctx).1 = .ok msg := by
  obtain ⟨verbSel, hv⟩ := VerbSelect_some allVerbs s.verb hverbs
  by_cases hnil : allowed = []
  · subst hnil
    exact ⟨_, by rw [renderMessage_no_types e s bindings allVerbs allTypes ctx verbSel hv hgate]⟩
  · by_cases hin : s.resourceType ∈ allowed.map fun r => r.Name
    · exact ⟨_, by
        rw [renderMessage_type_listed e s bindings allVerbs allTypes ctx verbSel allowed hv
          hgate hin]⟩
    · exact ⟨_, by
        rw [renderMessage_type_not_listed e s bindings allVerbs allTypes ctx verbSel allowed hv
          hgate hnil hin]⟩

/-- C10 (as stated, refuted). With a non-empty verb list, the render returns the error of
the policy gate when the lookup of the resource types allowed for the verb fails. -/
theorem C10_counterexample_gate_error_is_returned :
    ["exec", "get"] ≠ [] ∧
    renderMessage (sampleBuilder failingExecutor) execState [] ["exec", "get"] ["pods"] {} =
      (.error "verb not supported", [Call.GetAllowedResourcesForVerb "exec" ["pods"]]) :=
  ⟨by decide, rfl⟩

/-- C10 (amended). The render returns an error exactly in two cases: the verb list is empty,
and the error is that the verb dropdown is required; or the verb list is not empty and the
lookup of the resource types allowed for the verb fails, and the error is the one of the
lookup.  For every non-empty verb list for which that lookup succeeds the render returns a
message, whatever the lookup of the resource details answers. -/
theorem C10_render_error_cases (e : KubectlCmdBuilder) (s : stateDetails)
    (bindings allVerbs allTypes : List String) (ctx : CommandContext) :
    (∀ err, (renderMessage e s bindings allVerbs allTypes ctx).1 = .error err ↔
      ((allVerbs = [] ∧ err = errRequiredVerbDropdown) ∨
        (allVerbs ≠ [] ∧
          e.commandGuard.GetAllowedResourcesForVerb s.verb allTypes = .error err))) ∧
    (∀ allowed, allVerbs ≠ [] →
      e.commandGuard.GetAllowedResourcesForVerb s.verb allTypes = .ok allowed →
        ∃ msg, (renderMessage e s bindings allVerbs allTypes ctx).1 = .ok msg) := by
  refine ⟨?_, fun allowed hverbs hgate =>
    renderMessage_ok e s bindings allVerbs allTypes ctx allowed hverbs hgate⟩
  intro err
  by_cases hverbs : allVerbs = []
  · subst hverbs
    rw [renderMessage_no_verbs]
    constructor
    · intro h
      injection h with h
      exact Or.inl ⟨rfl, h.symm⟩
    · rintro (⟨_, h⟩ | ⟨h, _⟩)
      · rw [h]
      · exact absurd rfl h
  · obtain ⟨verbSel, hv⟩ := VerbSelect_some allVerbs s.verb hverbs
    cases hgate : e.commandGuard.GetAllowedResourcesForVerb s.verb allTypes with
    | error gateErr =>
      rw [renderMessage_gate_error e s bindings allVerbs allTypes ctx verbSel gateErr hv hgate]
      constructor
      · intro h
        injection h with h
        exact Or.inr ⟨hverbs, by rw [h]⟩
      · rintro (⟨h, _⟩ | ⟨_, h⟩)
        · exact absurd h hverbs
        · injection h with h
          rw [h]
    | ok allowed =>
      obtain ⟨msg, hmsg⟩ := renderMessage_ok e s bindings allVerbs allTypes ctx allowed hverbs
        hgate
      rw [hmsg]
      constructor
      · intro h
        exact Except.noConfusion h
      · rintro (⟨h, _⟩ | ⟨_, h⟩)
        · exact absurd h hverbs
        · exact Except.noConfusion h

/-- C10, at a concrete input: `get pods` is selected and only `nodes` is configured. -/
theorem C10_render_error_cases_witness :
    (∀ err, (renderMessage (sampleBuilder failingExecutor) getPodsState [] ["get"] ["nodes"]
        {}).1 = .error err ↔
      (((["get"] : List String) = [] ∧ err = errRequiredVerbDropdown) ∨
        ((["get"] : List String) ≠ [] ∧
          (sampleBuilder failingExecutor).commandGuard.GetAllowedResourcesForVerb
            getPodsState.verb ["nodes"] = .error err))) ∧
    (∀ allowed, (["get"] : List String) ≠ [] →
      (sampleBuilder failingExecutor).commandGuard.GetAllowedResourcesForVerb
          getPodsState.verb ["nodes"] = .ok allowed →
        ∃ msg, (renderMessage (sampleBuilder failingExecutor) getPodsState [] ["get"] ["nodes"]
          {}).1 = .ok msg) :=
  C10_render_error_cases (sampleBuilder failingExecutor) getPodsState [] ["get"] ["nodes"] {}

theorem lastValueFrom_nil (command : String) (read : BlockAction → String) (start : String) :
    lastValueFrom [] command read start = start := rfl

theorem lastValueFrom_cons (el : String × BlockAction) (els : List (String × BlockAction))
    (command : String) (read : BlockAction → String) (start : String) :
    lastValueFrom (el :: els) command read start =
      lastValueFrom els command read
        (if TrimSpace el.1 = command then read el.2 else start) := by
  unfold lastValueFrom
  by_cases h : TrimSpace el.1 = command
  · simp only [List.filter_cons, h, decide_True, if_true]
    cases hf : (List.filter (fun el => decide (TrimSpace el.1 = command)) els) with
    | nil => simp
    | cons a as =>
      have hlast : (a :: as).getLast? = some ((a :: as).getLast (by simp)) :=
        List.getLast?_eq_getLast _ _
      simp [hlast]
  · simp [List.filter_cons, h]

theorem extractElement_eq (d : stateDetails) (el : String × BlockAction) :
    extractElement d el =
      { dropdownsBlockID := d.dropdownsBlockID
        verb :=
          if TrimSpace el.1 = verbsDropdownCommand then el.2.SelectedOption.Value else d.verb
        namespace_ :=
          if TrimSpace el.1 = resourceNamespaceDropdownCommand then el.2.SelectedOption.Value
          else d.namespace_
        resourceType :=
          if TrimSpace el.1 = resourceTypesDropdownCommand then el.2.SelectedOption.Value
          else d.resourceType
        resourceName :=
          if TrimSpace el.1 = resourceNamesDropdownCommand then el.2.SelectedOption.Value
          else d.resourceName
        filter := if TrimSpace el.1 = filterPlaintextInputCommand then el.2.Value else d.filter } := by
  have h12 : verbsDropdownCommand ≠ resourceTypesDropdownCommand := by decide
  have h13 : verbsDropdownCommand ≠ resourceNamesDropdownCommand := by decide
  have h14 : verbsDropdownCommand ≠ resourceNamespaceDropdownCommand := by decide
  have h15 : verbsDropdownCommand ≠ filterPlaintextInputCommand := by decide
  have h23 : resourceTypesDropdownCommand ≠ resourceNamesDropdownCommand := by decide
  have h24 : resourceTypesDropdownCommand ≠ resourceNamespaceDropdownCommand := by decide
  have h25 : resourceTypesDropdownCommand ≠ filterPlaintextInputCommand := by decide
  have h34 : resourceNamesDropdownCommand ≠ resourceNamespaceDropdownCommand := by decide
  have h35 : resourceNamesDropdownCommand ≠ filterPlaintextInputCommand := by decide
  have h45 : resourceNamespaceDropdownCommand ≠ filterPlaintextInputCommand := by decide
  unfold extractElement
  by_cases h1 : TrimSpace el.1 = verbsDropdownCommand
  · simp [h1, h12, h13, h14, h15]
  · by_cases h2 : TrimSpace el.1 = resourceTypesDropdownCommand
    · simp [h2, h12.symm, h23, h24, h25]
    · by_cases h3 : TrimSpace el.1 = resourceNamesDropdownCommand
      · simp [h3, h13.symm, h23.symm, h34, h35]
      · by_cases h4 : TrimSpace el.1 = resourceNamespaceDropdownCommand
        · simp [h4, h14.symm, h24.symm, h34.symm, h45]
        · by_cases h5 : TrimSpace el.1 = filterPlaintextInputCommand
          · simp [h5, h15.symm, h25.symm, h35.symm, h45.symm]
          · simp [h1, h2, h3, h4, h5]

theorem foldl_extractElement (els : List (String × BlockAction)) (d : stateDetails) :
    els.foldl extractElement d =
      { dropdownsBlockID := d.dropdownsBlockID
        verb :=
          lastValueFrom els verbsDropdownCommand (fun act => act.SelectedOption.Value) d.verb
        namespace_ :=
          lastValueFrom els resourceNamespaceDropdownCommand
            (fun act => act.SelectedOption.Value) d.namespace_
        resourceType :=
          lastValueFrom els resourceTypesDropdownCommand (fun act => act.SelectedOption.Value)
            d.resourceType
        resourceName :=
          lastValueFrom els resourceNamesDropdownCommand (fun act => act.SelectedOption.Value)
            d.resourceName
        filter := lastValueFrom els filterPlaintextInputCommand (fun act => act.Value) d.filter } := by
  induction els generalizing d with
  | nil => rfl
  | cons el rest ih =>
    rw [List.foldl_cons, ih, extractElement_eq]
    simp only [lastValueFrom_cons]

theorem lastValueFrom_append (xs ys : List (String × BlockAction)) (command : String)
    (read : BlockAction → String) (start : String) :
    lastValueFrom (xs ++ ys) command read start =
      lastValueFrom ys command read (lastValueFrom xs command read start) := by
  induction xs generalizing start with
  | nil => rfl
  | cons x rest ih => rw [List.cons_append, lastValueFrom_cons, ih, lastValueFrom_cons]

theorem lastBlockFrom_cons (blockID : String) (rest : List String) (start : String) :
    lastBlockFrom (blockID :: rest) start =
      lastBlockFrom rest
        (if (!Contains blockID filterPlaintextInputCommand) = true then blockID else start) := by
  unfold lastBlockFrom
  by_cases h : (!Contains blockID filterPlaintextInputCommand) = true
  · simp only [List.filter_cons, h, if_true]
    cases hf : (List.filter (fun blockID => !Contains blockID filterPlaintextInputCommand)
        rest) with
    | nil => simp
    | cons a as =>
      have hlast : (a :: as).getLast? = some ((a :: as).getLast (by simp)) :=
        List.getLast?_eq_getLast _ _
      simp [hlast]
  · simp [List.filter_cons, h]

theorem foldl_extractBlock (blocks : List (String × List (String × BlockAction)))
    (d : stateDetails) :
    blocks.foldl extractBlock d =
      { dropdownsBlockID := lastBlockFrom (blocks.map fun block => block.1) d.dropdownsBlockID
        verb :=
          lastValueFrom (blocks.flatMap fun block => block.2) verbsDropdownCommand
            (fun act => act.SelectedOption.Value) d.verb
        namespace_ :=
          lastValueFrom (blocks.flatMap fun block => block.2) resourceNamespaceDropdownCommand
            (fun act => act.SelectedOption.Value) d.namespace_
        resourceType :=
          lastValueFrom (blocks.flatMap fun block => block.2) resourceTypesDropdownCommand
            (fun act => act.SelectedOption.Value) d.resourceType
        resourceName :=
          lastValueFrom (blocks.flatMap fun block => block.2) resourceNamesDropdownCommand
            (fun act => act.SelectedOption.Value) d.resourceName
        filter :=
          lastValueFrom (blocks.flatMap fun block => block.2) filterPlaintextInputCommand
            (fun act => act.Value) d.filter } := by
  induction blocks generalizing d with
  | nil => rfl
  | cons block rest ih =>
    rw [List.foldl_cons, ih]
    simp only [List.map_cons, List.flatMap_cons, lastValueFrom_append, lastBlockFrom_cons]
    unfold extractBlock
    by_cases h : (!Contains block.1 filterPlaintextInputCommand) = true <;>
      simp [h, foldl_extractElement]

theorem extractStateDetails_eq_reference (state : Option BlockActionStates) :
    extractStateDetails state = extractReference TrimSpace state := by
  cases state with
  | none => rfl
  | some st =>
    simp only [extractStateDetails, extractReference, foldl_extractBlock]
    rfl

/-- C16 (as stated, refuted). The element whose identifier is the verb command after a
space is not "exactly" the verb command, and yet the extraction reads the verb from it:
the extraction differs from the reference that compares identifiers as they are. -/
theorem C16_counterexample_identifier_is_trimmed :
    extractStateDetails (some verbSelectedPayload) =
      { dropdownsBlockID := "block-1", verb := "get" } ∧
    extractReference (fun id => id) (some verbSelectedPayload) =
      { dropdownsBlockID := "block-1" } := by
  exact ⟨by decide, by decide⟩

/-- C16 (amended). State extraction is the reference definition in which an identifier is
compared with a command after its leading and trailing white space is trimmed: a missing
payload and a payload without blocks give the all-empty state; every field is read from
the element whose trimmed identifier is its command, and an element whose trimmed
identifier is none of the five commands changes no field. -/
theorem C16_extractStateDetails_refines_reference :
    (∀ state : Option BlockActionStates,
      extractStateDetails state = extractReference TrimSpace state) ∧
    extractStateDetails none = {} ∧
    extractStateDetails (some { Values := [] }) = {} ∧
    (∀ (d : stateDetails) (el : String × BlockAction),
      TrimSpace el.1 ∉ knownCmdPrefix → extractElement d el = d) := by
  refine ⟨extractStateDetails_eq_reference, rfl, rfl, ?_⟩
  intro d el hnot
  simp only [knownCmdPrefix, List.mem_cons, List.mem_singleton, not_or, List.mem_nil_iff,
    or_false] at hnot
  obtain ⟨h1, h2, h3, h4, h5⟩ := hnot
  simp [extractElement, h1, h2, h3, h4, h5]

theorem eq_of_perm_of_length_le_one {α : Type} (xs ys : List α) (hperm : xs.Perm ys)
    (hlen : xs.length ≤ 1) : xs = ys := by
  match xs, hlen with
  | [], _ => exact (List.perm_nil.1 hperm.symm).symm
  | [a], _ => exact (List.perm_singleton.1 hperm.symm).symm

theorem lastValueFrom_perm (xs ys : List (String × BlockAction)) (command : String)
    (read : BlockAction → String) (start : String) (hperm : xs.Perm ys)
    (hone : (xs.filter fun el => TrimSpace el.1 = command).length ≤ 1) :
    lastValueFrom xs command read start = lastValueFrom ys command read start := by
  unfold lastValueFrom
  rw [eq_of_perm_of_length_le_one _ _ (hperm.filter _) hone]

theorem lastBlockFrom_perm (xs ys : List String) (start : String) (hperm : xs.Perm ys)
    (hone : (xs.filter fun blockID =>
      !Contains blockID filterPlaintextInputCommand).length ≤ 1) :
    lastBlockFrom xs start = lastBlockFrom ys start := by
  unfold lastBlockFrom
  rw [eq_of_perm_of_length_le_one _ _ (hperm.filter _) hone]

/-- C17 (as stated, refuted). A payload with two blocks of dropdowns gives a different
session block identifier when its blocks are visited in the other order. -/
theorem C17_counterexample_block_order_matters :
    (twoBlocksPayload.Values.map fun block => block.1).Perm
      (twoBlocksPayloadReversed.Values.map fun block => block.1) ∧
    twoBlocksPayload.elements.Perm twoBlocksPayloadReversed.elements ∧
    (extractStateDetails (some twoBlocksPayload)).dropdownsBlockID = "block-2" ∧
    (extractStateDetails (some twoBlocksPayloadReversed)).dropdownsBlockID = "block-1" ∧
    extractStateDetails (some twoBlocksPayload) ≠
      extractStateDetails (some twoBlocksPayloadReversed) := by
  exact ⟨by decide, by decide, by decide, by decide, by decide⟩

/-- C17 (amended). For two visiting orders of one snapshot (the same block identifiers
and the same elements, in any order) in which at most one block does not belong to the
filter input and at most one element is recognised for each of the five commands, state
extraction gives the same state, session block identifier included; and when exactly one
block does not belong to the filter input, the session block identifier is the identifier
of that block. -/
theorem C17_extraction_independent_of_visiting_order (p q : BlockActionStates)
    (hblocks : (p.Values.map fun block => block.1).Perm (q.Values.map fun block => block.1))
    (helements : p.elements.Perm q.elements)
    (hsession : ((p.Values.map fun block => block.1).filter fun blockID =>
      !Contains blockID filterPlaintextInputCommand).length ≤ 1)
    (hunique : ∀ command ∈ knownCmdPrefix,
      (p.elements.filter fun el => TrimSpace el.1 = command).length ≤ 1) :
    extractStateDetails (some p) = extractStateDetails (some q) ∧
    (∀ blockID : String,
      ((p.Values.map fun block => block.1).filter fun blockID =>
        !Contains blockID filterPlaintextInputCommand) = [blockID] →
      (extractStateDetails (some p)).dropdownsBlockID = blockID ∧
      (extractStateDetails (some q)).dropdownsBlockID = blockID) := by
  have hu : ∀ command ∈ knownCmdPrefix, ∀ (read : BlockAction → String) (start : String),
      lastValueFrom (p.Values.flatMap fun block => block.2) command read start =
        lastValueFrom (q.Values.flatMap fun block => block.2) command read start :=
    fun command hc read start =>
      lastValueFrom_perm _ _ command read start helements (hunique command hc)
  have hb := lastBlockFrom_perm _ _ "" hblocks hsession
  have heq : extractStateDetails (some p) = extractStateDetails (some q) := by
    simp only [extractStateDetails, foldl_extractBlock]
    rw [hb, hu verbsDropdownCommand (by simp [knownCmdPrefix]),
      hu resourceTypesDropdownCommand (by simp [knownCmdPrefix]),
      hu resourceNamesDropdownCommand (by simp [knownCmdPrefix]),
      hu resourceNamespaceDropdownCommand (by simp [knownCmdPrefix]),
      hu filterPlaintextInputCommand (by simp [knownCmdPrefix])]
  refine ⟨heq, ?_⟩
  intro blockID hblock
  have hp : (extractStateDetails (some p)).dropdownsBlockID = blockID := by
    simp only [extractStateDetails, foldl_extractBlock, lastBlockFrom, hblock]
    rfl
  exact ⟨hp, heq ▸ hp⟩

/-- C17, at a concrete input: the payload of the command builder in two visiting orders. -/
theorem C17_extraction_independent_of_visiting_order_witness :
    (builderPayload.Values.map fun block => block.1).Perm
      (builderPayloadReordered.Values.map fun block => block.1) ∧
    builderPayload.elements.Perm builderPayloadReordered.elements ∧
    ((builderPayload.Values.map fun block => block.1).filter fun blockID =>
      !Contains blockID filterPlaintextInputCommand).length ≤ 1 ∧
    (∀ command ∈ knownCmdPrefix,
      (builderPayload.elements.filter fun el => TrimSpace el.1 = command).length ≤ 1) ∧
    extractStateDetails (some builderPayload) =
      extractStateDetails (some builderPayloadReordered) ∧
    (∀ blockID : String,
      ((builderPayload.Values.map fun block => block.1).filter fun blockID =>
        !Contains blockID filterPlaintextInputCommand) = [blockID] →
      (extractStateDetails (some builderPayload)).dropdownsBlockID = blockID ∧
      (extractStateDetails (some builderPayloadReordered)).dropdownsBlockID = blockID) :=
  ⟨by decide, by decide, by decide, by decide,
    C17_extraction_independent_of_visiting_order builderPayload builderPayloadReordered
      (by decide) (by decide) (by decide) (by decide)⟩

theorem Do_no_verbs (e : KubectlCmdBuilder) (newID : Except String String)
    (args bindings : List String) (state : Option BlockActionStates) (header : String)
    (ctx : CommandContext) (hnone : (getEnableKubectlDetails e bindings).1 = []) :
    Do e newID args true bindings state header ctx =
      some (.ok { Description := header
                  Message := { BaseBody := { Plaintext := noKubectlCommandsInChannel } } }, []) := by
  simp [Do, hnone, message]

theorem Do_initial (e : KubectlCmdBuilder) (newID : Except String String)
    (args bindings : List String) (state : Option BlockActionStates) (header : String)
    (ctx : CommandContext) (hsome : (getEnableKubectlDetails e bindings).1 ≠ [])
    (hone : args.length = 1) :
    Do e newID args true bindings state header ctx =
      some (initialMessage newID
        (e.commandGuard.FilterSupportedVerbs (getEnableKubectlDetails e bindings).1), []) := by
  have hlen : (getEnableKubectlDetails e bindings).1.length ≠ 0 := by
    simpa [List.length_eq_zero] using hsome
  simp [Do, hlen, hone]

theorem Do_render (e : KubectlCmdBuilder) (newID : Except String String)
    (cmdName cmdVerb : String) (rest bindings : List String)
    (state : Option BlockActionStates) (header : String) (ctx : CommandContext)
    (hsome : (getEnableKubectlDetails e bindings).1 ≠ [])
    (hknown : cmdName ++ " " ++ cmdVerb ∈ knownCmdPrefix) :
    Do e newID (cmdName :: cmdVerb :: rest) true bindings state header ctx =
      some (renderMessage e
        (if cmdName ++ " " ++ cmdVerb = resourceTypesDropdownCommand ∨
            cmdName ++ " " ++ cmdVerb = resourceNamespaceDropdownCommand then
          { snapshotState e bindings state with resourceName := "" }
        else snapshotState e bindings state)
        bindings (e.commandGuard.FilterSupportedVerbs (getEnableKubectlDetails e bindings).1)
        (getEnableKubectlDetails e bindings).2.1 ctx) := by
  have hlen : (getEnableKubectlDetails e bindings).1.length ≠ 0 := by
    simpa [List.length_eq_zero] using hsome
  have h12 : verbsDropdownCommand ≠ resourceTypesDropdownCommand := by decide
  have h13 : verbsDropdownCommand ≠ resourceNamesDropdownCommand := by decide
  have h14 : verbsDropdownCommand ≠ resourceNamespaceDropdownCommand := by decide
  have h15 : verbsDropdownCommand ≠ filterPlaintextInputCommand := by decide
  have h23 : resourceTypesDropdownCommand ≠ resourceNamesDropdownCommand := by decide
  have h24 : resourceTypesDropdownCommand ≠ resourceNamespaceDropdownCommand := by decide
  have h25 : resourceTypesDropdownCommand ≠ filterPlaintextInputCommand := by decide
  have h34 : resourceNamesDropdownCommand ≠ resourceNamespaceDropdownCommand := by decide
  have h35 : resourceNamesDropdownCommand ≠ filterPlaintextInputCommand := by decide
  have h45 : resourceNamespaceDropdownCommand ≠ filterPlaintextInputCommand := by decide
  simp only [knownCmdPrefix, List.mem_cons, List.mem_singleton, List.mem_nil_iff,
    or_false] at hknown
  rcases hknown with h | h | h | h | h <;>
    simp [Do, hlen, h, snapshotState, h12, h13, h14, h15, h23, h24, h25, h34, h35, h45,
      h12.symm, h13.symm, h14.symm, h15.symm, h23.symm, h24.symm, h25.symm, h34.symm,
      h35.symm, h45.symm]

/-- C11 (as stated, refuted). In a channel where `exec` is the only verb enabled, the list
of permitted verbs is not empty, the policy gate filters `exec` out, and `Do` returns the
error of the verb dropdown, both for the bare invocation and for a dropdown interaction. -/
theorem C11_counterexample_filter_empties_verb_list :
    (getEnableKubectlDetails execOnlyBuilder ["b"]).1 = ["exec"] ∧
    execOnlyBuilder.commandGuard.FilterSupportedVerbs ["exec"] = [] ∧
    Do execOnlyBuilder (.ok "id-1") ["kubectl"] true ["b"] none "header" {} =
      some (.error errRequiredVerbDropdown, []) ∧
    Do execOnlyBuilder (.ok "id-1") ["kc-cmd-builder", "--verbs"] true ["b"]
        (some verbSelectedPayload) "header" {} =
      some (.error errRequiredVerbDropdown, []) := by
  exact ⟨by decide, by decide, rfl, rfl⟩

/-- C11 (amended). On an interactive platform: when the list of permitted verbs of the
bindings is empty, `Do` returns the plaintext message that no kubectl command is enabled,
without error.  When it is not empty, the verb list handed to `initialMessage` (bare
invocation) and to `renderMessage` (a dropdown command) is the permitted list filtered by
the policy gate; when the filtered list is not empty the verb dropdown is constructed, and
when the gate filters every verb out `Do` returns the error of the verb dropdown. -/
theorem C11_Do_verb_list (e : KubectlCmdBuilder) (newID : Except String String)
    (args bindings : List String) (state : Option BlockActionStates) (header : String)
    (ctx : CommandContext) :
    ((getEnableKubectlDetails e bindings).1 = [] →
      Do e newID args true bindings state header ctx =
        some (.ok { Description := header
                    Message := { BaseBody := { Plaintext := noKubectlCommandsInChannel } } },
          [])) ∧
    ((getEnableKubectlDetails e bindings).1 ≠ [] → args.length = 1 →
      Do e newID args true bindings state header ctx =
        some (initialMessage newID
          (e.commandGuard.FilterSupportedVerbs (getEnableKubectlDetails e bindings).1), [])) ∧
    ((getEnableKubectlDetails e bindings).1 ≠ [] →
      ∀ (cmdName cmdVerb : String) (rest : List String), args = cmdName :: cmdVerb :: rest →
        cmdName ++ " " ++ cmdVerb ∈ knownCmdPrefix →
          ∃ s : stateDetails,
            Do e newID args true bindings state header ctx =
              some (renderMessage e s bindings
                (e.commandGuard.FilterSupportedVerbs (getEnableKubectlDetails e bindings).1)
                (getEnableKubectlDetails e bindings).2.1 ctx)) ∧
    (e.commandGuard.FilterSupportedVerbs (getEnableKubectlDetails e bindings).1 ≠ [] →
      ∀ verb : String,
        VerbSelect (e.commandGuard.FilterSupportedVerbs (getEnableKubectlDetails e bindings).1)
          verb ≠ none) ∧
    ((getEnableKubectlDetails e bindings).1 ≠ [] →
      e.commandGuard.FilterSupportedVerbs (getEnableKubectlDetails e bindings).1 = [] →
        (∀ id : String, args.length = 1 → newID = .ok id →
          Do e newID args true bindings state header ctx =
            some (.error errRequiredVerbDropdown, [])) ∧
        (∀ (cmdName cmdVerb : String) (rest : List String), args = cmdName :: cmdVerb :: rest →
          cmdName ++ " " ++ cmdVerb ∈ knownCmdPrefix →
            Do e newID args true bindings state header ctx =
              some (.error errRequiredVerbDropdown, []))) := by
  refine ⟨Do_no_verbs e newID args bindings state header ctx,
    Do_initial e newID args bindings state header ctx, ?_, ?_, ?_⟩
  · intro hsome cmdName cmdVerb rest hargs hknown
    subst hargs
    exact ⟨_, Do_render e newID cmdName cmdVerb rest bindings state header ctx hsome hknown⟩
  · intro hne verb hnone
    exact hne ((VerbSelect_eq_none_iff _ _).1 hnone)
  · intro hsome hfiltered
    constructor
    · intro id hone hid
      rw [Do_initial e newID args bindings state header ctx hsome hone, hfiltered, hid]
      rfl
    · intro cmdName cmdVerb rest hargs hknown
      subst hargs
      rw [Do_render e newID cmdName cmdVerb rest bindings state header ctx hsome hknown,
        hfiltered, renderMessage_no_verbs]

theorem renderMessage_preview (e : KubectlCmdBuilder) (s : stateDetails)
    (bindings allVerbs allTypes : List String) (ctx : CommandContext) (msg : CoreMessage)
    (hmsg : (renderMessage e s bindings allVerbs allTypes ctx).1 = .ok msg) :
    msg.Message.Sections.drop 1 = [] ∨
    msg.Message.Sections.drop 1 = (buildCommandPreview e (clearedState s)).1 ∨
    msg.Message.Sections.drop 1 =
      (buildCommandPreview e
        (finalState s (tryToGetResourceNamesSelect e bindings s ctx).1
          (tryToGetNamespaceSelect e bindings s).1)).1 := by
  by_cases hverbs : allVerbs = []
  · subst hverbs
    rw [renderMessage_no_verbs] at hmsg
    exact Except.noConfusion hmsg
  · obtain ⟨verbSel, hv⟩ := VerbSelect_some allVerbs s.verb hverbs
    cases hgate : e.commandGuard.GetAllowedResourcesForVerb s.verb allTypes with
    | error gateErr =>
      rw [renderMessage_gate_error e s bindings allVerbs allTypes ctx verbSel gateErr hv hgate]
        at hmsg
      exact Except.noConfusion hmsg
    | ok allowed =>
      by_cases hnil : allowed = []
      · subst hnil
        rw [renderMessage_no_types e s bindings allVerbs allTypes ctx verbSel hv hgate] at hmsg
        injection hmsg with hmsg
        subst hmsg
        right; left
        simp [KubectlCmdBuilderMessage, WithAdditionalSections]
      · by_cases hin : s.resourceType ∈ allowed.map fun r => r.Name
        · rw [renderMessage_type_listed e s bindings allVerbs allTypes ctx verbSel allowed hv
            hgate hin] at hmsg
          injection hmsg with hmsg
          subst hmsg
          right; right
          simp [KubectlCmdBuilderMessage, WithAdditionalSections, WithAdditionalSelects]
        · rw [renderMessage_type_not_listed e s bindings allVerbs allTypes ctx verbSel allowed
            hv hgate hnil hin] at hmsg
          injection hmsg with hmsg
          subst hmsg
          left
          simp [KubectlCmdBuilderMessage, WithAdditionalSelects]

theorem tryToGetNamespaceSelect_list_error (e : KubectlCmdBuilder) (bindings : List String)
    (s : stateDetails) (err : String)
    (hlist : e.namespaceLister.List dropdownItemsLimit = .error err) :
    (tryToGetNamespaceSelect e bindings s).1 = none := by
  unfold tryToGetNamespaceSelect
  cases hd : e.commandGuard.GetResourceDetails s.verb s.resourceType with
  | error derr => rfl
  | ok d =>
    cases hn : d.Namespaced <;> simp [hn, hlist]

/-- C12 (as stated, refuted). When the context of the caller is cancelled, so that the
execution gateway and the namespace inventory fail with the cancellation, the render
does not return the cancellation: it returns a message with the verb dropdown, the
resource-type dropdown and the empty resource-name dropdown, and the preview. -/
theorem C12_counterexample_cancellation_is_swallowed :
    cancelledBuilder.kcExecutor.Execute ["b"] (resourceNamesCommand getPodsState) true {} =
      .error contextCanceled ∧
    cancelledBuilder.namespaceLister.List dropdownItemsLimit = .error contextCanceled ∧
    ((renderMessage cancelledBuilder getPodsState ["b"] ["get"] ["pods"] {}).1.toOption.map
        fun msg =>
          (msg.dropdowns.map fun sel => sel.Name,
            msg.Message.Sections.map fun sec => sec.Base.Body.CodeBlock)) =
      some (["Select command", "Select resource", "No resources found"],
        ["", "kubectl get pods", ""]) := by
  exact ⟨rfl, rfl, by decide⟩

/-- C12 (amended). For every non-empty verb list and every state for which the lookup of
the allowed resource types succeeds, the render does not abort on a failure of the
execution gateway or of the namespace inventory, whatever the error is, the cancellation
of the context of the caller included: it returns a message and not that error; a failed
execution gives the explicitly-empty resource-name dropdown and a failed listing of the
namespaces gives no namespace dropdown. -/
theorem C12_render_recovers_from_every_error (e : KubectlCmdBuilder) (s : stateDetails)
    (bindings allVerbs allTypes : List String) (ctx : CommandContext) (allowed : List Resource)
    (hverbs : allVerbs ≠ [])
    (hgate : e.commandGuard.GetAllowedResourcesForVerb s.verb allTypes = .ok allowed) :
    (∃ msg, (renderMessage e s bindings allVerbs allTypes ctx).1 = .ok msg) ∧
    (∀ err : String,
      e.kcExecutor.Execute bindings (resourceNamesCommand s) true ctx = .error err →
        (tryToGetResourceNamesSelect e bindings s ctx).1 = some emptyResourceNames ∧
        (renderMessage e s bindings allVerbs allTypes ctx).1 ≠ .error err) ∧
    (∀ err : String, e.namespaceLister.List dropdownItemsLimit = .error err →
      (tryToGetNamespaceSelect e bindings s).1 = none ∧
      (renderMessage e s bindings allVerbs allTypes ctx).1 ≠ .error err) := by
  obtain ⟨msg, hmsg⟩ := renderMessage_ok e s bindings allVerbs allTypes ctx allowed hverbs hgate
  have hne : ∀ err : String,
      (renderMessage e s bindings allVerbs allTypes ctx).1 ≠ .error err := by
    intro err h
    rw [hmsg] at h
    exact Except.noConfusion h
  refine ⟨⟨msg, hmsg⟩, ?_, ?_⟩
  · intro err hexec
    exact ⟨tryToGetResourceNamesSelect_failure e bindings s ctx (Or.inl ⟨err, hexec⟩), hne err⟩
  · intro err hlist
    exact ⟨tryToGetNamespaceSelect_list_error e bindings s err hlist, hne err⟩

/-- C12, at a concrete input: the context is cancelled while `get pods` is selected. -/
theorem C12_render_recovers_from_every_error_witness :
    ["get"] ≠ [] ∧
    cancelledBuilder.commandGuard.GetAllowedResourcesForVerb getPodsState.verb ["pods"] =
      .ok [podsForGet] ∧
    (∃ msg, (renderMessage cancelledBuilder getPodsState ["b"] ["get"] ["pods"] {}).1 =
      .ok msg) ∧
    (∀ err : String,
      cancelledBuilder.kcExecutor.Execute ["b"] (resourceNamesCommand getPodsState) true {} =
          .error err →
        (tryToGetResourceNamesSelect cancelledBuilder ["b"] getPodsState {}).1 =
          some emptyResourceNames ∧
        (renderMessage cancelledBuilder getPodsState ["b"] ["get"] ["pods"] {}).1 ≠
          .error err) ∧
    (∀ err : String, cancelledBuilder.namespaceLister.List dropdownItemsLimit = .error err →
      (tryToGetNamespaceSelect cancelledBuilder ["b"] getPodsState).1 = none ∧
      (renderMessage cancelledBuilder getPodsState ["b"] ["get"] ["pods"] {}).1 ≠
        .error err) :=
  ⟨by decide, rfl,
    C12_render_recovers_from_every_error cancelledBuilder getPodsState ["b"] ["get"] ["pods"]
      {} [podsForGet] (by decide) rfl⟩

theorem tryToGetResourceNamesSelect_calls (e : KubectlCmdBuilder) (bindings : List String)
    (s : stateDetails) (ctx : CommandContext) (htype : s.resourceType ≠ "") :
    (tryToGetResourceNamesSelect e bindings s ctx).2 =
      [Call.Execute bindings (resourceNamesCommand s) true] := by
  unfold tryToGetResourceNamesSelect
  simp only [htype, if_false]
  have hcmd : (if s.namespace_ ≠ "" then
      kubectlCommandName ++ " get " ++ s.resourceType ++
        " --ignore-not-found=true -o go-template='\x7b\x7brange .items\x7d\x7d\x7b\x7b.metadata.name\x7d\x7d\x7b\x7b\"\\n\"\x7d\x7d\x7b\x7bend\x7d\x7d'" ++
        " -n " ++ s.namespace_
      else
        kubectlCommandName ++ " get " ++ s.resourceType ++
          " --ignore-not-found=true -o go-template='\x7b\x7brange .items\x7d\x7d\x7b\x7b.metadata.name\x7d\x7d\x7b\x7b\"\\n\"\x7d\x7d\x7b\x7bend\x7d\x7d'") =
      resourceNamesCommand s := rfl
  rw [hcmd]
  cases e.kcExecutor.Execute bindings (resourceNamesCommand s) true ctx with
  | error err => rfl
  | ok out =>
    by_cases hl : (getNonEmptyLines out).length = 0 <;> simp [hl]

theorem tryToGetNamespaceSelect_no_execute (e : KubectlCmdBuilder) (bindings : List String)
    (s : stateDetails) :
    (tryToGetNamespaceSelect e bindings s).2.filter (fun c => c.isExecute) = [] := by
  unfold tryToGetNamespaceSelect
  cases e.commandGuard.GetResourceDetails s.verb s.resourceType with
  | error err => rfl
  | ok d =>
    cases hn : d.Namespaced
    · simp [hn, Call.isExecute]
    · cases e.namespaceLister.List dropdownItemsLimit <;> simp [hn, Call.isExecute]

/-- C13 (as stated, refuted). With bindings that allow the namespace `default` only, the
snapshot namespace `kube-system` is put into the listing command that is executed,
although the namespace dropdown offers `default` alone; and for the cluster-wide resource
`nodes` the listing command is scoped with the namespace `default`. -/
theorem C13_counterexample_snapshot_namespace_is_executed :
    (((defaultOnlyBuilder.merger.MergeAllEnabled ["b"]).AllowedNamespacesPerResource
      "pods").IsAllowed "kube-system").toOption = some false ∧
    ((tryToGetNamespaceSelect defaultOnlyBuilder ["b"] getPodsState).1.map fun sel =>
      sel.options.map fun opt => opt.Value) = some ["default"] ∧
    (renderMessage defaultOnlyBuilder getPodsState ["b"] ["get"] ["pods", "nodes"] {}).2.filter
        (fun c => c.isExecute) =
      [Call.Execute ["b"]
        ("kubectl get pods --ignore-not-found=true -o go-template='\x7b\x7brange .items\x7d\x7d\x7b\x7b.metadata.name\x7d\x7d\x7b\x7b\"\\n\"\x7d\x7d\x7b\x7bend\x7d\x7d' -n kube-system")
        true] ∧
    (defaultOnlyBuilder.commandGuard.GetResourceDetails "get" "nodes").toOption.map
        (fun d => d.Namespaced) = some false ∧
    (renderMessage defaultOnlyBuilder getNodesState ["b"] ["get"] ["pods", "nodes"] {}).2.filter
        (fun c => c.isExecute) =
      [Call.Execute ["b"]
        ("kubectl get nodes --ignore-not-found=true -o go-template='\x7b\x7brange .items\x7d\x7d\x7b\x7b.metadata.name\x7d\x7d\x7b\x7b\"\\n\"\x7d\x7d\x7b\x7bend\x7d\x7d' -n default")
        true] := by
  exact ⟨by decide, by decide, by decide, by decide, by decide⟩

/-- C13 (amended). For every state that reaches the resource-name discovery (a non-empty
resource type that the gate allows for the verb), the render makes exactly one call to the
execution gateway, the listing command in the auth-exempt mode, and that command is scoped
with the namespace of the state as it is: it ends with the namespace flag followed by that
namespace whenever the namespace is not empty, whatever the namespace allow-list and the
scope of the resource are, and has no namespace flag when the namespace is empty. -/
theorem C13_listing_command_uses_state_namespace (e : KubectlCmdBuilder) (s : stateDetails)
    (bindings allVerbs allTypes : List String) (ctx : CommandContext) (allowed : List Resource)
    (hverbs : allVerbs ≠ [])
    (hgate : e.commandGuard.GetAllowedResourcesForVerb s.verb allTypes = .ok allowed)
    (hvalid : s.resourceType ∈ allowed.map fun r => r.Name)
    (htype : s.resourceType ≠ "") :
    (renderMessage e s bindings allVerbs allTypes ctx).2.filter (fun c => c.isExecute) =
      [Call.Execute bindings (resourceNamesCommand s) true] ∧
    (s.namespace_ ≠ "" →
      resourceNamesCommand s =
        "kubectl get " ++ s.resourceType ++
          " --ignore-not-found=true -o go-template='\x7b\x7brange .items\x7d\x7d\x7b\x7b.metadata.name\x7d\x7d\x7b\x7b\"\\n\"\x7d\x7d\x7b\x7bend\x7d\x7d'" ++
          " -n " ++ s.namespace_) ∧
    (s.namespace_ = "" →
      resourceNamesCommand s =
        "kubectl get " ++ s.resourceType ++
          " --ignore-not-found=true -o go-template='\x7b\x7brange .items\x7d\x7d\x7b\x7b.metadata.name\x7d\x7d\x7b\x7b\"\\n\"\x7d\x7d\x7b\x7bend\x7d\x7d'") := by
  obtain ⟨verbSel, hv⟩ := VerbSelect_some allVerbs s.verb hverbs
  refine ⟨?_, ?_, ?_⟩
  · rw [renderMessage_type_listed e s bindings allVerbs allTypes ctx verbSel allowed hv hgate
      hvalid]
    simp only [List.filter_cons, List.filter_append, tryToGetResourceNamesSelect_calls e
      bindings s ctx htype, tryToGetNamespaceSelect_no_execute, buildCommandPreview_calls]
    simp [Call.isExecute]
  · intro hns
    simp [resourceNamesCommand, hns, kubectlCommandName, String.append_assoc]
  · intro hns
    simp [resourceNamesCommand, hns, kubectlCommandName, String.append_assoc]

/-- C13, at a concrete input: `get pods` with the snapshot namespace `kube-system`, under
bindings that allow `default` only. -/
theorem C13_listing_command_uses_state_namespace_witness :
    ["get"] ≠ [] ∧
    defaultOnlyBuilder.commandGuard.GetAllowedResourcesForVerb getPodsState.verb
        ["pods", "nodes"] = .ok [podsForGet, { Name := "nodes" }] ∧
    (getPodsState.resourceType ∈ [podsForGet, { Name := "nodes" }].map fun r => r.Name) ∧
    getPodsState.resourceType ≠ "" ∧
    (renderMessage defaultOnlyBuilder getPodsState ["b"] ["get"] ["pods", "nodes"] {}).2.filter
        (fun c => c.isExecute) =
      [Call.Execute ["b"] (resourceNamesCommand getPodsState) true] ∧
    (getPodsState.namespace_ ≠ "" →
      resourceNamesCommand getPodsState =
        "kubectl get " ++ getPodsState.resourceType ++
          " --ignore-not-found=true -o go-template='\x7b\x7brange .items\x7d\x7d\x7b\x7b.metadata.name\x7d\x7d\x7b\x7b\"\\n\"\x7d\x7d\x7b\x7bend\x7d\x7d'" ++
          " -n " ++ getPodsState.namespace_) ∧
    (getPodsState.namespace_ = "" →
      resourceNamesCommand getPodsState =
        "kubectl get " ++ getPodsState.resourceType ++
          " --ignore-not-found=true -o go-template='\x7b\x7brange .items\x7d\x7d\x7b\x7b.metadata.name\x7d\x7d\x7b\x7b\"\\n\"\x7d\x7d\x7b\x7bend\x7d\x7d'") :=
  ⟨by decide, rfl, by decide, by decide,
    C13_listing_command_uses_state_namespace defaultOnlyBuilder getPodsState ["b"] ["get"]
      ["pods", "nodes"] {} [podsForGet, { Name := "nodes" }] (by decide) rfl (by decide)
      (by decide)⟩

theorem namespace_items_values (allowedNS : Namespaces) (selected : String)
    (namespaces : List String) :
    (namespaces.filterMap fun itemName =>
        match allowedNS.IsAllowed itemName with
        | .error _ => none
        | .ok false => none
        | .ok true =>
          some (if (appendNamespaceSuffixIfDefault (newDropdownItem selected selected)).Value =
                (newDropdownItem itemName itemName).Value then
              appendNamespaceSuffixIfDefault (newDropdownItem itemName itemName)
            else newDropdownItem itemName itemName)).map (fun item => item.Value) =
      namespaces.filter fun n => allowedWithoutError (allowedNS.IsAllowed n) := by
  have h := congrArg (List.map fun opt : OptionItem => opt.Value)
    (namespace_items_eq allowedNS selected namespaces)
  rw [List.map_map, List.map_map] at h
  have hl : ((fun opt : OptionItem => opt.Value) ∘
      fun i : dropdownItem => ({ Name := i.Name, Value := i.Value } : OptionItem)) =
      fun item : dropdownItem => item.Value := rfl
  have hr : ((fun opt : OptionItem => opt.Value) ∘ namespaceOption selected) = id := rfl
  rw [hl, hr, List.map_id] at h
  exact h

/-- C14. When the (verb, resource type) pair is namespace-scoped and the inventory lists
the namespaces, the items handed to the namespace dropdown are, by their values and in the
order of the inventory, exactly the listed namespaces whose allow-list check answers
"allowed" without an error; a namespace whose check fails is left out alone, the namespaces
before and after it being kept, and the render still returns a message. -/
theorem C14_namespace_dropdown_offers_allowed (e : KubectlCmdBuilder) (bindings : List String)
    (s : stateDetails) (d : Resource) (namespaces : List String)
    (hd : e.commandGuard.GetResourceDetails s.verb s.resourceType = .ok d)
    (hscoped : d.Namespaced = true)
    (hlist : e.namespaceLister.List dropdownItemsLimit = .ok namespaces) :
    (∃ items : List dropdownItem,
      (tryToGetNamespaceSelect e bindings s).1 =
        ResourceNamespaceSelect items
          (appendNamespaceSuffixIfDefault (newDropdownItem s.namespace_ s.namespace_)) ∧
      items.map (fun item => item.Value) =
        namespaces.filter fun n =>
          allowedWithoutError
            (((e.merger.MergeAllEnabled bindings).AllowedNamespacesPerResource
              s.resourceType).IsAllowed n)) ∧
    (∀ (before after : List String) (n err : String), namespaces = before ++ n :: after →
      ((e.merger.MergeAllEnabled bindings).AllowedNamespacesPerResource
        s.resourceType).IsAllowed n = .error err →
      (namespaces.filter fun n =>
          allowedWithoutError
            (((e.merger.MergeAllEnabled bindings).AllowedNamespacesPerResource
              s.resourceType).IsAllowed n)) =
        (before.filter fun n =>
          allowedWithoutError
            (((e.merger.MergeAllEnabled bindings).AllowedNamespacesPerResource
              s.resourceType).IsAllowed n)) ++
        (after.filter fun n =>
          allowedWithoutError
            (((e.merger.MergeAllEnabled bindings).AllowedNamespacesPerResource
              s.resourceType).IsAllowed n))) ∧
    (∀ (allVerbs allTypes : List String) (ctx : CommandContext) (allowed : List Resource),
      allVerbs ≠ [] →
      e.commandGuard.GetAllowedResourcesForVerb s.verb allTypes = .ok allowed →
        ∃ msg, (renderMessage e s bindings allVerbs allTypes ctx).1 = .ok msg) := by
  refine ⟨⟨_, ?_, namespace_items_values _ s.namespace_ namespaces⟩, ?_, ?_⟩
  · simp only [tryToGetNamespaceSelect, hd, hscoped, hlist, Bool.not_true, Bool.false_eq_true,
      if_false]
  · intro before after n err hsplit herr
    subst hsplit
    simp [List.filter_append, List.filter_cons, herr, allowedWithoutError]
  · intro allVerbs allTypes ctx allowed hverbs hgate
    exact renderMessage_ok e s bindings allVerbs allTypes ctx allowed hverbs hgate

/-- C14, at a concrete input: the check of `kube-system` fails, `default` and `prod` are
allowed. -/
theorem C14_namespace_dropdown_offers_allowed_witness :
    malformedAllowListBuilder.commandGuard.GetResourceDetails getPodsState.verb
        getPodsState.resourceType = .ok podsForGet ∧
    podsForGet.Namespaced = true ∧
    malformedAllowListBuilder.namespaceLister.List dropdownItemsLimit =
      .ok ["default", "kube-system", "prod"] ∧
    (∃ items : List dropdownItem,
      (tryToGetNamespaceSelect malformedAllowListBuilder ["b"] getPodsState).1 =
        ResourceNamespaceSelect items
          (appendNamespaceSuffixIfDefault
            (newDropdownItem getPodsState.namespace_ getPodsState.namespace_)) ∧
      items.map (fun item => item.Value) =
        ["default", "kube-system", "prod"].filter fun n =>
          allowedWithoutError
            (((malformedAllowListBuilder.merger.MergeAllEnabled ["b"]).AllowedNamespacesPerResource
              getPodsState.resourceType).IsAllowed n)) ∧
    (∀ (before after : List String) (n err : String),
      ["default", "kube-system", "prod"] = before ++ n :: after →
      ((malformedAllowListBuilder.merger.MergeAllEnabled ["b"]).AllowedNamespacesPerResource
        getPodsState.resourceType).IsAllowed n = .error err →
      (["default", "kube-system", "prod"].filter fun n =>
          allowedWithoutError
            (((malformedAllowListBuilder.merger.MergeAllEnabled ["b"]).AllowedNamespacesPerResource
              getPodsState.resourceType).IsAllowed n)) =
        (before.filter fun n =>
          allowedWithoutError
            (((malformedAllowListBuilder.merger.MergeAllEnabled ["b"]).AllowedNamespacesPerResource
              getPodsState.resourceType).IsAllowed n)) ++
        (after.filter fun n =>
          allowedWithoutError
            (((malformedAllowListBuilder.merger.MergeAllEnabled ["b"]).AllowedNamespacesPerResource
              getPodsState.resourceType).IsAllowed n))) ∧
    (∀ (allVerbs allTypes : List String) (ctx : CommandContext) (allowed : List Resource),
      allVerbs ≠ [] →
      malformedAllowListBuilder.commandGuard.GetAllowedResourcesForVerb getPodsState.verb
          allTypes = .ok allowed →
        ∃ msg, (renderMessage malformedAllowListBuilder getPodsState ["b"] allVerbs allTypes
          ctx).1 = .ok msg) :=
  ⟨rfl, rfl, rfl,
    C14_namespace_dropdown_offers_allowed malformedAllowListBuilder ["b"] getPodsState
      podsForGet ["default", "kube-system", "prod"] rfl rfl rfl⟩

theorem overflowSentence_eq_self (names : List String) (h : ∀ n ∈ names, n.length ≤ 75) :
    overflowSentence names = names := by
  unfold overflowSentence
  conv_rhs => rw [← List.map_id names]
  apply List.map_congr_left
  intro n hn
  have : n.length < 76 := by
    have := h n hn
    omega
  simp [this]

/-- C15 (as stated, refuted). The execution gateway discovers one pod, whose name has 80
bytes.  A snapshot whose resource name is that discovered name loses it: the preview has
no resource name.  A snapshot whose resource name is the truncated text, which is not
among the discovered names, keeps it: the preview shows it as the name. -/
theorem C15_counterexample_truncated_names_decide :
    getNonEmptyLines (longName ++ "\n") = [longName] ∧
    longLabelState.resourceName ∉ getNonEmptyLines (longName ++ "\n") ∧
    ((renderMessage (sampleBuilder (executorReturning (longName ++ "\n"))) longNameState ["b"]
        ["get"] ["pods"] {}).1.toOption.map
        fun msg => msg.Message.Sections.map fun sec => sec.Base.Body.CodeBlock) =
      some ["", "kubectl get pods -n kube-system", ""] ∧
    ((renderMessage (sampleBuilder (executorReturning (longName ++ "\n"))) longLabelState ["b"]
        ["get"] ["pods"] {}).1.toOption.map
        fun msg => msg.Message.Sections.map fun sec => sec.Base.Body.CodeBlock) =
      some ["", "kubectl get pods " ++ longNameLabel ++ " -n kube-system", ""] := by
  exact ⟨by decide, by decide, by decide, by decide⟩

/-- C18 (the code at the failing input). For the verb `api-resources`, which has no
resource types, the command of the preview is the binary and the verb followed by a
space; with a filter the flag follows after a second space.  In general, when the gate has
details for a verb without resource type, the command of the preview of the cleared state
is the binary, the verb and a space, followed by the filter flag after a further space
when there is a filter, and so it is never the binary and the verb alone. -/
theorem C18_verb_only_preview_has_trailing_space :
    ((renderMessage (sampleBuilder failingExecutor)
        { dropdownsBlockID := "block-1", verb := "api-resources" } ["b"]
        ["api-resources", "get"] ["pods"] {}).1.toOption.map
        fun msg => msg.Message.Sections.map fun sec => sec.Base.Body.CodeBlock) =
      some ["", "kubectl api-resources ", ""] ∧
    ("kubectl api-resources " : String) ≠ "kubectl api-resources" ∧
    ((renderMessage (sampleBuilder failingExecutor) staleState ["b"] ["api-resources", "get"]
        ["pods"] {}).1.toOption.map
        fun msg => msg.Message.Sections.map fun sec => sec.Base.Body.CodeBlock) =
      some ["", "kubectl api-resources  --filter=\"Running\"", ""] ∧
    (∀ (e : KubectlCmdBuilder) (s : stateDetails) (d : Resource),
      e.commandGuard.GetResourceDetails s.verb "" = .ok d →
      d.SlashSeparatedInCommand = false →
        (buildCommandPreview e (clearedState s)).1 =
            PreviewSection
              ("kubectl " ++ s.verb ++ " " ++
                (if s.filter = "" then "" else " --filter=" ++ e.quote s.filter))
              FilterSection ∧
          "kubectl " ++ s.verb ++ " " ++
              (if s.filter = "" then "" else " --filter=" ++ e.quote s.filter) ≠
            "kubectl " ++ s.verb) := by
  refine ⟨by decide, by decide, by decide, ?_⟩
  intro e s d hd hslash
  have hc : ¬ (d.SlashSeparatedInCommand = true ∧ (clearedState s).resourceName = "") := by
    simp [hslash]
  have hp := buildCommandPreview_command e (clearedState s) d hd hc
  have hcmd : previewCommandReference e.quote d (clearedState s) =
      "kubectl " ++ s.verb ++ " " ++
        (if s.filter = "" then "" else " --filter=" ++ e.quote s.filter) := by
    by_cases hf : s.filter = "" <;>
      simp [previewCommandReference, clearedState, hf, String.append_assoc]
  rw [hcmd] at hp
  refine ⟨hp, ?_⟩
  intro heq
  have hlen := congrArg String.length heq
  simp only [String.length_append] at hlen
  have h1 : (" " : String).length = 1 := by decide
  omega

theorem chars_split_at_separator (x y r r' : List Char) (hx : ';' ∉ x) (hy : ';' ∉ y)
    (h : x ++ ';' :: r = y ++ ';' :: r') : x = y ∧ r = r' := by
  induction x generalizing y with
  | nil =>
    cases y with
    | nil => simpa using h
    | cons b y' =>
      simp only [List.nil_append, List.cons_append, List.cons.injEq] at h
      exact absurd (List.mem_cons.2 (Or.inl h.1)) hy
  | cons a x' ih =>
    cases y with
    | nil =>
      simp only [List.nil_append, List.cons_append, List.cons.injEq] at h
      exact absurd (List.mem_cons.2 (Or.inl h.1.symm)) hx
    | cons b y' =>
      simp only [List.cons_append, List.cons.injEq] at h
      have hx' : ';' ∉ x' := fun hm => hx (List.mem_cons_of_mem _ hm)
      have hy' : ';' ∉ y' := fun hm => hy (List.mem_cons_of_mem _ hm)
      obtain ⟨hxy, hr⟩ := ih y' hx' hy' h.2
      exact ⟨by rw [h.1, hxy], hr⟩

theorem Join_cons_cons_data (a b : String) (rest : List String) :
    (Join (a :: b :: rest) ";").data = a.data ++ ';' :: (Join (b :: rest) ";").data := by
  simp [Join, String.data_append]

theorem Join_injective (xs ys : List String)
    (hxs : ∀ x ∈ xs, ';' ∉ x.data) (hys : ∀ y ∈ ys, ';' ∉ y.data)
    (hx : xs ≠ []) (hy : ys ≠ [])
    (h : Join xs ";" = Join ys ";") : xs = ys := by
  induction xs generalizing ys with
  | nil => exact absurd rfl hx
  | cons a xs' ih =>
    cases ys with
    | nil => exact absurd rfl hy
    | cons b ys' =>
      have ha : ';' ∉ a.data := hxs a (List.mem_cons_self _ _)
      have hb : ';' ∉ b.data := hys b (List.mem_cons_self _ _)
      have hdata := congrArg String.data h
      cases xs' with
      | nil =>
        cases ys' with
        | nil =>
          have : a = b := h
          rw [this]
        | cons b2 rest' =>
          rw [Join_cons_cons_data] at hdata
          have hab : a.data = b.data ++ ';' :: (Join (b2 :: rest') ";").data := hdata
          exact absurd (hab ▸ List.mem_append_right _ (List.mem_cons_self _ _)) ha
      | cons a2 rest =>
        cases ys' with
        | nil =>
          rw [Join_cons_cons_data] at hdata
          have hba : a.data ++ ';' :: (Join (a2 :: rest) ";").data = b.data := hdata
          exact absurd (hba ▸ List.mem_append_right _ (List.mem_cons_self _ _)) hb
        | cons b2 rest' =>
          rw [Join_cons_cons_data, Join_cons_cons_data] at hdata
          obtain ⟨hab, hrest⟩ := chars_split_at_separator _ _ _ _ ha hb hdata
          have htail : a2 :: rest = b2 :: rest' :=
            ih (b2 :: rest') (fun x hm => hxs x (List.mem_cons_of_mem _ hm))
              (fun y hm => hys y (List.mem_cons_of_mem _ hm)) (by simp) (by simp)
              (String.ext hrest)
          rw [String.ext hab, htail]

theorem schedule_already_started (d : Scheduler) (bindSources : List String)
    (h : Join bindSources ";" ∈ d.startProcesses) :
    schedule d bindSources = (.ok (), d, []) := by
  simp [schedule, h]

theorem schedule_startProcesses (d : Scheduler) (bindSources : List String) :
    (schedule d bindSources).2.1.startProcesses =
      if Join bindSources ";" ∈ d.startProcesses then d.startProcesses
      else Join bindSources ";" :: d.startProcesses := by
  unfold schedule
  by_cases h : Join bindSources ";" ∈ d.startProcesses
  · simp [h]
  · simp only [h, if_false]
    split <;> rfl

theorem mem_schedule_startProcesses (d : Scheduler) (bindSources : List String) (key : String) :
    key ∈ (schedule d bindSources).2.1.startProcesses ↔
      key = Join bindSources ";" ∨ key ∈ d.startProcesses := by
  rw [schedule_startProcesses]
  by_cases h : Join bindSources ";" ∈ d.startProcesses
  · simp only [h, if_true]
    constructor
    · exact Or.inr
    · rintro (hk | hk)
      · rw [hk]
        exact h
      · exact hk
  · simp [h]

theorem mem_scheduleAll_startProcesses (history : List (List String)) (d : Scheduler)
    (key : String) :
    key ∈ (scheduleAll d history).startProcesses ↔
      key ∈ d.startProcesses ∨ key ∈ history.map fun bindSources => Join bindSources ";" := by
  induction history generalizing d with
  | nil => simp [scheduleAll]
  | cons bindSources rest ih =>
    rw [scheduleAll, ih, mem_schedule_startProcesses]
    simp only [List.map_cons, List.mem_cons]
    tauto

theorem appendPluginConfig_names (configs : List (String × List SourceConfig))
    (pluginName : String) (config : SourceConfig) :
    (appendPluginConfig configs pluginName config).map (fun entry => entry.1) =
      if pluginName ∈ configs.map (fun entry => entry.1) then configs.map (fun entry => entry.1)
      else configs.map (fun entry => entry.1) ++ [pluginName] := by
  induction configs with
  | nil => simp [appendPluginConfig]
  | cons entry rest ih =>
    obtain ⟨name, cs⟩ := entry
    unfold appendPluginConfig
    by_cases hname : name = pluginName
    · simp [hname]
    · have hne : ¬ pluginName = name := fun h => hname h.symm
      simp only [hname, if_false, List.map_cons, ih, List.mem_cons, hne, false_or]
      split <;> simp

theorem mem_appendPluginConfig_names (configs : List (String × List SourceConfig))
    (pluginName : String) (config : SourceConfig) (p : String) :
    p ∈ (appendPluginConfig configs pluginName config).map (fun entry => entry.1) ↔
      p ∈ configs.map (fun entry => entry.1) ∨ p = pluginName := by
  rw [appendPluginConfig_names]
  by_cases h : pluginName ∈ configs.map (fun entry => entry.1)
  · simp only [h, if_true]
    constructor
    · exact Or.inl
    · rintro (hp | hp)
      · exact hp
      · rw [hp]
        exact h
  · simp only [h, if_false, List.mem_append, List.mem_singleton]

theorem nodup_appendPluginConfig_names (configs : List (String × List SourceConfig))
    (pluginName : String) (config : SourceConfig)
    (h : (configs.map (fun entry => entry.1)).Nodup) :
    ((appendPluginConfig configs pluginName config).map (fun entry => entry.1)).Nodup := by
  rw [appendPluginConfig_names]
  by_cases hin : pluginName ∈ configs.map (fun entry => entry.1)
  · simp only [hin, if_true]
    exact h
  · simp only [hin, if_false]
    rw [List.nodup_append]
    refine ⟨h, List.nodup_singleton _, ?_⟩
    intro a ha hb
    rw [List.mem_singleton] at hb
    exact hin (hb ▸ ha)

theorem collectPlugins_ok (d : Scheduler) (sourceName : String)
    (hmarshal : ∀ config, ∃ raw, d.marshal config = .ok raw)
    (plugins : List (String × Plugin)) (configs : List (String × List SourceConfig)) :
    ∃ result, collectPlugins d sourceName plugins configs = .ok result ∧
      (∀ p, p ∈ result.map (fun entry => entry.1) ↔
        p ∈ configs.map (fun entry => entry.1) ∨
          ∃ plugin, (p, plugin) ∈ plugins ∧ plugin.Enabled = true) ∧
      ((configs.map (fun entry => entry.1)).Nodup →
        (result.map (fun entry => entry.1)).Nodup) := by
  induction plugins generalizing configs with
  | nil => exact ⟨configs, rfl, by simp, fun h => h⟩
  | cons entry rest ih =>
    obtain ⟨pluginName, pluginCfg⟩ := entry
    unfold collectPlugins
    cases hen : pluginCfg.Enabled with
    | false =>
      obtain ⟨result, hres, hmem, hnodup⟩ := ih configs
      refine ⟨result, by simpa using hres, ?_, hnodup⟩
      intro p
      rw [hmem p]
      constructor
      · rintro (h | ⟨plugin, hin, hp⟩)
        · exact Or.inl h
        · exact Or.inr ⟨plugin, List.mem_cons_of_mem _ hin, hp⟩
      · rintro (h | ⟨plugin, hin, hp⟩)
        · exact Or.inl h
        · rcases List.mem_cons.1 hin with heq | hin'
          · have : plugin = pluginCfg := (Prod.mk.inj heq).2
            rw [this, hen] at hp
            exact Bool.noConfusion hp
          · exact Or.inr ⟨plugin, hin', hp⟩
    | true =>
      obtain ⟨raw, hraw⟩ := hmarshal pluginCfg.Config
      obtain ⟨result, hres, hmem, hnodup⟩ :=
        ih (appendPluginConfig configs pluginName { RawYAML := raw })
      refine ⟨result, by simpa [hraw] using hres, ?_, ?_⟩
      · intro p
        rw [hmem p, mem_appendPluginConfig_names]
        constructor
        · rintro ((h | h) | ⟨plugin, hin, hp⟩)
          · exact Or.inl h
          · exact Or.inr ⟨pluginCfg, by rw [h]; exact List.mem_cons_self _ _, hen⟩
          · exact Or.inr ⟨plugin, List.mem_cons_of_mem _ hin, hp⟩
        · rintro (h | ⟨plugin, hin, hp⟩)
          · exact Or.inl (Or.inl h)
          · rcases List.mem_cons.1 hin with heq | hin'
            · exact Or.inl (Or.inr (Prod.mk.inj heq).1)
            · exact Or.inr ⟨plugin, hin', hp⟩
      · intro h
        exact hnodup (nodup_appendPluginConfig_names configs pluginName _ h)

theorem collectSources_ok (d : Scheduler)
    (hmarshal : ∀ config, ∃ raw, d.marshal config = .ok raw)
    (sources : List String) (configs : List (String × List SourceConfig)) :
    ∃ result, collectSources d sources configs = .ok result ∧
      (∀ p, p ∈ result.map (fun entry => entry.1) ↔
        p ∈ configs.map (fun entry => entry.1) ∨
          ∃ source ∈ sources, ∃ plugin,
            (p, plugin) ∈ d.cfg.Sources source ∧ plugin.Enabled = true) ∧
      ((configs.map (fun entry => entry.1)).Nodup →
        (result.map (fun entry => entry.1)).Nodup) := by
  induction sources generalizing configs with
  | nil => exact ⟨configs, rfl, by simp, fun h => h⟩
  | cons source rest ih =>
    obtain ⟨mid, hmid, hmemMid, hnodupMid⟩ :=
      collectPlugins_ok d source hmarshal (d.cfg.Sources source) configs
    obtain ⟨result, hres, hmem, hnodup⟩ := ih mid
    refine ⟨result, by simp [collectSources, hmid, hres], ?_, fun h => hnodup (hnodupMid h)⟩
    intro p
    rw [hmem p, hmemMid p]
    constructor
    · rintro ((h | ⟨plugin, hin, hp⟩) | ⟨src, hsrc, plugin, hin, hp⟩)
      · exact Or.inl h
      · exact Or.inr ⟨source, List.mem_cons_self _ _, plugin, hin, hp⟩
      · exact Or.inr ⟨src, List.mem_cons_of_mem _ hsrc, plugin, hin, hp⟩
    · rintro (h | ⟨src, hsrc, plugin, hin, hp⟩)
      · exact Or.inl (Or.inl h)
      · rcases List.mem_cons.1 hsrc with heq | hsrc'
        · subst heq
          exact Or.inl (Or.inr ⟨plugin, hin, hp⟩)
        · exact Or.inr ⟨src, hsrc', plugin, hin, hp⟩

theorem dispatchAll_ok (d : Scheduler) (bindSources : List String)
    (hdispatch : ∀ p cs srcs, d.dispatcher.Dispatch p cs srcs = .ok ())
    (configs : List (String × List SourceConfig)) :
    dispatchAll d bindSources configs =
      (.ok (), configs.map fun entry =>
        { pluginName := entry.1, pluginConfigs := entry.2, sources := bindSources }) := by
  induction configs with
  | nil => rfl
  | cons entry rest ih =>
    obtain ⟨pluginName, cs⟩ := entry
    simp [dispatchAll, hdispatch, ih]

theorem schedule_fields (d : Scheduler) (bindSources : List String) :
    (schedule d bindSources).2.1.cfg = d.cfg ∧
    (schedule d bindSources).2.1.dispatcher = d.dispatcher ∧
    (schedule d bindSources).2.1.marshal = d.marshal := by
  unfold schedule
  by_cases h : Join bindSources ";" ∈ d.startProcesses
  · simp [h]
  · simp only [h, if_false]
    split <;> exact ⟨rfl, rfl, rfl⟩

theorem scheduleAll_fields (history : List (List String)) (d : Scheduler) :
    (scheduleAll d history).cfg = d.cfg ∧
    (scheduleAll d history).dispatcher = d.dispatcher ∧
    (scheduleAll d history).marshal = d.marshal := by
  induction history generalizing d with
  | nil => exact ⟨rfl, rfl, rfl⟩
  | cons bindSources rest ih =>
    obtain ⟨h1, h2, h3⟩ := ih (schedule d bindSources).2.1
    obtain ⟨g1, g2, g3⟩ := schedule_fields d bindSources
    exact ⟨h1.trans g1, h2.trans g2, h3.trans g3⟩

theorem schedule_new_dispatches (d : Scheduler) (bindSources : List String)
    (hnew : Join bindSources ";" ∉ d.startProcesses)
    (hmarshal : ∀ config, ∃ raw, d.marshal config = .ok raw)
    (hdispatch : ∀ p cs srcs, d.dispatcher.Dispatch p cs srcs = .ok ()) :
    (schedule d bindSources).1 = .ok () ∧
    ((schedule d bindSources).2.2.map fun call => call.pluginName).Nodup ∧
    (∀ p, p ∈ ((schedule d bindSources).2.2.map fun call => call.pluginName) ↔
      ∃ source ∈ bindSources, ∃ plugin,
        (p, plugin) ∈ d.cfg.Sources source ∧ plugin.Enabled = true) ∧
    (∀ call ∈ (schedule d bindSources).2.2, call.sources = bindSources) := by
  obtain ⟨result, hres, hmem, hnodup⟩ :=
    collectSources_ok { d with startProcesses := Join bindSources ";" :: d.startProcesses }
      hmarshal bindSources []
  have hd := dispatchAll_ok
    { d with startProcesses := Join bindSources ";" :: d.startProcesses } bindSources hdispatch
    result
  have hs : schedule d bindSources =
      (.ok (), { d with startProcesses := Join bindSources ";" :: d.startProcesses },
        result.map fun entry =>
          { pluginName := entry.1, pluginConfigs := entry.2, sources := bindSources }) := by
    simp only [schedule, hnew, if_false, hres, hd]
  have hnames : ((result.map fun entry : String × List SourceConfig =>
      ({ pluginName := entry.1, pluginConfigs := entry.2, sources := bindSources } :
        DispatchCall)).map fun call => call.pluginName) =
      result.map fun entry => entry.1 := by
    rw [List.map_map]
    rfl
  rw [hs]
  refine ⟨rfl, ?_, ?_, ?_⟩
  · show ((result.map _).map _).Nodup
    rw [hnames]
    exact hnodup (by simp)
  · intro p
    show p ∈ ((result.map _).map _) ↔ _
    rw [hnames, hmem p]
    simp
  · intro call hcall
    simp only [List.mem_map] at hcall
    obtain ⟨entry, _, rfl⟩ := hcall
    rfl

theorem characterCount_eq_length (name : String) (h : ∀ c ∈ name.data, c.toNat < 128) :
    characterCount name = name.length := by
  unfold characterCount
  rw [List.filter_eq_self.2]
  · rfl
  · intro c hc
    have := h c hc
    simp [isContinuationByte]
    omega

/-- C7 (as stated, refuted). A name of 40 characters that takes 80 bytes is not returned
unchanged, although it has no more than 75 characters: it is replaced by its first 72
bytes, which are 36 characters, followed by three dots.  A name of 39 characters that
takes 77 bytes is cut inside a character: the last of the 72 bytes kept is the first byte
of a two-byte character. -/
theorem C7_counterexample_multibyte_name_is_truncated :
    characterCount accentedName = 40 ∧
    accentedName.length = 80 ∧
    overflowSentence [accentedName] = [String.mk (accentedName.data.take 72) ++ "..."] ∧
    characterCount (String.mk (accentedName.data.take 72)) = 36 ∧
    overflowSentence [accentedName] ≠ [accentedName] ∧
    characterCount splitAccentedName = 39 ∧
    overflowSentence [splitAccentedName] ≠ [splitAccentedName] ∧
    ((overflowSentence [splitAccentedName]).map fun label => label.data.get? 71) =
      [some '\xc3'] ∧
    ((overflowSentence [splitAccentedName]).map fun label => label.data.get? 72) =
      [some '.'] := by
  exact ⟨by decide, by decide, by decide, by decide, by decide, by decide, by decide,
    by decide, by decide⟩

/-- C7 (amended). With lengths in bytes: for every list of names, `overflowSentence`
returns a list of the same length; at every position, a name of at most 75 bytes is
returned unchanged and a longer name is replaced by its first 72 bytes followed by three
dots, which is 75 bytes long; hence every returned label is at most 75 bytes long.  For a
name made of single-byte characters only, the number of bytes is the number of
characters. -/
theorem C7_overflowSentence_labels (names : List String) :
    (overflowSentence names).length = names.length ∧
    (∀ (i : Nat) (name : String), names[i]? = some name →
      (name.length ≤ 75 → (overflowSentence names)[i]? = some name) ∧
      (75 < name.length →
        (overflowSentence names)[i]? = some (String.mk (name.data.take 72) ++ "...") ∧
        (String.mk (name.data.take 72) ++ "...").length = 75)) ∧
    (∀ label ∈ overflowSentence names, label.length ≤ 75) ∧
    (∀ name ∈ names, (∀ c ∈ name.data, c.toNat < 128) →
      characterCount name = name.length) := by
  refine ⟨overflowSentence_length names, ?_, overflowSentence_le names, ?_⟩
  · intro i name hi
    rw [overflowSentence_getElem?, hi]
    constructor
    · intro h
      have : name.length < 76 := by omega
      simp [this]
    · intro h
      have : ¬ name.length < 76 := by omega
      exact ⟨by simp [this], truncated_length name h⟩
  · intro name _ h
    exact characterCount_eq_length name h

/-- C7, at a concrete input: a short name and a name of 80 bytes. -/
theorem C7_overflowSentence_labels_witness :
    (overflowSentence ["web-0", longName]).length = ["web-0", longName].length ∧
    (∀ (i : Nat) (name : String), ["web-0", longName][i]? = some name →
      (name.length ≤ 75 → (overflowSentence ["web-0", longName])[i]? = some name) ∧
      (75 < name.length →
        (overflowSentence ["web-0", longName])[i]? =
          some (String.mk (name.data.take 72) ++ "...") ∧
        (String.mk (name.data.take 72) ++ "...").length = 75)) ∧
    (∀ label ∈ overflowSentence ["web-0", longName], label.length ≤ 75) ∧
    (∀ name ∈ ["web-0", longName], (∀ c ∈ name.data, c.toNat < 128) →
      characterCount name = name.length) :=
  C7_overflowSentence_labels ["web-0", longName]

/-- The scheduler over a history of calls.  For a scheduler that starts empty and every
history of calls to `schedule`: a list of source bindings is taken as already started, and
`schedule` returns without dispatching and without a change, exactly when a list with the
same key, the names joined with `;`, was passed before, which is the case of the identical
ordered list.  A list with a new key is recorded, and when marshaling and dispatching
succeed it gets one dispatch for each plugin that is enabled in one of its sources, with
the list as the sources of the dispatch.  Two non-empty lists of names without `;` have the
same key only if they are the same ordered list. -/
theorem schedule_once_per_joined_key (cfg : SchedulerConfig) (dispatcher : pluginDispatcher)
    (marshal : String → Except String String) (history : List (List String))
    (bindSources : List String) :
    (Join bindSources ";" ∈
        (scheduleAll (NewScheduler cfg dispatcher marshal) history).startProcesses ↔
      ∃ earlier ∈ history, Join earlier ";" = Join bindSources ";") ∧
    (Join bindSources ";" ∈
        (scheduleAll (NewScheduler cfg dispatcher marshal) history).startProcesses →
      schedule (scheduleAll (NewScheduler cfg dispatcher marshal) history) bindSources =
        (.ok (), scheduleAll (NewScheduler cfg dispatcher marshal) history, [])) ∧
    (bindSources ∈ history →
      schedule (scheduleAll (NewScheduler cfg dispatcher marshal) history) bindSources =
        (.ok (), scheduleAll (NewScheduler cfg dispatcher marshal) history, [])) ∧
    (Join bindSources ";" ∉
        (scheduleAll (NewScheduler cfg dispatcher marshal) history).startProcesses →
      (schedule (scheduleAll (NewScheduler cfg dispatcher marshal) history)
          bindSources).2.1.startProcesses =
        Join bindSources ";" ::
          (scheduleAll (NewScheduler cfg dispatcher marshal) history).startProcesses ∧
      ((∀ config, ∃ raw, marshal config = .ok raw) →
        (∀ p cs srcs, dispatcher.Dispatch p cs srcs = .ok ()) →
          (schedule (scheduleAll (NewScheduler cfg dispatcher marshal) history)
            bindSources).1 = .ok () ∧
          ((schedule (scheduleAll (NewScheduler cfg dispatcher marshal) history)
            bindSources).2.2.map fun call => call.pluginName).Nodup ∧
          (∀ p,
            p ∈ ((schedule (scheduleAll (NewScheduler cfg dispatcher marshal) history)
              bindSources).2.2.map fun call => call.pluginName) ↔
            ∃ source ∈ bindSources, ∃ plugin,
              (p, plugin) ∈ cfg.Sources source ∧ plugin.Enabled = true) ∧
          (∀ call ∈ (schedule (scheduleAll (NewScheduler cfg dispatcher marshal) history)
              bindSources).2.2, call.sources = bindSources))) ∧
    (∀ earlier ∈ history, earlier ≠ [] → bindSources ≠ [] →
      (∀ x ∈ earlier, ';' ∉ x.data) → (∀ x ∈ bindSources, ';' ∉ x.data) →
        (Join earlier ";" = Join bindSources ";" ↔ earlier = bindSources)) := by
  have hkey : Join bindSources ";" ∈
      (scheduleAll (NewScheduler cfg dispatcher marshal) history).startProcesses ↔
      ∃ earlier ∈ history, Join earlier ";" = Join bindSources ";" := by
    rw [mem_scheduleAll_startProcesses]
    simp [NewScheduler]
  obtain ⟨hcfg, hdisp, hmar⟩ := scheduleAll_fields history (NewScheduler cfg dispatcher marshal)
  refine ⟨hkey, schedule_already_started _ _, ?_, ?_, ?_⟩
  · intro hin
    exact schedule_already_started _ _ (hkey.2 ⟨bindSources, hin, rfl⟩)
  · intro hnew
    refine ⟨by rw [schedule_startProcesses, if_neg hnew], ?_⟩
    intro hmarshal hdispatch
    have h := schedule_new_dispatches
      (scheduleAll (NewScheduler cfg dispatcher marshal) history) bindSources hnew
      (by rw [hmar]; exact hmarshal) (by rw [hdisp]; exact hdispatch)
    rw [hcfg] at h
    exact h
  · intro earlier _ hne hne' hnames hnames'
    constructor
    · exact Join_injective earlier bindSources hnames hnames' hne hne'
    · intro h
      rw [h]

/-- C20 (the code at the failing input). After the list with the single source `a;b` was
scheduled, the list of the two sources `a` and `b`, a new order of source bindings that was
never passed before, has the same joined key `a;b`: `schedule` returns without an error,
without dispatching and without recording anything, whereas a scheduler that has not seen
`a;b` dispatches the plugin of `a` and `b` with the configurations of both sources. -/
theorem C20_new_bindings_with_colliding_key_are_skipped :
    ["a", "b"] ∉ [["a;b"]] ∧
    Join ["a", "b"] ";" = Join ["a;b"] ";" ∧
    (scheduleAll sampleScheduler [["a;b"]]).startProcesses = ["a;b"] ∧
    (schedule (scheduleAll sampleScheduler [["a;b"]]) ["a", "b"]).1.toOption = some () ∧
    (schedule (scheduleAll sampleScheduler [["a;b"]]) ["a", "b"]).2.2 = [] ∧
    (schedule (scheduleAll sampleScheduler [["a;b"]]) ["a", "b"]).2.1.startProcesses = ["a;b"] ∧
    (schedule sampleScheduler ["a", "b"]).2.2 =
      [{ pluginName := "botkube/kubernetes"
         pluginConfigs := [{ RawYAML := "cfg-a" }, { RawYAML := "cfg-b" }]
         sources := ["a", "b"] }] := by
  exact ⟨by decide, by decide, by decide, by decide, by decide, by decide, by decide⟩

theorem offeredResourceNames_eq (e : KubectlCmdBuilder) (bindings : List String)
    (s : stateDetails) (ctx : CommandContext) :
    offeredResourceNames e bindings s ctx =
      if s.resourceType = "" then []
      else
        match e.kcExecutor.Execute bindings (resourceNamesCommand s) true ctx with
        | .error _ => []
        | .ok out => overflowSentence (getNonEmptyLines out) := by
  unfold offeredResourceNames
  by_cases ht : s.resourceType = ""
  · simp [ht]
  · simp only [ht, if_false]
    cases e.kcExecutor.Execute bindings (resourceNamesCommand s) true ctx with
    | error err => rfl
    | ok out =>
      simp only [overflowSentence]
      apply List.map_congr_left
      intro name _
      by_cases h : name.length < 76
      · have h75 : name.length ≤ 75 := by omega
        simp [h, h75]
      · have h75 : ¬ name.length ≤ 75 := by omega
        simp [h, h75]

theorem tryToGetResourceNamesSelect_eq (e : KubectlCmdBuilder) (bindings : List String)
    (s : stateDetails) (ctx : CommandContext) :
    (tryToGetResourceNamesSelect e bindings s ctx).1 =
      if offeredResourceNames e bindings s ctx = [] then some emptyResourceNames
      else ResourceNamesSelect (offeredResourceNames e bindings s ctx) s.resourceName := by
  rw [offeredResourceNames_eq]
  unfold tryToGetResourceNamesSelect
  by_cases ht : s.resourceType = ""
  · simp [ht, EmptyResourceNameDropdown, emptyResourceNames]
  · simp only [ht, if_false]
    have hcmd : (if s.namespace_ ≠ "" then
        kubectlCommandName ++ " get " ++ s.resourceType ++
          " --ignore-not-found=true -o go-template='\x7b\x7brange .items\x7d\x7d\x7b\x7b.metadata.name\x7d\x7d\x7b\x7b\"\\n\"\x7d\x7d\x7b\x7bend\x7d\x7d'" ++
          " -n " ++ s.namespace_
        else
          kubectlCommandName ++ " get " ++ s.resourceType ++
            " --ignore-not-found=true -o go-template='\x7b\x7brange .items\x7d\x7d\x7b\x7b.metadata.name\x7d\x7d\x7b\x7b\"\\n\"\x7d\x7d\x7b\x7bend\x7d\x7d'") =
        resourceNamesCommand s := rfl
    rw [hcmd]
    cases e.kcExecutor.Execute bindings (resourceNamesCommand s) true ctx with
    | error err => simp [EmptyResourceNameDropdown, emptyResourceNames]
    | ok out =>
      by_cases hl : getNonEmptyLines out = []
      · simp [hl, overflowSentence, EmptyResourceNameDropdown, emptyResourceNames]
      · have hlen : (getNonEmptyLines out).length ≠ 0 := by
          simpa [List.length_eq_zero] using hl
        have hne : overflowSentence (getNonEmptyLines out) ≠ [] := by
          intro h
          have hl2 := overflowSentence_length (getNonEmptyLines out)
          rw [h] at hl2
          exact hl (List.length_eq_zero.1 hl2.symm)
        simp [hlen, hne]

theorem contains_tryToGetResourceNamesSelect (e : KubectlCmdBuilder) (bindings : List String)
    (s : stateDetails) (ctx : CommandContext) :
    contains (tryToGetResourceNamesSelect e bindings s ctx).1 s.resourceName = true ↔
      s.resourceName ∈ offeredResourceNames e bindings s ctx := by
  rw [tryToGetResourceNamesSelect_eq]
  by_cases h : offeredResourceNames e bindings s ctx = []
  · rw [if_pos h, h]
    have hres : contains (some emptyResourceNames) s.resourceName = false := rfl
    simp [hres]
  · rw [if_neg h]
    exact contains_ResourceNamesSelect _ _

theorem not_mem_getNonEmptyLines_empty (out : String) : "" ∉ getNonEmptyLines out := by
  simp [getNonEmptyLines]

theorem not_mem_offeredResourceNames_empty (e : KubectlCmdBuilder) (bindings : List String)
    (s : stateDetails) (ctx : CommandContext) :
    "" ∉ offeredResourceNames e bindings s ctx := by
  unfold offeredResourceNames
  by_cases ht : s.resourceType = ""
  · simp [ht]
  · simp only [ht, if_false]
    cases e.kcExecutor.Execute bindings (resourceNamesCommand s) true ctx with
    | error err => simp
    | ok out =>
      simp only [List.mem_map, not_exists, not_and]
      intro name hname
      by_cases h : name.length ≤ 75
      · simp only [h, if_true]
        intro hn
        rw [hn] at hname
        exact not_mem_getNonEmptyLines_empty out hname
      · simp only [h, if_false]
        intro hn
        have hlen := congrArg String.length hn
        rw [truncated_length name (by omega)] at hlen
        simp at hlen

theorem tryToGetNamespaceSelect_eq (e : KubectlCmdBuilder) (bindings : List String)
    (s : stateDetails) :
    ∃ items : List dropdownItem,
      (tryToGetNamespaceSelect e bindings s).1 =
        ResourceNamespaceSelect items
          (appendNamespaceSuffixIfDefault (newDropdownItem s.namespace_ s.namespace_)) ∧
      items.map (fun i => ({ Name := i.Name, Value := i.Value } : OptionItem)) =
        (offeredNamespaces e bindings s).map (namespaceOption s.namespace_) ∧
      (appendNamespaceSuffixIfDefault (newDropdownItem s.namespace_ s.namespace_) ∈ items ↔
        s.namespace_ ∈ offeredNamespaces e bindings s) := by
  have hnone : ∀ init, ResourceNamespaceSelect [] init = none := fun _ => rfl
  unfold tryToGetNamespaceSelect offeredNamespaces
  cases hd : e.commandGuard.GetResourceDetails s.verb s.resourceType with
  | error err => exact ⟨[], by simp [hnone], by simp, by simp⟩
  | ok d =>
    cases hN : d.Namespaced with
    | false => exact ⟨[], by simp [hN, hnone], by simp [hN], by simp [hN]⟩
    | true =>
      cases hl : e.namespaceLister.List dropdownItemsLimit with
      | error err => exact ⟨[], by simp [hN, hnone], by simp [hN], by simp [hN]⟩
      | ok namespaces =>
        simp only [hN, Bool.not_true, Bool.false_eq_true, if_false, if_true]
        refine ⟨_, rfl, namespace_items_eq _ _ _, ?_⟩
        have hval : ∀ x : String,
            (appendNamespaceSuffixIfDefault (newDropdownItem x x)).Value = x := by
          intro x
          unfold appendNamespaceSuffixIfDefault newDropdownItem
          split <;> rfl
        constructor
        · intro hmem
          have hv := List.mem_map_of_mem (fun item : dropdownItem => item.Value) hmem
          rw [namespace_items_values] at hv
          have hv2 : (appendNamespaceSuffixIfDefault
              (newDropdownItem s.namespace_ s.namespace_)).Value ∈ _ := hv
          rw [hval] at hv2
          exact hv2
        · intro hmem
          rw [List.mem_filterMap]
          refine ⟨s.namespace_, (List.mem_filter.1 hmem).1, ?_⟩
          have hallowed := (List.mem_filter.1 hmem).2
          cases hc : ((e.merger.MergeAllEnabled bindings).AllowedNamespacesPerResource
              s.resourceType).IsAllowed s.namespace_ with
          | error err => simp [allowedWithoutError, hc] at hallowed
          | ok b =>
            cases b with
            | false => simp [allowedWithoutError, hc] at hallowed
            | true =>
              simp only [hval]
              simp [newDropdownItem]

theorem contains_tryToGetNamespaceSelect (e : KubectlCmdBuilder) (bindings : List String)
    (s : stateDetails) :
    contains (tryToGetNamespaceSelect e bindings s).1 s.namespace_ = true ↔
      s.namespace_ ∈ offeredNamespaces e bindings s := by
  obtain ⟨items, hsel, _, hmem⟩ := tryToGetNamespaceSelect_eq e bindings s
  rw [hsel, ResourceNamespaceSelect, contains_selectDropdown, hmem]
  have hval : (appendNamespaceSuffixIfDefault
      (newDropdownItem s.namespace_ s.namespace_)).Value = s.namespace_ := by
    unfold appendNamespaceSuffixIfDefault newDropdownItem
    split <;> rfl
  simp [hval]

theorem tryToGetNamespaceSelect_eq_none_iff (e : KubectlCmdBuilder) (bindings : List String)
    (s : stateDetails) :
    (tryToGetNamespaceSelect e bindings s).1 = none ↔ offeredNamespaces e bindings s = [] := by
  obtain ⟨items, hsel, hopts, _⟩ := tryToGetNamespaceSelect_eq e bindings s
  rw [hsel, ResourceNamespaceSelect, selectDropdown_eq_none_iff]
  have hlen := congrArg List.length hopts
  simp only [List.length_map] at hlen
  rw [← List.length_eq_zero, hlen, List.length_eq_zero]

theorem tryToGetNamespaceSelect_offered (e : KubectlCmdBuilder) (bindings : List String)
    (s : stateDetails) (sel : Select) (h : (tryToGetNamespaceSelect e bindings s).1 = some sel) :
    sel.options = (offeredNamespaces e bindings s).map (namespaceOption s.namespace_) := by
  obtain ⟨items, hsel, hopts, _⟩ := tryToGetNamespaceSelect_eq e bindings s
  rw [hsel, ResourceNamespaceSelect] at h
  rw [selectDropdown_options _ _ _ _ sel h, hopts]

theorem keptNamespace_of_not_namespaced (e : KubectlCmdBuilder) (bindings : List String)
    (s : stateDetails) (d : Resource)
    (hd : e.commandGuard.GetResourceDetails s.verb s.resourceType = .ok d)
    (hN : d.Namespaced = false) : keptNamespace e bindings s = "" := by
  simp [keptNamespace, offeredNamespaces, hd, hN]

theorem finalState_eq_kept (e : KubectlCmdBuilder) (bindings : List String)
    (s : stateDetails) (ctx : CommandContext) :
    finalState s (tryToGetResourceNamesSelect e bindings s ctx).1
        (tryToGetNamespaceSelect e bindings s).1 =
      { s with
        resourceName := keptResourceName e bindings s ctx
        namespace_ := keptNamespace e bindings s } := by
  have h1 := contains_tryToGetResourceNamesSelect e bindings s ctx
  have h2 := contains_tryToGetNamespaceSelect e bindings s
  unfold keptResourceName keptNamespace
  by_cases hn : s.resourceName ∈ offeredResourceNames e bindings s ctx <;>
    by_cases hs : s.namespace_ ∈ offeredNamespaces e bindings s
  · simp [finalState, h1.2 hn, h2.2 hs, hn, hs]
  · have h2f : contains (tryToGetNamespaceSelect e bindings s).1 s.namespace_ = false := by
      rw [Bool.eq_false_iff]
      exact fun h => hs (h2.1 h)
    simp [finalState, h1.2 hn, h2f, hn, hs]
  · have h1f : contains (tryToGetResourceNamesSelect e bindings s ctx).1 s.resourceName
        = false := by
      rw [Bool.eq_false_iff]
      exact fun h => hn (h1.1 h)
    simp [finalState, h1f, h2.2 hs, hn, hs]
  · have h1f : contains (tryToGetResourceNamesSelect e bindings s ctx).1 s.resourceName
        = false := by
      rw [Bool.eq_false_iff]
      exact fun h => hn (h1.1 h)
    have h2f : contains (tryToGetNamespaceSelect e bindings s).1 s.namespace_ = false := by
      rw [Bool.eq_false_iff]
      exact fun h => hs (h2.1 h)
    simp [finalState, h1f, h2f, hn, hs]

theorem tryToGetResourceNamesSelect_some (e : KubectlCmdBuilder) (bindings : List String)
    (s : stateDetails) (ctx : CommandContext) :
    ∃ resSel, (tryToGetResourceNamesSelect e bindings s ctx).1 = some resSel ∧
      resSel.options =
        (offeredResourceNames e bindings s ctx).map fun n => { Name := n, Value := n } := by
  rw [tryToGetResourceNamesSelect_eq]
  by_cases h : offeredResourceNames e bindings s ctx = []
  · rw [if_pos h, h]
    exact ⟨emptyResourceNames, rfl, rfl⟩
  · rw [if_neg h]
    cases hsel : ResourceNamesSelect (offeredResourceNames e bindings s ctx) s.resourceName with
    | none =>
      simp [ResourceNamesSelect, selectDropdown_eq_none_iff, createDropdownItems_eq_nil_iff]
        at hsel
      exact absurd hsel h
    | some sel => exact ⟨sel, rfl, ResourceNamesSelect_options _ _ sel hsel⟩

theorem renderMessage_listed_sections (e : KubectlCmdBuilder) (s : stateDetails)
    (bindings allVerbs allTypes : List String) (ctx : CommandContext) (allowed : List Resource)
    (hverbs : allVerbs ≠ [])
    (hgate : e.commandGuard.GetAllowedResourcesForVerb s.verb allTypes = .ok allowed)
    (hvalid : s.resourceType ∈ allowed.map fun r => r.Name) :
    ∃ (verbSel typeSel resSel : Select) (msg : CoreMessage),
      VerbSelect allVerbs s.verb = some verbSel ∧
      ResourceTypeSelect (allowed.map fun r => r.Name) s.resourceType = some typeSel ∧
      (tryToGetResourceNamesSelect e bindings s ctx).1 = some resSel ∧
      (renderMessage e s bindings allVerbs allTypes ctx).1 = .ok msg ∧
      msg.Message.Sections =
        { Selects :=
            { ID := s.dropdownsBlockID
              Items := [verbSel, typeSel, resSel] ++
                (tryToGetNamespaceSelect e bindings s).1.toList } } ::
          (buildCommandPreview e
            { s with
              resourceName := keptResourceName e bindings s ctx
              namespace_ := keptNamespace e bindings s }).1 := by
  obtain ⟨verbSel, hv⟩ := VerbSelect_some allVerbs s.verb hverbs
  have hne : allowed.map (fun r => r.Name) ≠ [] := by
    intro h
    rw [h] at hvalid
    simp at hvalid
  obtain ⟨typeSel, ht⟩ := ResourceTypeSelect_some _ s.resourceType hne
  obtain ⟨resSel, hres, _⟩ := tryToGetResourceNamesSelect_some e bindings s ctx
  have hr := renderMessage_type_listed e s bindings allVerbs allTypes ctx verbSel allowed hv
    hgate hvalid
  refine ⟨verbSel, typeSel, resSel, _, hv, ht, hres, by rw [hr], ?_⟩
  rw [finalState_eq_kept, ht, hres]
  cases (tryToGetNamespaceSelect e bindings s).1 <;>
    simp [KubectlCmdBuilderMessage, WithAdditionalSelects, WithAdditionalSections]

theorem buildCommandPreview_kept_error (e : KubectlCmdBuilder) (s : stateDetails)
    (name ns err : String)
    (hd : e.commandGuard.GetResourceDetails s.verb s.resourceType = .error err) :
    (buildCommandPreview e { s with resourceName := name, namespace_ := ns }).1 =
      [InternalErrorSection] :=
  buildCommandPreview_error e { s with resourceName := name, namespace_ := ns } err hd

theorem buildCommandPreview_kept_ok (e : KubectlCmdBuilder) (s : stateDetails)
    (name ns : String) (d : Resource)
    (hd : e.commandGuard.GetResourceDetails s.verb s.resourceType = .ok d) :
    (buildCommandPreview e { s with resourceName := name, namespace_ := ns }).1 =
      if d.SlashSeparatedInCommand = true ∧ name = "" then []
      else
        PreviewSection
          ("kubectl " ++ s.verb ++ " " ++ s.resourceType ++
            (if name = "" then ""
              else (if d.SlashSeparatedInCommand = true then "/" else " ") ++ name) ++
            (if d.Namespaced = true ∧ ns ≠ "" then " -n " ++ ns else "") ++
            (if s.filter = "" then "" else " --filter=" ++ e.quote s.filter))
          FilterSection := by
  by_cases h : d.SlashSeparatedInCommand = true ∧ name = ""
  · rw [if_pos h]
    exact buildCommandPreview_incomplete e { s with resourceName := name, namespace_ := ns } d
      hd h.1 h.2
  · rw [if_neg h]
    exact buildCommandPreview_command e { s with resourceName := name, namespace_ := ns } d
      hd h

theorem offeredResourceNames_of_failure (e : KubectlCmdBuilder) (bindings : List String)
    (s : stateDetails) (ctx : CommandContext)
    (hfail :
      (∃ err, e.kcExecutor.Execute bindings (resourceNamesCommand s) true ctx = .error err) ∨
      (∃ out, e.kcExecutor.Execute bindings (resourceNamesCommand s) true ctx = .ok out ∧
        getNonEmptyLines out = [])) :
    offeredResourceNames e bindings s ctx = [] := by
  unfold offeredResourceNames
  by_cases ht : s.resourceType = ""
  · simp [ht]
  · rcases hfail with ⟨err, herr⟩ | ⟨out, hout, hlines⟩
    · simp [ht, herr]
    · simp [ht, hout, hlines]

theorem namespace_flag_kept (e : KubectlCmdBuilder) (bindings : List String)
    (s : stateDetails) (d : Resource)
    (hd : e.commandGuard.GetResourceDetails s.verb s.resourceType = .ok d) :
    (if d.Namespaced = true ∧ keptNamespace e bindings s ≠ "" then
        " -n " ++ keptNamespace e bindings s
      else "") =
      if keptNamespace e bindings s = "" then "" else " -n " ++ keptNamespace e bindings s := by
  cases hN : d.Namespaced with
  | false => simp [keptNamespace_of_not_namespaced e bindings s d hd hN]
  | true =>
    by_cases hk : keptNamespace e bindings s = "" <;> simp [hk]

/-- C9 (as stated, refuted). For `logs` on `pods`, a valid pair whose resource type is
joined to the name with a slash, when the execution gateway fails the render succeeds with
the four dropdowns, the resource-name dropdown being the empty one, but its message has no
preview: it has the section of the dropdowns only, and no section shows a command. -/
theorem C9_counterexample_no_preview_for_slash_joined_type :
    (sampleBuilder failingExecutor).commandGuard.GetAllowedResourcesForVerb logsState.verb
        ["pods", "nodes"] = .ok [podsForLogs, { Name := "nodes" }] ∧
    (logsState.resourceType ∈ [podsForLogs, { Name := "nodes" }].map fun r => r.Name) ∧
    (sampleBuilder failingExecutor).kcExecutor.Execute ["b"] (resourceNamesCommand logsState)
        true {} = .error "cluster unreachable" ∧
    (tryToGetResourceNamesSelect (sampleBuilder failingExecutor) ["b"] logsState {}).1 =
      some emptyResourceNames ∧
    ((renderMessage (sampleBuilder failingExecutor) logsState ["b"] ["get", "logs"]
        ["pods", "nodes"] {}).1.toOption.map
        fun msg => msg.dropdowns.map fun sel => sel.Name) =
      some ["Select command", "Select resource", "No resources found", "Select namespace"] ∧
    ((renderMessage (sampleBuilder failingExecutor) logsState ["b"] ["get", "logs"]
        ["pods", "nodes"] {}).1.toOption.map fun msg => msg.Message.Sections.length) =
      some 1 ∧
    ((renderMessage (sampleBuilder failingExecutor) logsState ["b"] ["get", "logs"]
        ["pods", "nodes"] {}).1.toOption.map fun msg => msg.hasCommandPreview) =
      some false :=
  ⟨rfl, by decide, rfl, by decide, by decide, by decide, by decide⟩

/-- C9 (amended). For every state whose resource type is one of the types that the gate
allows for the verb, with a non-empty list of verbs, if the execution gateway answers the
listing command of the resource names with an error, or with output that has no non-empty
line, the resource-name discovery returns the explicitly-empty dropdown (a dropdown,
without options), and the render succeeds.  The first section of its message has the verb
dropdown, the resource-type dropdown, the empty resource-name dropdown and the namespace
dropdown, which is there exactly when a namespace is offered and has the offered
namespaces as its options.  What follows that section depends on the details that the
policy gate gives for the verb and the resource type: the internal-error section when the
gate fails; nothing when the resource type is joined to the name with a slash; otherwise
the preview, whose command is the binary, the verb and the resource type, without a
resource name, followed by the namespace flag when the namespace of the state is offered
and by the filter flag when there is a filter. -/
theorem C9_render_survives_name_discovery_failure (e : KubectlCmdBuilder) (s : stateDetails)
    (bindings allVerbs allTypes : List String) (ctx : CommandContext) (allowed : List Resource)
    (hverbs : allVerbs ≠ [])
    (hgate : e.commandGuard.GetAllowedResourcesForVerb s.verb allTypes = .ok allowed)
    (hvalid : s.resourceType ∈ allowed.map fun r => r.Name)
    (hfail :
      (∃ err, e.kcExecutor.Execute bindings (resourceNamesCommand s) true ctx = .error err) ∨
      (∃ out, e.kcExecutor.Execute bindings (resourceNamesCommand s) true ctx = .ok out ∧
        getNonEmptyLines out = [])) :
    (tryToGetResourceNamesSelect e bindings s ctx).1 = some emptyResourceNames ∧
    emptyResourceNames.options = [] ∧
    ∃ (verbSel typeSel : Select) (msg : CoreMessage),
      VerbSelect allVerbs s.verb = some verbSel ∧
      ResourceTypeSelect (allowed.map fun r => r.Name) s.resourceType = some typeSel ∧
      (renderMessage e s bindings allVerbs allTypes ctx).1 = .ok msg ∧
      msg.Message.Sections.take 1 =
        [{ Selects :=
            { ID := s.dropdownsBlockID
              Items := [verbSel, typeSel, emptyResourceNames] ++
                (tryToGetNamespaceSelect e bindings s).1.toList } }] ∧
      ((tryToGetNamespaceSelect e bindings s).1 = none ↔ offeredNamespaces e bindings s = []) ∧
      (∀ nsSel, (tryToGetNamespaceSelect e bindings s).1 = some nsSel →
        nsSel.options = (offeredNamespaces e bindings s).map (namespaceOption s.namespace_)) ∧
      (∀ err, e.commandGuard.GetResourceDetails s.verb s.resourceType = .error err →
        msg.Message.Sections.drop 1 = [InternalErrorSection]) ∧
      (∀ d, e.commandGuard.GetResourceDetails s.verb s.resourceType = .ok d →
        msg.Message.Sections.drop 1 =
          if d.SlashSeparatedInCommand = true then []
          else
            PreviewSection
              ("kubectl " ++ s.verb ++ " " ++ s.resourceType ++
                (if keptNamespace e bindings s = "" then ""
                  else " -n " ++ keptNamespace e bindings s) ++
                (if s.filter = "" then "" else " --filter=" ++ e.quote s.filter))
              FilterSection) := by
  have hempty := tryToGetResourceNamesSelect_failure e bindings s ctx hfail
  have hoff := offeredResourceNames_of_failure e bindings s ctx hfail
  have hkept : keptResourceName e bindings s ctx = "" := by
    simp [keptResourceName, hoff]
  obtain ⟨verbSel, typeSel, resSel, msg, hv, ht, hres, hmsg, hsec⟩ :=
    renderMessage_listed_sections e s bindings allVerbs allTypes ctx allowed hverbs hgate hvalid
  rw [hempty] at hres
  have hresSel : resSel = emptyResourceNames := (Option.some.inj hres).symm
  subst hresSel
  rw [hkept] at hsec
  refine ⟨hempty, rfl, verbSel, typeSel, msg, hv, ht, hmsg, by rw [hsec]; rfl,
    tryToGetNamespaceSelect_eq_none_iff e bindings s,
    fun nsSel h => tryToGetNamespaceSelect_offered e bindings s nsSel h, ?_, ?_⟩
  · intro err hd
    rw [hsec, List.drop_one, List.tail_cons]
    exact buildCommandPreview_kept_error e s "" _ err hd
  · intro d hd
    rw [hsec, List.drop_one, List.tail_cons,
      buildCommandPreview_kept_ok e s "" (keptNamespace e bindings s) d hd,
      namespace_flag_kept e bindings s d hd]
    by_cases hS : d.SlashSeparatedInCommand = true <;> simp [hS]

/-- C9, at a concrete input: the execution gateway fails while `get pods` is selected. -/
theorem C9_render_survives_name_discovery_failure_witness :
    ["get", "logs"] ≠ [] ∧
    (sampleBuilder failingExecutor).commandGuard.GetAllowedResourcesForVerb getPodsState.verb
        ["pods", "nodes"] = .ok [podsForGet, { Name := "nodes" }] ∧
    (getPodsState.resourceType ∈ [podsForGet, { Name := "nodes" }].map fun r => r.Name) ∧
    ((∃ err, (sampleBuilder failingExecutor).kcExecutor.Execute ["b"]
        (resourceNamesCommand getPodsState) true {} = .error err) ∨
      (∃ out, (sampleBuilder failingExecutor).kcExecutor.Execute ["b"]
        (resourceNamesCommand getPodsState) true {} = .ok out ∧ getNonEmptyLines out = [])) ∧
    (tryToGetResourceNamesSelect (sampleBuilder failingExecutor) ["b"] getPodsState {}).1 =
      some emptyResourceNames ∧
    emptyResourceNames.options = [] ∧
    ∃ (verbSel typeSel : Select) (msg : CoreMessage),
      VerbSelect ["get", "logs"] getPodsState.verb = some verbSel ∧
      ResourceTypeSelect ([podsForGet, { Name := "nodes" }].map fun r => r.Name)
        getPodsState.resourceType = some typeSel ∧
      (renderMessage (sampleBuilder failingExecutor) getPodsState ["b"] ["get", "logs"]
        ["pods", "nodes"] {}).1 = .ok msg ∧
      msg.Message.Sections.take 1 =
        [{ Selects :=
            { ID := getPodsState.dropdownsBlockID
              Items := [verbSel, typeSel, emptyResourceNames] ++
                (tryToGetNamespaceSelect (sampleBuilder failingExecutor) ["b"]
                  getPodsState).1.toList } }] ∧
      ((tryToGetNamespaceSelect (sampleBuilder failingExecutor) ["b"] getPodsState).1 = none ↔
        offeredNamespaces (sampleBuilder failingExecutor) ["b"] getPodsState = []) ∧
      (∀ nsSel, (tryToGetNamespaceSelect (sampleBuilder failingExecutor) ["b"]
          getPodsState).1 = some nsSel →
        nsSel.options =
          (offeredNamespaces (sampleBuilder failingExecutor) ["b"] getPodsState).map
            (namespaceOption getPodsState.namespace_)) ∧
      (∀ err, (sampleBuilder failingExecutor).commandGuard.GetResourceDetails getPodsState.verb
          getPodsState.resourceType = .error err →
        msg.Message.Sections.drop 1 = [InternalErrorSection]) ∧
      (∀ d, (sampleBuilder failingExecutor).commandGuard.GetResourceDetails getPodsState.verb
          getPodsState.resourceType = .ok d →
        msg.Message.Sections.drop 1 =
          if d.SlashSeparatedInCommand = true then []
          else
            PreviewSection
              ("kubectl " ++ getPodsState.verb ++ " " ++ getPodsState.resourceType ++
                (if keptNamespace (sampleBuilder failingExecutor) ["b"] getPodsState = "" then ""
                  else " -n " ++ keptNamespace (sampleBuilder failingExecutor) ["b"]
                    getPodsState) ++
                (if getPodsState.filter = "" then ""
                  else " --filter=" ++ (sampleBuilder failingExecutor).quote
                    getPodsState.filter))
              FilterSection) :=
  ⟨by decide, rfl, by decide, Or.inl ⟨"cluster unreachable", rfl⟩,
    C9_render_survives_name_discovery_failure (sampleBuilder failingExecutor) getPodsState ["b"]
      ["get", "logs"] ["pods", "nodes"] {} [podsForGet, { Name := "nodes" }] (by decide) rfl
      (by decide) (Or.inl ⟨"cluster unreachable", rfl⟩)⟩

theorem renderMessage_listed_preview (e : KubectlCmdBuilder) (s : stateDetails)
    (bindings allVerbs allTypes : List String) (ctx : CommandContext) (allowed : List Resource)
    (hverbs : allVerbs ≠ [])
    (hgate : e.commandGuard.GetAllowedResourcesForVerb s.verb allTypes = .ok allowed)
    (hvalid : s.resourceType ∈ allowed.map fun r => r.Name) :
    ∃ msg : CoreMessage,
      (renderMessage e s bindings allVerbs allTypes ctx).1 = .ok msg ∧
      (∀ err, e.commandGuard.GetResourceDetails s.verb s.resourceType = .error err →
        msg.Message.Sections.drop 1 = [InternalErrorSection]) ∧
      (∀ d, e.commandGuard.GetResourceDetails s.verb s.resourceType = .ok d →
        (s.resourceName ∈ offeredResourceNames e bindings s ctx →
          msg.Message.Sections.drop 1 =
            PreviewSection
              ("kubectl " ++ s.verb ++ " " ++ s.resourceType ++
                (if d.SlashSeparatedInCommand = true then "/" else " ") ++ s.resourceName ++
                (if keptNamespace e bindings s = "" then ""
                  else " -n " ++ keptNamespace e bindings s) ++
                (if s.filter = "" then "" else " --filter=" ++ e.quote s.filter))
              FilterSection) ∧
        (s.resourceName ∉ offeredResourceNames e bindings s ctx →
          msg.Message.Sections.drop 1 =
            if d.SlashSeparatedInCommand = true then []
            else
              PreviewSection
                ("kubectl " ++ s.verb ++ " " ++ s.resourceType ++
                  (if keptNamespace e bindings s = "" then ""
                    else " -n " ++ keptNamespace e bindings s) ++
                  (if s.filter = "" then "" else " --filter=" ++ e.quote s.filter))
                FilterSection)) := by
  obtain ⟨verbSel, typeSel, resSel, msg, _, _, _, hmsg, hsec⟩ :=
    renderMessage_listed_sections e s bindings allVerbs allTypes ctx allowed hverbs hgate hvalid
  refine ⟨msg, hmsg, ?_, ?_⟩
  · intro err hd
    rw [hsec, List.drop_one, List.tail_cons]
    exact buildCommandPreview_kept_error e s _ _ err hd
  · intro d hd
    constructor
    · intro hin
      have hne : s.resourceName ≠ "" := by
        intro h
        rw [h] at hin
        exact not_mem_offeredResourceNames_empty e bindings s ctx hin
      have hkept : keptResourceName e bindings s ctx = s.resourceName := by
        simp [keptResourceName, hin]
      rw [hsec, List.drop_one, List.tail_cons, hkept,
        buildCommandPreview_kept_ok e s s.resourceName (keptNamespace e bindings s) d hd,
        namespace_flag_kept e bindings s d hd]
      simp [hne, String.append_assoc]
    · intro hout
      have hkept : keptResourceName e bindings s ctx = "" := by
        simp [keptResourceName, hout]
      rw [hsec, List.drop_one, List.tail_cons, hkept,
        buildCommandPreview_kept_ok e s "" (keptNamespace e bindings s) d hd,
        namespace_flag_kept e bindings s d hd]
      by_cases hS : d.SlashSeparatedInCommand = true <;> simp [hS]

/-- C15 (amended). With lengths in bytes: for every state whose resource type is one of the
types that the gate allows for the verb, with a non-empty list of verbs, the render
succeeds, and whether the execution gateway lists names, lists none or fails, the resource
name of the state is kept exactly when it is one of the names offered by the
resource-name dropdown, which are the options of that dropdown (the discovered names, a
name longer than 75 bytes replaced by its first 72 bytes and three dots; no name when the
gateway fails, lists nothing, or the resource type is empty).  When the policy gate gives
the details of the pair: a kept name is in the command of the preview, joined to the
resource type by a slash or a space; a name that is not offered is cleared, the command of
the preview has no resource name, and there is no preview when the resource type is joined
to the name with a slash.  When the gate
fails for the details the internal-error section stands in place of the preview.  When no
discovered name is longer than 75 bytes the offered names are the discovered names. -/
theorem C15_resource_name_kept_iff_offered (e : KubectlCmdBuilder) (s : stateDetails)
    (bindings allVerbs allTypes : List String) (ctx : CommandContext) (allowed : List Resource)
    (hverbs : allVerbs ≠ [])
    (hgate : e.commandGuard.GetAllowedResourcesForVerb s.verb allTypes = .ok allowed)
    (hvalid : s.resourceType ∈ allowed.map fun r => r.Name) :
    (∃ msg : CoreMessage,
      (renderMessage e s bindings allVerbs allTypes ctx).1 = .ok msg ∧
      (∀ err, e.commandGuard.GetResourceDetails s.verb s.resourceType = .error err →
        msg.Message.Sections.drop 1 = [InternalErrorSection]) ∧
      (∀ d, e.commandGuard.GetResourceDetails s.verb s.resourceType = .ok d →
        (s.resourceName ∈ offeredResourceNames e bindings s ctx →
          msg.Message.Sections.drop 1 =
            PreviewSection
              ("kubectl " ++ s.verb ++ " " ++ s.resourceType ++
                (if d.SlashSeparatedInCommand = true then "/" else " ") ++ s.resourceName ++
                (if keptNamespace e bindings s = "" then ""
                  else " -n " ++ keptNamespace e bindings s) ++
                (if s.filter = "" then "" else " --filter=" ++ e.quote s.filter))
              FilterSection) ∧
        (s.resourceName ∉ offeredResourceNames e bindings s ctx →
          msg.Message.Sections.drop 1 =
            if d.SlashSeparatedInCommand = true then []
            else
              PreviewSection
                ("kubectl " ++ s.verb ++ " " ++ s.resourceType ++
                  (if keptNamespace e bindings s = "" then ""
                    else " -n " ++ keptNamespace e bindings s) ++
                  (if s.filter = "" then "" else " --filter=" ++ e.quote s.filter))
                FilterSection))) ∧
    (∃ resSel : Select,
      (tryToGetResourceNamesSelect e bindings s ctx).1 = some resSel ∧
      resSel.options =
        (offeredResourceNames e bindings s ctx).map fun n => { Name := n, Value := n }) ∧
    (s.resourceType = "" → offeredResourceNames e bindings s ctx = []) ∧
    (∀ err, e.kcExecutor.Execute bindings (resourceNamesCommand s) true ctx = .error err →
      offeredResourceNames e bindings s ctx = []) ∧
    (∀ out, e.kcExecutor.Execute bindings (resourceNamesCommand s) true ctx = .ok out →
      s.resourceType ≠ "" →
        offeredResourceNames e bindings s ctx =
          (getNonEmptyLines out).map (fun name =>
            if name.length ≤ 75 then name else String.mk (name.data.take 72) ++ "...") ∧
        ((∀ n ∈ getNonEmptyLines out, n.length ≤ 75) →
          offeredResourceNames e bindings s ctx = getNonEmptyLines out)) := by
  refine ⟨renderMessage_listed_preview e s bindings allVerbs allTypes ctx allowed hverbs hgate
    hvalid, tryToGetResourceNamesSelect_some e bindings s ctx, ?_, ?_, ?_⟩
  · intro htype
    simp [offeredResourceNames, htype]
  · intro err herr
    exact offeredResourceNames_of_failure e bindings s ctx (Or.inl ⟨err, herr⟩)
  · intro out hout htype
    refine ⟨by simp [offeredResourceNames, htype, hout], ?_⟩
    intro hshort
    rw [offeredResourceNames_eq, if_neg htype, hout]
    exact overflowSentence_eq_self _ hshort

/-- C15, at a concrete input: the discovered names are `foo` and `bar` and the snapshot
has the resource name `baz`. -/
theorem C15_resource_name_kept_iff_offered_witness :
    ["get"] ≠ [] ∧
    fooBarBuilder.commandGuard.GetAllowedResourcesForVerb bazState.verb ["pods"] =
      .ok [podsForGet] ∧
    (bazState.resourceType ∈ [podsForGet].map fun r => r.Name) ∧
    offeredResourceNames fooBarBuilder ["b"] bazState {} = ["foo", "bar"] ∧
    bazState.resourceName ∉ offeredResourceNames fooBarBuilder ["b"] bazState {} ∧
    fooBarBuilder.commandGuard.GetResourceDetails bazState.verb bazState.resourceType =
      .ok podsForGet ∧
    ((∃ msg : CoreMessage,
      (renderMessage fooBarBuilder bazState ["b"] ["get"] ["pods"] {}).1 = .ok msg ∧
      (∀ err, fooBarBuilder.commandGuard.GetResourceDetails bazState.verb bazState.resourceType =
          .error err →
        msg.Message.Sections.drop 1 = [InternalErrorSection]) ∧
      (∀ d, fooBarBuilder.commandGuard.GetResourceDetails bazState.verb bazState.resourceType =
          .ok d →
        (bazState.resourceName ∈ offeredResourceNames fooBarBuilder ["b"] bazState {} →
          msg.Message.Sections.drop 1 =
            PreviewSection
              ("kubectl " ++ bazState.verb ++ " " ++ bazState.resourceType ++
                (if d.SlashSeparatedInCommand = true then "/" else " ") ++
                bazState.resourceName ++
                (if keptNamespace fooBarBuilder ["b"] bazState = "" then ""
                  else " -n " ++ keptNamespace fooBarBuilder ["b"] bazState) ++
                (if bazState.filter = "" then ""
                  else " --filter=" ++ fooBarBuilder.quote bazState.filter))
              FilterSection) ∧
        (bazState.resourceName ∉ offeredResourceNames fooBarBuilder ["b"] bazState {} →
          msg.Message.Sections.drop 1 =
            if d.SlashSeparatedInCommand = true then []
            else
              PreviewSection
                ("kubectl " ++ bazState.verb ++ " " ++ bazState.resourceType ++
                  (if keptNamespace fooBarBuilder ["b"] bazState = "" then ""
                    else " -n " ++ keptNamespace fooBarBuilder ["b"] bazState) ++
                  (if bazState.filter = "" then ""
                    else " --filter=" ++ fooBarBuilder.quote bazState.filter))
                FilterSection))) ∧
    (∃ resSel : Select,
      (tryToGetResourceNamesSelect fooBarBuilder ["b"] bazState {}).1 = some resSel ∧
      resSel.options =
        (offeredResourceNames fooBarBuilder ["b"] bazState {}).map fun n =>
          { Name := n, Value := n }) ∧
    (bazState.resourceType = "" → offeredResourceNames fooBarBuilder ["b"] bazState {} = []) ∧
    (∀ err, fooBarBuilder.kcExecutor.Execute ["b"] (resourceNamesCommand bazState) true {} =
        .error err →
      offeredResourceNames fooBarBuilder ["b"] bazState {} = []) ∧
    (∀ out, fooBarBuilder.kcExecutor.Execute ["b"] (resourceNamesCommand bazState) true {} =
        .ok out →
      bazState.resourceType ≠ "" →
        offeredResourceNames fooBarBuilder ["b"] bazState {} =
          (getNonEmptyLines out).map (fun name =>
            if name.length ≤ 75 then name else String.mk (name.data.take 72) ++ "...") ∧
        ((∀ n ∈ getNonEmptyLines out, n.length ≤ 75) →
          offeredResourceNames fooBarBuilder ["b"] bazState {} = getNonEmptyLines out))) :=
  ⟨by decide, rfl, by decide, by decide, by decide, rfl,
    C15_resource_name_kept_iff_offered fooBarBuilder bazState ["b"] ["get"] ["pods"] {}
      [podsForGet] (by decide) rfl (by decide)⟩

/-- C6 (amended). With lengths in bytes: in resource-name discovery, for a state with a
resource type, when the execution gateway answers the listing command, the resource-name
dropdown has one option per listed name, in order; the label and the value of the option
are both the name when it has at most 75 bytes, and both its first 72 bytes followed by
three dots when it is longer, so that no value offered is longer than 75 bytes and the
full name of a longer resource does not reach the dropdown.  When the option of such a
longer name is selected, that is when the resource name of the state is the truncated
text, in a state whose resource type the gate allows for the verb and has details for,
the render succeeds and the command of its preview has the truncated text as the resource
name. -/
theorem C6_resource_name_options_are_truncated (e : KubectlCmdBuilder)
    (bindings : List String) (s : stateDetails) (ctx : CommandContext) (out : String)
    (htype : s.resourceType ≠ "")
    (hout : e.kcExecutor.Execute bindings (resourceNamesCommand s) true ctx = .ok out) :
    (∃ sel : Select,
      (tryToGetResourceNamesSelect e bindings s ctx).1 = some sel ∧
      sel.options =
        (getNonEmptyLines out).map (fun name =>
          if name.length ≤ 75 then { Name := name, Value := name }
          else
            { Name := String.mk (name.data.take 72) ++ "..."
              Value := String.mk (name.data.take 72) ++ "..." }) ∧
      (∀ opt ∈ sel.options, opt.Value.length ≤ 75 ∧ opt.Name = opt.Value)) ∧
    (∀ (allVerbs allTypes : List String) (allowed : List Resource) (d : Resource)
      (name : String),
      allVerbs ≠ [] →
      e.commandGuard.GetAllowedResourcesForVerb s.verb allTypes = .ok allowed →
      (s.resourceType ∈ allowed.map fun r => r.Name) →
      e.commandGuard.GetResourceDetails s.verb s.resourceType = .ok d →
      name ∈ getNonEmptyLines out → 75 < name.length →
      s.resourceName = String.mk (name.data.take 72) ++ "..." →
        ∃ msg : CoreMessage,
          (renderMessage e s bindings allVerbs allTypes ctx).1 = .ok msg ∧
          msg.Message.Sections.drop 1 =
            PreviewSection
              ("kubectl " ++ s.verb ++ " " ++ s.resourceType ++
                (if d.SlashSeparatedInCommand = true then "/" else " ") ++
                (String.mk (name.data.take 72) ++ "...") ++
                (if keptNamespace e bindings s = "" then ""
                  else " -n " ++ keptNamespace e bindings s) ++
                (if s.filter = "" then "" else " --filter=" ++ e.quote s.filter))
              FilterSection) := by
  have hoff : offeredResourceNames e bindings s ctx =
      (getNonEmptyLines out).map fun name =>
        if name.length ≤ 75 then name else String.mk (name.data.take 72) ++ "..." := by
    simp [offeredResourceNames, htype, hout]
  constructor
  · obtain ⟨sel, hsel, hopts⟩ := tryToGetResourceNamesSelect_some e bindings s ctx
    refine ⟨sel, hsel, ?_, tryToGetResourceNamesSelect_values e bindings s ctx sel hsel⟩
    rw [hopts, hoff, List.map_map]
    apply List.map_congr_left
    intro name _
    by_cases h : name.length ≤ 75 <;> simp [h]
  · intro allVerbs allTypes allowed d name hverbs hgate hvalid hd hname hlong hsel
    obtain ⟨msg, hmsg, _, hok⟩ := renderMessage_listed_preview e s bindings allVerbs allTypes
      ctx allowed hverbs hgate hvalid
    have hin : s.resourceName ∈ offeredResourceNames e bindings s ctx := by
      rw [hoff, List.mem_map]
      refine ⟨name, hname, ?_⟩
      have h : ¬ name.length ≤ 75 := by omega
      simp [h, hsel]
    refine ⟨msg, hmsg, ?_⟩
    rw [(hok d hd).1 hin, hsel]

/-- C6, at a concrete input: the gateway lists a name of 80 bytes and the name `web-0`,
and the truncated text of the first is the resource name of the state. -/
theorem C6_resource_name_options_are_truncated_witness :
    longLabelState.resourceType ≠ "" ∧
    longNameBuilder.kcExecutor.Execute [] (resourceNamesCommand longLabelState) true {} =
      .ok (longName ++ "\nweb-0\n") ∧
    (∃ sel : Select,
      (tryToGetResourceNamesSelect longNameBuilder [] longLabelState {}).1 = some sel ∧
      sel.options =
        (getNonEmptyLines (longName ++ "\nweb-0\n")).map (fun name =>
          if name.length ≤ 75 then { Name := name, Value := name }
          else
            { Name := String.mk (name.data.take 72) ++ "..."
              Value := String.mk (name.data.take 72) ++ "..." }) ∧
      (∀ opt ∈ sel.options, opt.Value.length ≤ 75 ∧ opt.Name = opt.Value)) ∧
    (∃ msg : CoreMessage,
      (renderMessage longNameBuilder longLabelState [] ["get"] ["pods"] {}).1 = .ok msg ∧
      msg.Message.Sections.drop 1 =
        PreviewSection
          ("kubectl " ++ longLabelState.verb ++ " " ++ longLabelState.resourceType ++
            (if podsForGet.SlashSeparatedInCommand = true then "/" else " ") ++
            (String.mk (longName.data.take 72) ++ "...") ++
            (if keptNamespace longNameBuilder [] longLabelState = "" then ""
              else " -n " ++ keptNamespace longNameBuilder [] longLabelState) ++
            (if longLabelState.filter = "" then ""
              else " --filter=" ++ longNameBuilder.quote longLabelState.filter))
          FilterSection) :=
  ⟨by decide, rfl,
    (C6_resource_name_options_are_truncated longNameBuilder [] longLabelState {}
      (longName ++ "\nweb-0\n") (by decide) rfl).1,
    (C6_resource_name_options_are_truncated longNameBuilder [] longLabelState {}
      (longName ++ "\nweb-0\n") (by decide) rfl).2 ["get"] ["pods"] [podsForGet] podsForGet
      longName (by decide) rfl (by decide) rfl (by decide) (by decide) (by decide)⟩

theorem snapshotState_eq_reference (e : KubectlCmdBuilder) (bindings : List String)
    (state : Option BlockActionStates) :
    snapshotState e bindings state = snapshotReference e bindings state := by
  unfold snapshotState snapshotReference
  rw [extractStateDetails_eq_reference]
  simp only [getEnableKubectlDetails, kubectlDefaultNamespace]
  split <;> rfl

theorem sortStrings_ne_nil (xs : List String) (h : xs ≠ []) : sortStrings xs ≠ [] := by
  intro hs
  have hl := congrArg List.length hs
  simp only [sortStrings, List.length_insertionSort, List.length_nil] at hl
  exact h (List.length_eq_zero.1 hl)

theorem preview_without_name (e : KubectlCmdBuilder) (s : stateDetails)
    (h : s.resourceName = "") :
    (buildCommandPreview e s).1 = [] ∨
    (buildCommandPreview e s).1 = [InternalErrorSection] ∨
    ∃ d : Resource,
      (buildCommandPreview e s).1 =
        PreviewSection
          ("kubectl " ++ s.verb ++ " " ++ s.resourceType ++
            (if d.Namespaced = true ∧ s.namespace_ ≠ "" then " -n " ++ s.namespace_ else "") ++
            (if s.filter = "" then "" else " --filter=" ++ e.quote s.filter))
          FilterSection := by
  cases hd : e.commandGuard.GetResourceDetails s.verb s.resourceType with
  | error err => exact Or.inr (Or.inl (buildCommandPreview_error e s err hd))
  | ok d =>
    by_cases hS : d.SlashSeparatedInCommand = true
    · exact Or.inl (buildCommandPreview_incomplete e s d hd hS h)
    · refine Or.inr (Or.inr ⟨d, ?_⟩)
      rw [buildCommandPreview_command e s d hd (fun hc => hS hc.1)]
      simp [previewCommandReference, h]

theorem finalState_fields (s : stateDetails) (resNames nsNames : Option Select) :
    (finalState s resNames nsNames).verb = s.verb ∧
    (finalState s resNames nsNames).resourceType = s.resourceType ∧
    (finalState s resNames nsNames).filter = s.filter ∧
    ((finalState s resNames nsNames).namespace_ = "" ∨
      (finalState s resNames nsNames).namespace_ = s.namespace_) ∧
    ((finalState s resNames nsNames).resourceName = "" ∨
      (finalState s resNames nsNames).resourceName = s.resourceName) := by
  simp only [finalState]
  split <;> split <;> simp

/-- C19 (as stated, refuted). In a channel where no verb is enabled, the result of `Do`
for a resource-type selection is the plain-text message that no command is enabled, while
the render of the state of the snapshot with the resource name cleared is the error of
the verb dropdown; on a platform that is not interactive the result of `Do` is the
plain-text message that asks for the command, while the render of that state is a message
with a preview.  In neither case is the result of `Do` that render. -/
theorem C19_counterexample_result_is_not_the_render :
    ((Do noVerbsBuilder (.ok "id-1") ["kc-cmd-builder", "--resource-type"] true ["b"]
        (some podSelectedPayload) "header" {}).map fun result =>
          (result.1.toOption.map fun msg => msg.Message.BaseBody.Plaintext, result.2)) =
      some (some noKubectlCommandsInChannel, []) ∧
    (noVerbsBuilder.merger.MergeAllEnabled ["b"]).AllowedKubectlVerb = [] ∧
    (renderMessage noVerbsBuilder
        { snapshotReference noVerbsBuilder ["b"] (some podSelectedPayload) with
          resourceName := "" }
        ["b"]
        (noVerbsBuilder.commandGuard.FilterSupportedVerbs
          (sortStrings (noVerbsBuilder.merger.MergeAllEnabled ["b"]).AllowedKubectlVerb))
        (sortStrings (noVerbsBuilder.merger.MergeAllEnabled ["b"]).AllowedKubectlResource)
        {}).1.toOption = none ∧
    ((Do webBuilder (.ok "id-1") ["kc-cmd-builder", "--resource-type"] false ["b"]
        (some podSelectedPayload) "header" {}).map fun result =>
          (result.1.toOption.map fun msg =>
            (msg.Message.BaseBody.Plaintext, msg.hasCommandPreview), result.2.length)) =
      some (some (kubectlMissingCommandMsg, false), 0) ∧
    ((renderMessage webBuilder
        { snapshotReference webBuilder ["b"] (some podSelectedPayload) with
          resourceName := "" }
        ["b"]
        (webBuilder.commandGuard.FilterSupportedVerbs
          (sortStrings (webBuilder.merger.MergeAllEnabled ["b"]).AllowedKubectlVerb))
        (sortStrings (webBuilder.merger.MergeAllEnabled ["b"]).AllowedKubectlResource)
        {}).1.toOption.map fun msg =>
          (msg.Message.BaseBody.Plaintext, msg.hasCommandPreview)) =
      some ("", true) :=
  ⟨by decide, rfl, by decide, by decide, by decide⟩

/-- C19 (amended). On an interactive platform, in a channel whose bindings enable at least
one verb, for every snapshot: when the command of the interaction is the resource-type
command or the namespace command, the result of `Do` is the render, with the supported
verbs and the resource types of the bindings, of the state read from the snapshot with the
resource name cleared, and what follows the dropdowns in the message is nothing, the
internal-error section, or a preview whose command is the binary, the verb and a resource
type, followed by the namespace flag and the filter flag when they apply, with no resource
name; when the command is the verb, the resource-name or the filter command, the result of
`Do` is the render of the state read from the snapshot, whose resource name is the value
of the resource-name element of the snapshot. -/
theorem C19_Do_clears_resource_name (e : KubectlCmdBuilder) (newID : Except String String)
    (cmdName cmdVerb : String) (rest bindings : List String)
    (state : Option BlockActionStates) (header : String) (ctx : CommandContext)
    (hverbs : (e.merger.MergeAllEnabled bindings).AllowedKubectlVerb ≠ []) :
    ((cmdName ++ " " ++ cmdVerb = resourceTypesDropdownCommand ∨
        cmdName ++ " " ++ cmdVerb = resourceNamespaceDropdownCommand) →
      Do e newID (cmdName :: cmdVerb :: rest) true bindings state header ctx =
        some (renderMessage e { snapshotReference e bindings state with resourceName := "" }
          bindings
          (e.commandGuard.FilterSupportedVerbs
            (sortStrings (e.merger.MergeAllEnabled bindings).AllowedKubectlVerb))
          (sortStrings (e.merger.MergeAllEnabled bindings).AllowedKubectlResource) ctx) ∧
      (∀ (msg : CoreMessage) (calls : List Call),
        Do e newID (cmdName :: cmdVerb :: rest) true bindings state header ctx =
            some (.ok msg, calls) →
          msg.Message.Sections.drop 1 = [] ∨
          msg.Message.Sections.drop 1 = [InternalErrorSection] ∨
          ∃ (d : Resource) (rt ns : String),
            (rt = "" ∨ rt = (snapshotReference e bindings state).resourceType) ∧
            (ns = "" ∨ ns = (snapshotReference e bindings state).namespace_) ∧
            msg.Message.Sections.drop 1 =
              PreviewSection
                ("kubectl " ++ (snapshotReference e bindings state).verb ++ " " ++ rt ++
                  (if d.Namespaced = true ∧ ns ≠ "" then " -n " ++ ns else "") ++
                  (if (snapshotReference e bindings state).filter = "" then ""
                    else " --filter=" ++ e.quote (snapshotReference e bindings state).filter))
                FilterSection)) ∧
    ((cmdName ++ " " ++ cmdVerb = verbsDropdownCommand ∨
        cmdName ++ " " ++ cmdVerb = resourceNamesDropdownCommand ∨
        cmdName ++ " " ++ cmdVerb = filterPlaintextInputCommand) →
      Do e newID (cmdName :: cmdVerb :: rest) true bindings state header ctx =
        some (renderMessage e (snapshotReference e bindings state) bindings
          (e.commandGuard.FilterSupportedVerbs
            (sortStrings (e.merger.MergeAllEnabled bindings).AllowedKubectlVerb))
          (sortStrings (e.merger.MergeAllEnabled bindings).AllowedKubectlResource) ctx) ∧
      (∀ payload : BlockActionStates, state = some payload →
        (snapshotReference e bindings state).resourceName =
          recognisedValue TrimSpace payload.elements resourceNamesDropdownCommand
            fun act => act.SelectedOption.Value)) := by
  have hsome : (getEnableKubectlDetails e bindings).1 ≠ [] :=
    sortStrings_ne_nil _ hverbs
  have hvs : (getEnableKubectlDetails e bindings).1 =
      sortStrings (e.merger.MergeAllEnabled bindings).AllowedKubectlVerb := rfl
  have hts : (getEnableKubectlDetails e bindings).2.1 =
      sortStrings (e.merger.MergeAllEnabled bindings).AllowedKubectlResource := rfl
  constructor
  · intro hcmd
    have hknown : cmdName ++ " " ++ cmdVerb ∈ knownCmdPrefix := by
      rcases hcmd with h | h <;> simp [knownCmdPrefix, h]
    have hdo := Do_render e newID cmdName cmdVerb rest bindings state header ctx hsome hknown
    rw [if_pos hcmd, snapshotState_eq_reference, hvs, hts] at hdo
    refine ⟨hdo, ?_⟩
    intro msg calls hres
    rw [hdo] at hres
    have hmsg : (renderMessage e { snapshotReference e bindings state with resourceName := "" }
        bindings
        (e.commandGuard.FilterSupportedVerbs
          (sortStrings (e.merger.MergeAllEnabled bindings).AllowedKubectlVerb))
        (sortStrings (e.merger.MergeAllEnabled bindings).AllowedKubectlResource) ctx).1 =
        .ok msg := by
      rw [Option.some.inj hres]
    rcases renderMessage_preview e _ bindings _ _ ctx msg hmsg with h | h | h
    · exact Or.inl h
    · rw [h]
      rcases preview_without_name e
        (clearedState { snapshotReference e bindings state with resourceName := "" }) rfl
        with hp | hp | ⟨d, hp⟩
      · exact Or.inl hp
      · exact Or.inr (Or.inl hp)
      · exact Or.inr (Or.inr ⟨d, "", "", Or.inl rfl, Or.inl rfl, hp⟩)
    · rw [h]
      obtain ⟨hv, ht, hf, hns, hname⟩ := finalState_fields
        { snapshotReference e bindings state with resourceName := "" }
        (tryToGetResourceNamesSelect e bindings
          { snapshotReference e bindings state with resourceName := "" } ctx).1
        (tryToGetNamespaceSelect e bindings
          { snapshotReference e bindings state with resourceName := "" }).1
      have hname0 : (finalState { snapshotReference e bindings state with resourceName := "" }
          (tryToGetResourceNamesSelect e bindings
            { snapshotReference e bindings state with resourceName := "" } ctx).1
          (tryToGetNamespaceSelect e bindings
            { snapshotReference e bindings state with resourceName := "" }).1).resourceName
          = "" := by
        rcases hname with h0 | h0
        · exact h0
        · exact h0
      rcases preview_without_name e _ hname0 with hp | hp | ⟨d, hp⟩
      · exact Or.inl hp
      · exact Or.inr (Or.inl hp)
      · refine Or.inr (Or.inr ⟨d, _, _, Or.inr rfl, hns, ?_⟩)
        rw [hp, hv, ht, hf]
  · intro hcmd
    have hknown : cmdName ++ " " ++ cmdVerb ∈ knownCmdPrefix := by
      rcases hcmd with h | h | h <;> simp [knownCmdPrefix, h]
    have hnot : ¬ (cmdName ++ " " ++ cmdVerb = resourceTypesDropdownCommand ∨
        cmdName ++ " " ++ cmdVerb = resourceNamespaceDropdownCommand) := by
      rcases hcmd with h | h | h <;> rw [h] <;> decide
    refine ⟨?_, ?_⟩
    · rw [Do_render e newID cmdName cmdVerb rest bindings state header ctx hsome hknown,
        if_neg hnot, snapshotState_eq_reference, hvs, hts]
    · intro payload hstate
      subst hstate
      rfl

/-- C19, at a concrete input: the namespace is changed while the pod `web-0` is selected. -/
theorem C19_Do_clears_resource_name_witness :
    (webBuilder.merger.MergeAllEnabled ["b"]).AllowedKubectlVerb ≠ [] ∧
    ("kc-cmd-builder" ++ " " ++ "--namespace" = resourceTypesDropdownCommand ∨
      "kc-cmd-builder" ++ " " ++ "--namespace" = resourceNamespaceDropdownCommand) ∧
    Do webBuilder (.ok "id-1") ("kc-cmd-builder" :: "--namespace" :: []) true ["b"]
        (some podSelectedPayload) "header" {} =
      some (renderMessage webBuilder
        { snapshotReference webBuilder ["b"] (some podSelectedPayload) with resourceName := "" }
        ["b"]
        (webBuilder.commandGuard.FilterSupportedVerbs
          (sortStrings (webBuilder.merger.MergeAllEnabled ["b"]).AllowedKubectlVerb))
        (sortStrings (webBuilder.merger.MergeAllEnabled ["b"]).AllowedKubectlResource) {}) ∧
    ("kc-cmd-builder" ++ " " ++ "--resource-name" = verbsDropdownCommand ∨
      "kc-cmd-builder" ++ " " ++ "--resource-name" = resourceNamesDropdownCommand ∨
      "kc-cmd-builder" ++ " " ++ "--resource-name" = filterPlaintextInputCommand) ∧
    Do webBuilder (.ok "id-1") ("kc-cmd-builder" :: "--resource-name" :: []) true ["b"]
        (some podSelectedPayload) "header" {} =
      some (renderMessage webBuilder
        (snapshotReference webBuilder ["b"] (some podSelectedPayload)) ["b"]
        (webBuilder.commandGuard.FilterSupportedVerbs
          (sortStrings (webBuilder.merger.MergeAllEnabled ["b"]).AllowedKubectlVerb))
        (sortStrings (webBuilder.merger.MergeAllEnabled ["b"]).AllowedKubectlResource) {}) ∧
    (snapshotReference webBuilder ["b"] (some podSelectedPayload)).resourceName = "web-0" :=
  ⟨by decide, by decide,
    ((C19_Do_clears_resource_name webBuilder (.ok "id-1") "kc-cmd-builder" "--namespace" []
      ["b"] (some podSelectedPayload) "header" {} (by decide)).1 (by decide)).1,
    by decide,
    ((C19_Do_clears_resource_name webBuilder (.ok "id-1") "kc-cmd-builder" "--resource-name" []
      ["b"] (some podSelectedPayload) "header" {} (by decide)).2 (by decide)).1,
    by decide⟩

end Botkube
